import Mathlib

/-!
# Verification of the bitboard chess-engine core

Shallow embedding of the engine's bitboard core:

* `src/engine/board.py` — bitboard state, metadata packing, make/unmake,
  null move, Zobrist hashing;
* `src/backend/engine/moves.py` — pseudo-legal generation, legality filter,
  attack tests (this is the move generator that operates on the bitboard
  `Board` of `src/engine/board.py`);
* `src/backend/engine/search.py` — the search driver's terminal cases and
  its capture classifier;
* `src/engine/transposition.py` — transposition-table probe and store;
* `src/engine/evaluation.py` — the classical evaluator.

Conventions of the embedding:

* A bitboard is a `Nat` below `2 ^ 64`; the numpy `uint64` operations are
  translated with explicit masking where overflow can occur.
* The state array `state[0..14]` of `board.py` is a `List Nat` of length 15
  (indices 0–11 piece bitboards, 12 occupancy, 13 metadata, 14 hash).
* A move is a `Nat` below `2 ^ 16`, encoded exactly as in the source
  (bits 0–5 from-square, 6–11 to-square, 12–15 flag).
* Python loops `while bb: sq = lsb(bb); bb = clear_bit(bb, sq)` visit the
  set bits of a 64-bit board in increasing index order; they are translated
  as iteration over the ascending list of set squares (`bitSquares`).
* The Zobrist key tables are produced at import time by a seeded PRNG and
  the spec treats key generation as an external input resource; the
  embedding takes the key tables as an explicit parameter (`ZKeys`).
-/

namespace ChessAI

/-- All 64 bits set: the value of `~np.uint64(0)`; complements are taken
against this mask, matching `~` on `uint64`. -/
def MASK64 : Nat := 2 ^ 64 - 1

/-- `set_bit` of board.py: `bb | (1 << square)`. -/
def set_bit (bb : Nat) (square : Nat) : Nat := bb ||| (1 <<< square)

/-- `clear_bit` of board.py: `bb & ~(1 << square)` on `uint64`. -/
def clear_bit (bb : Nat) (square : Nat) : Nat := bb &&& (MASK64 ^^^ (1 <<< square))

/-- `get_bit` of board.py: `(bb & (1 << square)) != 0`. -/
def get_bit (bb : Nat) (square : Nat) : Bool := bb &&& (1 <<< square) != 0

/-- The 64-entry De Bruijn index table of `lsb` in board.py. -/
def lsbIndexTable : List Nat :=
  [0, 47, 1, 56, 48, 27, 2, 60, 57, 49, 41, 37, 28, 16, 3, 61,
   54, 58, 35, 52, 50, 42, 21, 44, 38, 32, 29, 23, 17, 11, 4, 62,
   46, 55, 26, 59, 40, 36, 15, 53, 34, 51, 20, 43, 31, 22, 10, 45,
   25, 39, 14, 33, 19, 30, 9, 24, 13, 18, 8, 12, 7, 6, 5, 63]

/-- `lsb` of board.py: index of the least significant set bit by De Bruijn
multiplication, `-1` on the empty board.  The `uint64` product wraps, hence
the `% 2 ^ 64`. -/
def lsb (bb : Nat) : Int :=
  if bb = 0 then -1
  else
    (lsbIndexTable.getD ((((bb ^^^ (bb - 1)) * 0x03f79d71b4cb0a89) % 2 ^ 64) >>> 58) 0 : Int)

/-- `square_to_coords`: `(square // 8, square % 8)`; row 0 is rank 8. -/
def square_to_coords (square : Nat) : Nat × Nat := (square / 8, square % 8)

/-- `coords_to_square`: `row * 8 + col`. -/
def coords_to_square (row col : Nat) : Nat := row * 8 + col

/-- `encode_move` of board.py: `(flags << 12) | (to_sq << 6) | from_sq`. -/
def encode_move (from_sq to_sq : Nat) (flags : Nat) : Nat :=
  (flags <<< 12) ||| (to_sq <<< 6) ||| from_sq

/-- From-square of a 16-bit move: `move & 0x3F`. -/
def moveFrom (move : Nat) : Nat := move &&& 0x3F

/-- To-square of a 16-bit move: `(move >> 6) & 0x3F`. -/
def moveTo (move : Nat) : Nat := (move >>> 6) &&& 0x3F

/-- Flag of a 16-bit move: `move >> 12` on `uint16`, i.e. the top four bits. -/
def moveFlags (move : Nat) : Nat := (move >>> 12) &&& 0xF

-- Move flag constants of board.py.
def FLAG_NORMAL : Nat := 0
def FLAG_PROMOTION_QUEEN : Nat := 1
def FLAG_PROMOTION_ROOK : Nat := 2
def FLAG_PROMOTION_BISHOP : Nat := 3
def FLAG_PROMOTION_KNIGHT : Nat := 4
def FLAG_CASTLING_KINGSIDE : Nat := 5
def FLAG_CASTLING_QUEENSIDE : Nat := 6
def FLAG_EN_PASSANT : Nat := 7

-- Castling-right bits of board.py.
def CASTLE_WK : Nat := 1
def CASTLE_WQ : Nat := 2
def CASTLE_BK : Nat := 4
def CASTLE_BQ : Nat := 8
def CASTLE_ALL : Nat := 15

-- Square constants of board.py (row 0 = rank 8).
def A1 : Nat := 56
def B1 : Nat := 57
def C1 : Nat := 58
def D1 : Nat := 59
def E1 : Nat := 60
def F1 : Nat := 61
def G1 : Nat := 62
def H1 : Nat := 63
def A8 : Nat := 0
def B8 : Nat := 1
def C8 : Nat := 2
def D8 : Nat := 3
def E8 : Nat := 4
def F8 : Nat := 5
def G8 : Nat := 6
def H8 : Nat := 7

/-- `pack_metadata`: `castling(4) | ep(7) | halfmove(9) | side(1)`; the
en-passant square is stored as `square + 1` so `0` means "none". -/
def pack_metadata (castling : Nat) (ep_square : Int) (halfmove : Nat) (side : Nat) : Nat :=
  let ep_encoded : Nat := (ep_square + 1).toNat &&& 0x7F
  (castling &&& 0xF) ||| (ep_encoded <<< 4) ||| ((halfmove &&& 0x1FF) <<< 11) |||
    ((side &&& 0x1) <<< 20)

/-- `unpack_castling`: `meta & 0xF`. -/
def unpack_castling (meta : Nat) : Nat := meta &&& 0xF

/-- `unpack_ep_square`: `((meta >> 4) & 0x7F) - 1`; `-1` means no square. -/
def unpack_ep_square (meta : Nat) : Int := ((meta >>> 4) &&& 0x7F : Nat) - (1 : Int)

/-- `unpack_halfmove`: `(meta >> 11) & 0x1FF`. -/
def unpack_halfmove (meta : Nat) : Nat := (meta >>> 11) &&& 0x1FF

/-- `unpack_side`: `(meta >> 20) & 0x1`. -/
def unpack_side (meta : Nat) : Nat := (meta >>> 20) &&& 0x1

/-- Offset-table attack mask shared by `init_knight_attacks` and
`init_king_attacks`: offset the source square by each delta and clip to the
board. -/
def leaperAttacks (offsets : List (Int × Int)) (sq : Nat) : Nat :=
  let row : Int := (sq / 8 : Nat)
  let col : Int := (sq % 8 : Nat)
  offsets.foldl
    (fun bb d =>
      let r := row + d.1
      let c := col + d.2
      if 0 ≤ r ∧ r < 8 ∧ 0 ≤ c ∧ c < 8 then set_bit bb (r.toNat * 8 + c.toNat) else bb)
    0

/-- The knight offsets of `init_knight_attacks`. -/
def knightOffsets : List (Int × Int) :=
  [(-2, -1), (-2, 1), (-1, -2), (-1, 2), (1, -2), (1, 2), (2, -1), (2, 1)]

/-- The king offsets of `init_king_attacks`. -/
def kingOffsets : List (Int × Int) :=
  [(-1, -1), (-1, 0), (-1, 1), (0, -1), (0, 1), (1, -1), (1, 0), (1, 1)]

/-- `KNIGHT_ATTACKS[sq]`. -/
def KNIGHT_ATTACKS (sq : Nat) : Nat := leaperAttacks knightOffsets sq

/-- `KING_ATTACKS[sq]`. -/
def KING_ATTACKS (sq : Nat) : Nat := leaperAttacks kingOffsets sq

/-- `PAWN_ATTACKS[color][sq]` of `init_pawn_attacks`: the diagonal attack
squares of a pawn of `color` standing on `sq` (white attacks towards row 0). -/
def PAWN_ATTACKS (color : Nat) (sq : Nat) : Nat :=
  let row := sq / 8
  let col := sq % 8
  if color = 0 then
    if 0 < row then
      (if 0 < col then set_bit 0 (coords_to_square (row - 1) (col - 1)) else 0) |||
        (if col < 7 then set_bit 0 (coords_to_square (row - 1) (col + 1)) else 0)
    else 0
  else
    if row < 7 then
      (if 0 < col then set_bit 0 (coords_to_square (row + 1) (col - 1)) else 0) |||
        (if col < 7 then set_bit 0 (coords_to_square (row + 1) (col + 1)) else 0)
    else 0

/-- One ray of the classical sliding-attack walk: visit the squares in
order, set each square's bit, and stop after the first blocker.  The square
lists passed to it are the (at most seven) squares of one direction in
walking order, so this is the `for … break` loop of `rook_attacks` /
`bishop_attacks`. -/
def rayWalk (occupied : Nat) : List Nat → Nat
  | [] => 0
  | sq :: rest =>
    if get_bit occupied sq then set_bit 0 sq
    else set_bit 0 sq ||| rayWalk occupied rest

/-- `rook_attacks(square, occupied)`: the four orthogonal ray walks. -/
def rook_attacks (square : Nat) (occupied : Nat) : Nat :=
  let row := square / 8
  let col := square % 8
  -- North: rows row-1 .. 0.
  let north := (List.range row).reverse.map (fun r => coords_to_square r col)
  -- South: rows row+1 .. 7.
  let south := (List.range (7 - row)).map (fun i => coords_to_square (row + 1 + i) col)
  -- West: cols col-1 .. 0.
  let west := (List.range col).reverse.map (fun c => coords_to_square row c)
  -- East: cols col+1 .. 7.
  let east := (List.range (7 - col)).map (fun i => coords_to_square row (col + 1 + i))
  rayWalk occupied north ||| rayWalk occupied south ||| rayWalk occupied west |||
    rayWalk occupied east

/-- `bishop_attacks(square, occupied)`: the four diagonal ray walks. -/
def bishop_attacks (square : Nat) (occupied : Nat) : Nat :=
  let row := square / 8
  let col := square % 8
  let nw := (List.range (min row col)).map
    (fun k => coords_to_square (row - 1 - k) (col - 1 - k))
  let ne := (List.range (min row (7 - col))).map
    (fun k => coords_to_square (row - 1 - k) (col + 1 + k))
  let sw := (List.range (min (7 - row) col)).map
    (fun k => coords_to_square (row + 1 + k) (col - 1 - k))
  let se := (List.range (min (7 - row) (7 - col))).map
    (fun k => coords_to_square (row + 1 + k) (col + 1 + k))
  rayWalk occupied nw ||| rayWalk occupied ne ||| rayWalk occupied sw ||| rayWalk occupied se

/-- `queen_attacks = rook_attacks | bishop_attacks`. -/
def queen_attacks (square : Nat) (occupied : Nat) : Nat :=
  rook_attacks square occupied ||| bishop_attacks square occupied

/-!
## The state array

`board.py` keeps the whole position in one `uint64` array: indices 0–5 the
white piece bitboards (P, N, B, R, Q, K), 6–11 the black ones, 12 the
occupancy, 13 the packed metadata, 14 the Zobrist hash.
-/

/-- The state array of board.py, as a list of 64-bit values (length 15;
indices 15–19 of the source array are reserved and never touched by the
code under verification). -/
abbrev State := List Nat

def OCCUPIED : Nat := 12
def META : Nat := 13
def HASH : Nat := 14

/-- Read `state[i]`. -/
def getIdx (s : State) (i : Nat) : Nat := s.getD i 0

/-- Write `state[i] = v`. -/
def setIdx (s : State) (i : Nat) (v : Nat) : State := s.set i v

/-- The set squares of a 64-bit board in increasing order: the order in
which `while bb: sq = lsb(bb); bb = clear_bit(bb, sq)` visits them. -/
def bitSquares (bb : Nat) : List Nat :=
  (List.range 64).filter (fun sq => get_bit bb sq)

/-- The `own_pieces` / `opponent_pieces` accumulation loops of moves.py:
the union of the six piece bitboards of one color. -/
def side_pieces (s : State) (color : Nat) : Nat :=
  (List.range 6).foldl (fun acc i => acc ||| getIdx s ((if color = 0 then 0 else 6) + i)) 0

/-- `occupied` rebuild loop of make/unmake: OR of the twelve piece boards. -/
def occUnion (s : State) : Nat :=
  (List.range 12).foldl (fun acc i => acc ||| getIdx s i) 0

/-- `get_piece_at`: scan piece types 0–5, checking the white then the black
bitboard of each type; returns `(piece_type, color)`, or `(-1, -1)` when
the square is empty. -/
def get_piece_at_go (s : State) (square : Nat) : List Nat → Int × Int
  | [] => (-1, -1)
  | pi :: rest =>
    if get_bit (getIdx s pi) square then ((pi : Int), 0)
    else if get_bit (getIdx s (pi + 6)) square then ((pi : Int), 1)
    else get_piece_at_go s square rest

def get_piece_at (s : State) (square : Nat) : Int × Int :=
  get_piece_at_go s square [0, 1, 2, 3, 4, 5]

/-!
## Zobrist keys

The key tables are generated at import time from a seeded PRNG
(`_init_zobrist_keys`); the spec treats the key tables as an external input
resource, so the embedding passes them as a parameter.
-/

/-- The Zobrist key tables: `ZOBRIST_PIECES[12][64]`, `ZOBRIST_CASTLING[16]`,
`ZOBRIST_EP[8]` and `ZOBRIST_SIDE`. -/
structure ZKeys where
  pieces : Nat → Nat → Nat
  castling : Nat → Nat
  ep : Nat → Nat
  side : Nat

/-- The all-zero key table (used where the keys cannot influence the
result, e.g. the legality filter, which never reads the hash slot). -/
def zobristZero : ZKeys := ⟨fun _ _ => 0, fun _ => 0, fun _ => 0, 0⟩

/-- The piece loop of `compute_zobrist_hash`: XOR the piece-square key of
every piece on the board. -/
def zobristPiecesFold (k : ZKeys) (s : State) : Nat :=
  (List.range 12).foldl
    (fun h pi => (bitSquares (getIdx s pi)).foldl (fun h' sq => h' ^^^ k.pieces pi sq) h) 0

/-- `compute_zobrist_hash`: XOR the piece-square key of every piece on the
board, the castling key of the 4-bit rights mask, the en-passant file key
when an EP square is set, and the side key when black is to move. -/
def compute_zobrist_hash (k : ZKeys) (s : State) : Nat :=
  let h1 := zobristPiecesFold k s ^^^ k.castling (unpack_castling (getIdx s META))
  let ep_sq := unpack_ep_square (getIdx s META)
  let h2 := if 0 ≤ ep_sq then h1 ^^^ k.ep (ep_sq.toNat % 8) else h1
  if unpack_side (getIdx s META) = 1 then h2 ^^^ k.side else h2

/-- `create_initial_state` before the hash slot is filled. -/
def initialArray : State :=
  [0x00FF000000000000, 0x4200000000000000, 0x2400000000000000, 0x8100000000000000,
   0x0800000000000000, 0x1000000000000000,
   0x000000000000FF00, 0x0000000000000042, 0x0000000000000024, 0x0000000000000081,
   0x0000000000000008, 0x0000000000000010,
   0xFFFF00000000FFFF, pack_metadata CASTLE_ALL (-1) 0 0, 0]

/-- `create_initial_state`: the starting position, hash computed from
scratch. -/
def create_initial_state (k : ZKeys) : State :=
  setIdx initialArray HASH (compute_zobrist_hash k initialArray)

/-!
## Make / unmake

`make_move_numba` mutates the state in place and returns the undo record
`[old_meta, captured_piece_type, captured_color, old_hash]`.  The source
stores the record in an `int64` array; storing the `uint64` hash and
re-casting it to `uint64` on restore is the identity on 64-bit values, so
the record is embedded with a `Nat` hash field and `Int` capture fields
(`-1` is the no-capture sentinel).
-/

structure UndoInfo where
  meta : Nat
  capType : Int
  capColor : Int
  hash : Nat

/-- The undo record built at the top of `make_move_numba`: old metadata and
hash, and whatever `get_piece_at` finds on the destination square (the
capture branch copies exactly that into the record, and leaves `-1, -1`
when the destination is empty). -/
def mkUndo (s : State) (move : Nat) : UndoInfo :=
  let cap := get_piece_at s (moveTo move)
  ⟨getIdx s META, cap.1, cap.2, getIdx s HASH⟩

/-- The board/metadata strand of `make_move_numba`: every write to the
state array except the final hash store.  `castling &= ~X` on a 4-bit
rights value equals `castling &&& (0xF ^^^ X)`. -/
def applyMoveBoards (s : State) (move : Nat) : State :=
  let from_sq := moveFrom move
  let to_sq := moveTo move
  let flags := moveFlags move
  let pc := get_piece_at s from_sq
  let piece_type := pc.1
  let color := pc.2
  let piece_idx : Nat := (if color = 0 then piece_type else piece_type + 6).toNat
  -- Capture handling (runs before the flag dispatch, as in the source).
  let cap := get_piece_at s to_sq
  let s1 :=
    if 0 ≤ cap.1 then
      let cap_idx : Nat := (if cap.2 = 0 then cap.1 else cap.1 + 6).toNat
      setIdx s cap_idx (clear_bit (getIdx s cap_idx) to_sq)
    else s
  let ep_square := unpack_ep_square (getIdx s META)
  let side := unpack_side (getIdx s META)
  -- Flag dispatch.
  let s2 :=
    if flags = FLAG_CASTLING_KINGSIDE then
      let sk := setIdx s1 piece_idx (set_bit (clear_bit (getIdx s1 piece_idx) from_sq) to_sq)
      let rook_idx : Nat := if color = 0 then 3 else 9
      let rook_from := if color = 0 then H1 else H8
      let rook_to := if color = 0 then F1 else F8
      setIdx sk rook_idx (set_bit (clear_bit (getIdx sk rook_idx) rook_from) rook_to)
    else if flags = FLAG_CASTLING_QUEENSIDE then
      let sk := setIdx s1 piece_idx (set_bit (clear_bit (getIdx s1 piece_idx) from_sq) to_sq)
      let rook_idx : Nat := if color = 0 then 3 else 9
      let rook_from := if color = 0 then A1 else A8
      let rook_to := if color = 0 then D1 else D8
      setIdx sk rook_idx (set_bit (clear_bit (getIdx sk rook_idx) rook_from) rook_to)
    else if flags = FLAG_EN_PASSANT then
      let sp := setIdx s1 piece_idx (set_bit (clear_bit (getIdx s1 piece_idx) from_sq) to_sq)
      let ep_capture_sq : Nat := (if color = 0 then ep_square + 8 else ep_square - 8).toNat
      let ep_pawn_idx : Nat := if color = 0 then 6 else 0
      setIdx sp ep_pawn_idx (clear_bit (getIdx sp ep_pawn_idx) ep_capture_sq)
    else if 1 ≤ flags ∧ flags ≤ 4 then
      let sp := setIdx s1 piece_idx (clear_bit (getIdx s1 piece_idx) from_sq)
      let promo_piece : Nat := [0, 4, 3, 2, 1].getD flags 0
      let promo_idx : Nat := if color = 0 then promo_piece else promo_piece + 6
      setIdx sp promo_idx (set_bit (getIdx sp promo_idx) to_sq)
    else
      setIdx s1 piece_idx (set_bit (clear_bit (getIdx s1 piece_idx) from_sq) to_sq)
  -- Castling-rights update.
  let castling0 := unpack_castling (getIdx s META)
  let castling1 :=
    if piece_type = 5 then
      if color = 0 then castling0 &&& (0xF ^^^ (CASTLE_WK ||| CASTLE_WQ))
      else castling0 &&& (0xF ^^^ (CASTLE_BK ||| CASTLE_BQ))
    else if piece_type = 3 then
      if color = 0 then
        if from_sq = A1 then castling0 &&& (0xF ^^^ CASTLE_WQ)
        else if from_sq = H1 then castling0 &&& (0xF ^^^ CASTLE_WK)
        else castling0
      else
        if from_sq = A8 then castling0 &&& (0xF ^^^ CASTLE_BQ)
        else if from_sq = H8 then castling0 &&& (0xF ^^^ CASTLE_BK)
        else castling0
    else castling0
  let castling2 :=
    if cap.1 = 3 then
      if to_sq = A1 then castling1 &&& (0xF ^^^ CASTLE_WQ)
      else if to_sq = H1 then castling1 &&& (0xF ^^^ CASTLE_WK)
      else if to_sq = A8 then castling1 &&& (0xF ^^^ CASTLE_BQ)
      else if to_sq = H8 then castling1 &&& (0xF ^^^ CASTLE_BK)
      else castling1
    else castling1
  -- En-passant update: set iff a pawn moved two squares.
  let new_ep : Int :=
    if piece_type = 0 ∧ ((to_sq : Int) - (from_sq : Int)).natAbs = 16 then
      (((from_sq + to_sq) / 2 : Nat) : Int)
    else -1
  -- Halfmove clock.
  let halfmove :=
    if piece_type = 0 ∨ 0 ≤ cap.1 then 0 else unpack_halfmove (getIdx s META) + 1
  -- Occupancy rebuild, then metadata pack with the flipped side.
  let s3 := setIdx s2 OCCUPIED (occUnion s2)
  setIdx s3 META (pack_metadata castling2 new_ep halfmove (1 - side))

/-- The `hash_val` strand of `make_move_numba`: the incremental Zobrist
update, following the same dataflow (capture key out, per-flag piece keys,
castling / en-passant / side deltas). -/
def makeMoveHash (k : ZKeys) (s : State) (move : Nat) : Nat :=
  let from_sq := moveFrom move
  let to_sq := moveTo move
  let flags := moveFlags move
  let pc := get_piece_at s from_sq
  let piece_type := pc.1
  let color := pc.2
  let piece_idx : Nat := (if color = 0 then piece_type else piece_type + 6).toNat
  let h0 := getIdx s HASH
  let cap := get_piece_at s to_sq
  let h1 :=
    if 0 ≤ cap.1 then
      let cap_idx : Nat := (if cap.2 = 0 then cap.1 else cap.1 + 6).toNat
      h0 ^^^ k.pieces cap_idx to_sq
    else h0
  let ep_square := unpack_ep_square (getIdx s META)
  let h2 :=
    if flags = FLAG_CASTLING_KINGSIDE then
      let hk := h1 ^^^ k.pieces piece_idx from_sq ^^^ k.pieces piece_idx to_sq
      let rook_idx : Nat := if color = 0 then 3 else 9
      let rook_from := if color = 0 then H1 else H8
      let rook_to := if color = 0 then F1 else F8
      hk ^^^ k.pieces rook_idx rook_from ^^^ k.pieces rook_idx rook_to
    else if flags = FLAG_CASTLING_QUEENSIDE then
      let hk := h1 ^^^ k.pieces piece_idx from_sq ^^^ k.pieces piece_idx to_sq
      let rook_idx : Nat := if color = 0 then 3 else 9
      let rook_from := if color = 0 then A1 else A8
      let rook_to := if color = 0 then D1 else D8
      hk ^^^ k.pieces rook_idx rook_from ^^^ k.pieces rook_idx rook_to
    else if flags = FLAG_EN_PASSANT then
      let hp := h1 ^^^ k.pieces piece_idx from_sq ^^^ k.pieces piece_idx to_sq
      let ep_capture_sq : Nat := (if color = 0 then ep_square + 8 else ep_square - 8).toNat
      let ep_pawn_idx : Nat := if color = 0 then 6 else 0
      hp ^^^ k.pieces ep_pawn_idx ep_capture_sq
    else if 1 ≤ flags ∧ flags ≤ 4 then
      let hp := h1 ^^^ k.pieces piece_idx from_sq
      let promo_piece : Nat := [0, 4, 3, 2, 1].getD flags 0
      let promo_idx : Nat := if color = 0 then promo_piece else promo_piece + 6
      hp ^^^ k.pieces promo_idx to_sq
    else
      h1 ^^^ k.pieces piece_idx from_sq ^^^ k.pieces piece_idx to_sq
  -- Metadata deltas (the castling / EP recomputation mirrors the board
  -- strand; both are slices of the same source function).
  let castling0 := unpack_castling (getIdx s META)
  let castling1 :=
    if piece_type = 5 then
      if color = 0 then castling0 &&& (0xF ^^^ (CASTLE_WK ||| CASTLE_WQ))
      else castling0 &&& (0xF ^^^ (CASTLE_BK ||| CASTLE_BQ))
    else if piece_type = 3 then
      if color = 0 then
        if from_sq = A1 then castling0 &&& (0xF ^^^ CASTLE_WQ)
        else if from_sq = H1 then castling0 &&& (0xF ^^^ CASTLE_WK)
        else castling0
      else
        if from_sq = A8 then castling0 &&& (0xF ^^^ CASTLE_BQ)
        else if from_sq = H8 then castling0 &&& (0xF ^^^ CASTLE_BK)
        else castling0
    else castling0
  let castling2 :=
    if cap.1 = 3 then
      if to_sq = A1 then castling1 &&& (0xF ^^^ CASTLE_WQ)
      else if to_sq = H1 then castling1 &&& (0xF ^^^ CASTLE_WK)
      else if to_sq = A8 then castling1 &&& (0xF ^^^ CASTLE_BQ)
      else if to_sq = H8 then castling1 &&& (0xF ^^^ CASTLE_BK)
      else castling1
    else castling1
  let new_ep : Int :=
    if piece_type = 0 ∧ ((to_sq : Int) - (from_sq : Int)).natAbs = 16 then
      (((from_sq + to_sq) / 2 : Nat) : Int)
    else -1
  let h3 := h2 ^^^ k.castling castling0 ^^^ k.castling castling2
  let h4 := if 0 ≤ ep_square then h3 ^^^ k.ep (ep_square.toNat % 8) else h3
  let h5 := if 0 ≤ new_ep then h4 ^^^ k.ep (new_ep.toNat % 8) else h4
  h5 ^^^ k.side

/-- `make_move_numba`: the mutated state (boards, metadata, occupancy and
the updated hash slot) together with the undo record. -/
def make_move_numba (k : ZKeys) (s : State) (move : Nat) : State × UndoInfo :=
  (setIdx (applyMoveBoards s move) HASH (makeMoveHash k s move), mkUndo s move)

/-- `unmake_move_numba`: reverse a move using the undo record. -/
def unmake_move_numba (s : State) (move : Nat) (u : UndoInfo) : State :=
  let from_sq := moveFrom move
  let to_sq := moveTo move
  let flags := moveFlags move
  -- The side that made the move, read before the metadata restore.
  let current_side := unpack_side (getIdx s META)
  let moving_side := 1 - current_side
  let s0 := setIdx s META u.meta
  -- Determine the moved piece's type.
  let piece_type : Int :=
    if flags = FLAG_CASTLING_KINGSIDE ∨ flags = FLAG_CASTLING_QUEENSIDE then 5
    else if FLAG_PROMOTION_QUEEN ≤ flags then 0
    else (get_piece_at s0 to_sq).1
  let piece_idx : Nat := (if moving_side = 0 then piece_type else piece_type + 6).toNat
  let s2 :=
    if flags = FLAG_CASTLING_KINGSIDE then
      let sk := setIdx s0 piece_idx (set_bit (clear_bit (getIdx s0 piece_idx) to_sq) from_sq)
      let rook_idx : Nat := if moving_side = 0 then 3 else 9
      let rook_from := if moving_side = 0 then H1 else H8
      let rook_to := if moving_side = 0 then F1 else F8
      setIdx sk rook_idx (set_bit (clear_bit (getIdx sk rook_idx) rook_to) rook_from)
    else if flags = FLAG_CASTLING_QUEENSIDE then
      let sk := setIdx s0 piece_idx (set_bit (clear_bit (getIdx s0 piece_idx) to_sq) from_sq)
      let rook_idx : Nat := if moving_side = 0 then 3 else 9
      let rook_from := if moving_side = 0 then A1 else A8
      let rook_to := if moving_side = 0 then D1 else D8
      setIdx sk rook_idx (set_bit (clear_bit (getIdx sk rook_idx) rook_to) rook_from)
    else if flags = FLAG_EN_PASSANT then
      let sp := setIdx s0 piece_idx (set_bit (clear_bit (getIdx s0 piece_idx) to_sq) from_sq)
      -- The captured pawn's square is recomputed from to_sq (the metadata
      -- has already been restored to its pre-move value).
      let ep_capture_sq : Nat :=
        (if moving_side = 0 then (to_sq : Int) + 8 else (to_sq : Int) - 8).toNat
      let ep_pawn_idx : Nat := if moving_side = 0 then 6 else 0
      setIdx sp ep_pawn_idx (set_bit (getIdx sp ep_pawn_idx) ep_capture_sq)
    else if 1 ≤ flags ∧ flags ≤ 4 then
      let promo_piece : Nat := [0, 4, 3, 2, 1].getD flags 0
      let promo_idx : Nat := if moving_side = 0 then promo_piece else promo_piece + 6
      let sp := setIdx s0 promo_idx (clear_bit (getIdx s0 promo_idx) to_sq)
      let pawn_idx : Nat := if moving_side = 0 then 0 else 6
      setIdx sp pawn_idx (set_bit (getIdx sp pawn_idx) from_sq)
    else
      setIdx s0 piece_idx (set_bit (clear_bit (getIdx s0 piece_idx) to_sq) from_sq)
  -- Restore the captured piece.
  let s3 :=
    if 0 ≤ u.capType then
      let cap_idx : Nat := (if u.capColor = 0 then u.capType else u.capType + 6).toNat
      setIdx s2 cap_idx (set_bit (getIdx s2 cap_idx) to_sq)
    else s2
  -- Occupancy rebuild and hash restore.
  let s4 := setIdx s3 OCCUPIED (occUnion s3)
  setIdx s4 HASH u.hash

/-!
## The Board wrapper

`Board` adds the fullmove counter on top of the state array.
-/

structure Board where
  state : State
  fullmove : Nat

/-- `Board.make_move`: run the move and bump the fullmove counter when the
side to move has flipped back to white. -/
def Board.make_move (k : ZKeys) (b : Board) (move : Nat) : Board × UndoInfo :=
  let r := make_move_numba k b.state move
  (⟨r.1, if unpack_side (getIdx r.1 META) = 0 then b.fullmove + 1 else b.fullmove⟩, r.2)

/-- `Board.unmake_move`: decrement the fullmove counter when white is
currently to move, then undo the move. -/
def Board.unmake_move (b : Board) (move : Nat) (u : UndoInfo) : Board :=
  ⟨unmake_move_numba b.state move u,
   if unpack_side (getIdx b.state META) = 0 then b.fullmove - 1 else b.fullmove⟩

/-- `Board.make_null_move` (board.py lines 941–969), exactly as written:
`new_meta = (old_meta ^ 1) & ~(0xFF << 2)`; the hash gets the side key and,
when `(old_meta >> 2) & 0xFF` is below 8, that value's en-passant file
key.  Returns the state together with the `[old_meta, old_hash]` undo. -/
def make_null_move (k : ZKeys) (s : State) : State × (Nat × Nat) :=
  let old_meta := getIdx s META
  let old_hash := getIdx s HASH
  let new_meta := (old_meta ^^^ 1) &&& (MASK64 ^^^ (0xFF <<< 2))
  let s1 := setIdx s META new_meta
  let h1 := old_hash ^^^ k.side
  let ep_file := (old_meta >>> 2) &&& 0xFF
  let new_hash := if ep_file < 8 then h1 ^^^ k.ep ep_file else h1
  (setIdx s1 HASH new_hash, (old_meta, old_hash))

/-- `Board.unmake_null_move`: restore metadata and hash from the undo. -/
def unmake_null_move (s : State) (u : Nat × Nat) : State :=
  setIdx (setIdx s META u.1) HASH u.2

/-!
## Move generation (`src/backend/engine/moves.py`)

This generator imports and operates on the bitboard state of board.py.
-/

/-- `generate_pawn_moves`: pushes, double pushes, captures, promotions and
en passant.  Target squares are computed with machine-integer arithmetic in
the source; they are embedded as `Int` and converted at the bit accesses
(for any position whose pawns stay off ranks 1 and 8 every computed square
is in 0–63, so the conversions are exact). -/
def generate_pawn_moves (s : State) (color : Nat) : List Nat :=
  let pawns := getIdx s (if color = 0 then 0 else 6)
  let occupied := getIdx s OCCUPIED
  let opponent_pieces := side_pieces s (1 - color)
  let push_dir : Int := if color = 0 then -8 else 8
  let start_rank : Nat := if color = 0 then 6 else 1
  let promo_rank : Int := if color = 0 then 0 else 7
  let ep_square := unpack_ep_square (getIdx s META)
  (bitSquares pawns).flatMap (fun from_sq =>
    let row := from_sq / 8
    let col := from_sq % 8
    let to_sq : Int := (from_sq : Int) + push_dir
    let pushes :=
      if ¬ get_bit occupied to_sq.toNat then
        let to_row : Int := (row : Int) + (if color = 1 then 1 else -1)
        if to_row = promo_rank then
          [encode_move from_sq to_sq.toNat FLAG_PROMOTION_QUEEN,
           encode_move from_sq to_sq.toNat FLAG_PROMOTION_ROOK,
           encode_move from_sq to_sq.toNat FLAG_PROMOTION_BISHOP,
           encode_move from_sq to_sq.toNat FLAG_PROMOTION_KNIGHT]
        else
          encode_move from_sq to_sq.toNat FLAG_NORMAL ::
            (if row = start_rank then
              let to_sq2 : Int := (from_sq : Int) + 2 * push_dir
              if ¬ get_bit occupied to_sq2.toNat then
                [encode_move from_sq to_sq2.toNat FLAG_NORMAL]
              else []
            else [])
      else []
    let caps := ([-1, 1] : List Int).flatMap (fun cap_offset =>
      let cap_col := (col : Int) + cap_offset
      if 0 ≤ cap_col ∧ cap_col < 8 then
        let cap_row : Int := (row : Int) + (if color = 1 then 1 else -1)
        let cap_sq : Nat := (cap_row * 8 + cap_col).toNat
        (if get_bit opponent_pieces cap_sq then
          (if cap_row = promo_rank then
            [encode_move from_sq cap_sq FLAG_PROMOTION_QUEEN,
             encode_move from_sq cap_sq FLAG_PROMOTION_ROOK,
             encode_move from_sq cap_sq FLAG_PROMOTION_BISHOP,
             encode_move from_sq cap_sq FLAG_PROMOTION_KNIGHT]
          else [encode_move from_sq cap_sq FLAG_NORMAL])
        else []) ++
        (if 0 ≤ ep_square ∧ (cap_sq : Int) = ep_square then
          [encode_move from_sq cap_sq FLAG_EN_PASSANT]
        else [])
      else [])
    pushes ++ caps)

/-- `generate_knight_moves`: table lookup masked by own pieces. -/
def generate_knight_moves (s : State) (color : Nat) : List Nat :=
  let knights := getIdx s (if color = 0 then 1 else 7)
  let own_pieces := side_pieces s color
  (bitSquares knights).flatMap (fun from_sq =>
    (bitSquares (KNIGHT_ATTACKS from_sq &&& (MASK64 ^^^ own_pieces))).map
      (fun to_sq => encode_move from_sq to_sq FLAG_NORMAL))

/-- `generate_sliding_moves` for `piece_type` 2 (bishop), 3 (rook) or
4 (queen): on-the-fly attacks masked by own pieces. -/
def generate_sliding_moves (s : State) (color : Nat) (piece_type : Nat) : List Nat :=
  let piece_idx := (if color = 0 then 2 else 8) + piece_type - 2
  let occupied := getIdx s OCCUPIED
  let own_pieces := side_pieces s color
  (bitSquares (getIdx s piece_idx)).flatMap (fun from_sq =>
    let attacks :=
      if piece_type = 2 then bishop_attacks from_sq occupied
      else if piece_type = 3 then rook_attacks from_sq occupied
      else queen_attacks from_sq occupied
    (bitSquares (attacks &&& (MASK64 ^^^ own_pieces))).map
      (fun to_sq => encode_move from_sq to_sq FLAG_NORMAL))

/-- `generate_king_moves`: table lookup plus the castling emissions (right
bit set and the squares between king and rook empty). -/
def generate_king_moves (s : State) (color : Nat) : List Nat :=
  let king_bb := getIdx s (if color = 0 then 5 else 11)
  if king_bb = 0 then []
  else
    let from_sq := (lsb king_bb).toNat
    let own_pieces := side_pieces s color
    let normal := (bitSquares (KING_ATTACKS from_sq &&& (MASK64 ^^^ own_pieces))).map
      (fun to_sq => encode_move from_sq to_sq FLAG_NORMAL)
    let castling := unpack_castling (getIdx s META)
    let occupied := getIdx s OCCUPIED
    let castles :=
      if color = 0 then
        (if castling &&& CASTLE_WK ≠ 0 ∧ ¬ get_bit occupied F1 ∧ ¬ get_bit occupied G1 then
          [encode_move E1 G1 FLAG_CASTLING_KINGSIDE] else []) ++
        (if castling &&& CASTLE_WQ ≠ 0 ∧ ¬ get_bit occupied D1 ∧ ¬ get_bit occupied C1 ∧
            ¬ get_bit occupied B1 then
          [encode_move E1 C1 FLAG_CASTLING_QUEENSIDE] else [])
      else
        (if castling &&& CASTLE_BK ≠ 0 ∧ ¬ get_bit occupied F8 ∧ ¬ get_bit occupied G8 then
          [encode_move E8 G8 FLAG_CASTLING_KINGSIDE] else []) ++
        (if castling &&& CASTLE_BQ ≠ 0 ∧ ¬ get_bit occupied D8 ∧ ¬ get_bit occupied C8 ∧
            ¬ get_bit occupied B8 then
          [encode_move E8 C8 FLAG_CASTLING_QUEENSIDE] else [])
    normal ++ castles

/-- `is_square_attacked`: leaper-table and sliding-attack intersections
with the attacker's boards. -/
def is_square_attacked (s : State) (square : Nat) (by_color : Nat) : Bool :=
  let occupied := getIdx s OCCUPIED
  if getIdx s (if by_color = 0 then 0 else 6) &&& PAWN_ATTACKS (1 - by_color) square ≠ 0 then
    true
  else if getIdx s (if by_color = 0 then 1 else 7) &&& KNIGHT_ATTACKS square ≠ 0 then true
  else if getIdx s (if by_color = 0 then 5 else 11) &&& KING_ATTACKS square ≠ 0 then true
  else if (getIdx s (if by_color = 0 then 2 else 8) ||| getIdx s (if by_color = 0 then 4 else 10))
      &&& bishop_attacks square occupied ≠ 0 then true
  else if (getIdx s (if by_color = 0 then 3 else 9) ||| getIdx s (if by_color = 0 then 4 else 10))
      &&& rook_attacks square occupied ≠ 0 then true
  else false

/-- `find_king_square`: `lsb` of the king board, `-1` when absent. -/
def find_king_square (s : State) (color : Nat) : Int :=
  let king_bb := getIdx s (if color = 0 then 5 else 11)
  if king_bb = 0 then -1 else lsb king_bb

/-- `is_legal_move`: the castling pass-through checks, then make the move
on a copy and test whether the mover's king is attacked.  Only the piece
boards and occupancy of the copy are read (never the hash slot, the one
key-dependent output of make), so the copy is made with the zero key
table. -/
def is_legal_move (s : State) (move : Nat) (color : Nat) : Bool :=
  let from_sq := moveFrom move
  let flags := moveFlags move
  let castleCheck :=
    if flags = FLAG_CASTLING_KINGSIDE ∨ flags = FLAG_CASTLING_QUEENSIDE then
      let king_sq := from_sq
      let opponent_color := 1 - color
      if is_square_attacked s king_sq opponent_color then false
      else
        let direction : Int := if flags = FLAG_CASTLING_KINGSIDE then 1 else -1
        let through_sq := ((king_sq : Int) + direction).toNat
        ¬ is_square_attacked s through_sq opponent_color
    else true
  if ¬ castleCheck then false
  else
    let state_copy := (make_move_numba zobristZero s move).1
    let king_sq := find_king_square state_copy color
    ¬ is_square_attacked state_copy king_sq.toNat (1 - color)

/-- `generate_pseudo_legal_moves`: pawns, knights, bishops, rooks, queens,
king, in source order. -/
def generate_pseudo_legal_moves (s : State) (color : Nat) : List Nat :=
  generate_pawn_moves s color ++ generate_knight_moves s color ++
    generate_sliding_moves s color 2 ++ generate_sliding_moves s color 3 ++
    generate_sliding_moves s color 4 ++ generate_king_moves s color

/-- `generate_legal_moves_numba`: the pseudo-legal list filtered by
`is_legal_move`. -/
def generate_legal_moves_numba (s : State) (color : Nat) : List Nat :=
  (generate_pseudo_legal_moves s color).filter (fun m => is_legal_move s m color)

/-- `Moves.is_check`: is the given color's king attacked. -/
def moves_is_check (s : State) (color : Nat) : Bool :=
  let king_sq := find_king_square s color
  if king_sq < 0 then false
  else is_square_attacked s king_sq.toNat (1 - color)

/-!
## Search-level definitions (`src/backend/engine/search.py`)
-/

def MATE_SCORE : Int := 30000

/-- `Search._is_capture`: the destination square holds an opponent piece,
or the move's flag equals 5 (the constant the source comments call the
"EP_CAPTURE" flag; in the move encoding of board.py the value 5 is
`FLAG_CASTLING_KINGSIDE`, and en passant is flag 7). -/
def search_is_capture (s : State) (move : Nat) : Bool :=
  let to_sq := (move >>> 6) &&& 0x3F
  let side := unpack_side (getIdx s META)
  let opponent_start := if side = 0 then 6 else 0
  ((List.range 6).any fun piece_idx =>
      getIdx s (opponent_start + piece_idx) &&& (1 <<< to_sq) ≠ 0) ||
    (move >>> 12) &&& 0xF = 5

/-- `Search._get_captures`: keep the moves classified as captures by the
same test as `_is_capture`. -/
def get_captures (s : State) (moves : List Nat) : List Nat :=
  let side := unpack_side (getIdx s META)
  let opponent_start := if side = 0 then 6 else 0
  moves.filter fun move =>
    let to_sq := (move >>> 6) &&& 0x3F
    ((List.range 6).any fun piece_idx =>
        getIdx s (opponent_start + piece_idx) &&& (1 <<< to_sq) ≠ 0) ||
      (move >>> 12) &&& 0xF = 5

/-- `Search.search`: the entry point's terminal cases.  With no legal move
it returns `(None, 0)`; with exactly one legal move it returns that move
with score 0, before any iterative-deepening iteration runs.  The rest of
the function (the deepening loop) is taken as the parameter `deep`: the
loop's node evaluation calls `engine.evaluation.evaluate`, a function the
repository's source tree does not define (the import in search.py has no
matching definition), and every claim settled here is decided before the
loop is reached, so its result may be arbitrary. -/
def search (deep : State → Nat → List Nat → Option Nat × Int) (s : State) (depth : Nat) :
    Option Nat × Int :=
  let legal_moves := generate_legal_moves_numba s (unpack_side (getIdx s META))
  if legal_moves.length = 0 then (none, 0)
  else if legal_moves.length = 1 then (some (legal_moves.getD 0 0), 0)
  else deep s depth legal_moves

/-!
## Transposition table (`src/engine/transposition.py`)

The table's parallel numpy arrays are embedded as functions from the slot
index; the fields hold the values the numpy dtypes store (`int16` scores,
`int8` depths, `uint8` node types and ages, `uint16` moves, `uint64`
hashes).
-/

def EXACT : Nat := 0
def LOWER_BOUND : Nat := 1
def UPPER_BOUND : Nat := 2

structure TTState where
  mask : Nat
  hash_keys : Nat → Nat
  scores : Nat → Int
  best_moves : Nat → Nat
  depths : Nat → Int
  node_types : Nat → Nat
  ages : Nat → Nat
  current_age : Nat

/-- Wrap an integer to numpy `int16`. -/
def int16wrap (x : Int) : Int := (x + 2 ^ 15) % 2 ^ 16 - 2 ^ 15

/-- Wrap an integer to numpy `int8`. -/
def int8wrap (x : Int) : Int := (x + 2 ^ 7) % 2 ^ 8 - 2 ^ 7

/-- `TranspositionTable.probe`.  Result: `none` — nothing usable;
`some (some score, move)` — score usable for cutoff; `some (none, move)` —
best move only, for move ordering. -/
def TTState.probe (tt : TTState) (zobrist : Nat) (depth : Int) (alpha beta : Int) :
    Option (Option Int × Nat) :=
  let index := zobrist &&& tt.mask
  if tt.hash_keys index = zobrist then
    if tt.depths index ≥ depth then
      let score := tt.scores index
      let node_type := tt.node_types index
      let best_move := tt.best_moves index
      if node_type = EXACT then some (some score, best_move)
      else if node_type = LOWER_BOUND ∧ score ≥ beta then some (some score, best_move)
      else if node_type = UPPER_BOUND ∧ score ≤ alpha then some (some score, best_move)
      else if best_move ≠ 0 then some (none, best_move)
      else none
    else
      -- Hash match with insufficient depth: counted as a collision and
      -- nothing is returned.
      none
  else none

/-- `TranspositionTable.store`: the replacement policy and the slot
overwrite. -/
def TTState.store (tt : TTState) (zobrist : Nat) (score : Int) (best_move : Nat)
    (depth : Int) (node_type : Nat) : TTState :=
  let index := zobrist &&& tt.mask
  let stored_hash := tt.hash_keys index
  let replace :=
    if stored_hash = 0 ∨ stored_hash = zobrist then true
    else decide (depth ≥ tt.depths index) || decide (tt.ages index ≠ tt.current_age)
  if replace then
    { tt with
      hash_keys := Function.update tt.hash_keys index zobrist
      scores := Function.update tt.scores index (int16wrap score)
      best_moves := Function.update tt.best_moves index best_move
      depths := Function.update tt.depths index (int8wrap depth)
      node_types := Function.update tt.node_types index (node_type % 256)
      ages := Function.update tt.ages index (tt.current_age % 256) }
  else tt

/-!
## Evaluator (`src/engine/evaluation.py`)

`Evaluator.evaluate` runs on the legacy array `Board` (`board.piece_array`
holds codes 0 = empty, 1 = pawn … 6 = king; `board.color_array` holds `+1`
white, `-1` black, `0` empty).  The weights dictionary defaults to 1.0 for
the material and positional terms; every quantity the evaluator computes
with those weights is an integer (sums of products of table entries), and
float64 arithmetic on integers of this size is exact, so the embedding
works over `Int`. -/

structure EvalBoard where
  piece : Nat → Nat → Nat
  color : Nat → Nat → Int
  /-- The side to move (0 white, 1 black).  The evaluator receives the
  board object and never reads this field. -/
  side : Nat

namespace Eval

def PIECE_VALUE_ARRAY : List Int := [0, 100, 320, 330, 500, 900, 20000]

def pieceValue (code : Nat) : Int := PIECE_VALUE_ARRAY.getD code 0

def PAWN_TABLE : List (List Int) :=
  [[0, 0, 0, 0, 0, 0, 0, 0],
   [50, 50, 50, 50, 50, 50, 50, 50],
   [10, 10, 20, 30, 30, 20, 10, 10],
   [5, 5, 10, 25, 25, 10, 5, 5],
   [0, 0, 0, 20, 20, 0, 0, 0],
   [5, -5, -10, 0, 0, -10, -5, 5],
   [5, 10, 10, -20, -20, 10, 10, 5],
   [0, 0, 0, 0, 0, 0, 0, 0]]

def KNIGHT_TABLE : List (List Int) :=
  [[-50, -40, -30, -30, -30, -30, -40, -50],
   [-40, -20, 0, 0, 0, 0, -20, -40],
   [-30, 0, 10, 15, 15, 10, 0, -30],
   [-30, 5, 15, 20, 20, 15, 5, -30],
   [-30, 0, 15, 20, 20, 15, 0, -30],
   [-30, 5, 10, 15, 15, 10, 5, -30],
   [-40, -20, 0, 5, 5, 0, -20, -40],
   [-50, -40, -30, -30, -30, -30, -40, -50]]

def BISHOP_TABLE : List (List Int) :=
  [[-20, -10, -10, -10, -10, -10, -10, -20],
   [-10, 0, 0, 0, 0, 0, 0, -10],
   [-10, 0, 5, 10, 10, 5, 0, -10],
   [-10, 5, 5, 10, 10, 5, 5, -10],
   [-10, 0, 10, 10, 10, 10, 0, -10],
   [-10, 10, 10, 10, 10, 10, 10, -10],
   [-10, 5, 0, 0, 0, 0, 5, -10],
   [-20, -10, -10, -10, -10, -10, -10, -20]]

def ROOK_TABLE : List (List Int) :=
  [[0, 0, 0, 0, 0, 0, 0, 0],
   [5, 10, 10, 10, 10, 10, 10, 5],
   [-5, 0, 0, 0, 0, 0, 0, -5],
   [-5, 0, 0, 0, 0, 0, 0, -5],
   [-5, 0, 0, 0, 0, 0, 0, -5],
   [-5, 0, 0, 0, 0, 0, 0, -5],
   [-5, 0, 0, 0, 0, 0, 0, -5],
   [0, 0, 0, 5, 5, 0, 0, 0]]

def QUEEN_TABLE : List (List Int) :=
  [[-20, -10, -10, -5, -5, -10, -10, -20],
   [-10, 0, 0, 0, 0, 0, 0, -10],
   [-10, 0, 5, 5, 5, 5, 0, -10],
   [-5, 0, 5, 5, 5, 5, 0, -5],
   [0, 0, 5, 5, 5, 5, 0, -5],
   [-10, 5, 5, 5, 5, 5, 0, -10],
   [-10, 0, 5, 0, 0, 0, 0, -10],
   [-20, -10, -10, -5, -5, -10, -10, -20]]

def KING_MIDDLEGAME_TABLE : List (List Int) :=
  [[-30, -40, -40, -50, -50, -40, -40, -30],
   [-30, -40, -40, -50, -50, -40, -40, -30],
   [-30, -40, -40, -50, -50, -40, -40, -30],
   [-30, -40, -40, -50, -50, -40, -40, -30],
   [-20, -30, -30, -40, -40, -30, -30, -20],
   [-10, -20, -20, -20, -20, -20, -20, -10],
   [20, 20, 0, 0, 0, 0, 20, 20],
   [20, 30, 10, 0, 0, 10, 30, 20]]

def KING_ENDGAME_TABLE : List (List Int) :=
  [[-50, -40, -30, -20, -20, -30, -40, -50],
   [-30, -20, -10, 0, 0, -10, -20, -30],
   [-30, -10, 20, 30, 30, 20, -10, -30],
   [-30, -10, 30, 40, 40, 30, -10, -30],
   [-30, -10, 30, 40, 40, 30, -10, -30],
   [-30, -10, 20, 30, 30, 20, -10, -30],
   [-30, -30, 0, 0, 0, 0, -30, -30],
   [-50, -30, -30, -30, -30, -30, -30, -50]]

def tableAt (t : List (List Int)) (row col : Nat) : Int := (t.getD row []).getD col 0

/-- `Evaluator._evaluate_material`: sum over all squares of
`PIECE_VALUE_ARRAY[piece] * color`. -/
def evaluate_material (b : EvalBoard) : Int :=
  (List.range 8).foldl
    (fun acc row =>
      (List.range 8).foldl (fun acc' col => acc' + pieceValue (b.piece row col) * b.color row col)
        acc)
    0

/-- `Evaluator._is_endgame_fast`: both queens off the board, or the total
knight/bishop/rook/queen material (both sides) below 2600. -/
def is_endgame_fast (b : EvalBoard) : Bool :=
  let white_queens := (List.range 8).foldl
    (fun acc row => (List.range 8).foldl
      (fun acc' col => acc' + if b.piece row col = 5 ∧ b.color row col = 1 then 1 else 0) acc) 0
  let black_queens := (List.range 8).foldl
    (fun acc row => (List.range 8).foldl
      (fun acc' col => acc' + if b.piece row col = 5 ∧ b.color row col = -1 then 1 else 0) acc) 0
  if white_queens = 0 ∧ black_queens = 0 then true
  else
    let total_material := (List.range 8).foldl
      (fun acc row => (List.range 8).foldl
        (fun acc' col =>
          acc' + if 2 ≤ b.piece row col ∧ b.piece row col ≤ 5 then pieceValue (b.piece row col)
                 else 0) acc) 0
    total_material < 2600

/-- `_create_piece_square_array`: per-square table lookup (rows mirrored
for black via `eval_row = row if color == 1 else 7 - row`), accumulated as
`table_value * color`. -/
def pieceSquareScore (b : EvalBoard) (is_endgame : Bool) : Int :=
  (List.range 8).foldl
    (fun acc row =>
      (List.range 8).foldl
        (fun acc' col =>
          let piece_type := b.piece row col
          if piece_type = 0 then acc'
          else
            let color := b.color row col
            let eval_row := if color = 1 then row else 7 - row
            let table_value :=
              if piece_type = 1 then tableAt PAWN_TABLE eval_row col
              else if piece_type = 2 then tableAt KNIGHT_TABLE eval_row col
              else if piece_type = 3 then tableAt BISHOP_TABLE eval_row col
              else if piece_type = 4 then tableAt ROOK_TABLE eval_row col
              else if piece_type = 5 then tableAt QUEEN_TABLE eval_row col
              else if piece_type = 6 then
                if is_endgame then tableAt KING_ENDGAME_TABLE eval_row col
                else tableAt KING_MIDDLEGAME_TABLE eval_row col
              else 0
            acc' + table_value * color)
        acc)
    0

/-- `Evaluator._evaluate_position`: endgame detection then the
piece-square sum. -/
def evaluate_position (b : EvalBoard) : Int :=
  pieceSquareScore b (is_endgame_fast b)

/-- `Evaluator.evaluate` with the default weights (1.0): the material term;
if its absolute value exceeds 1500 the position counts as decided and the
material term is returned alone, otherwise the positional term is added. -/
def evaluate (b : EvalBoard) : Int :=
  let material_score := evaluate_material b
  if 1500 < |material_score| then material_score
  else material_score + evaluate_position b

end Eval

/-!
## Concrete positions

Positions are written as lists of `(bitboard index, square)` pairs;
`mkBoards` folds them into the twelve piece boards, computes the occupancy
union, and appends the metadata and a zero hash slot — exactly the state
`from_fen` builds (the hash slot is irrelevant to move generation and is
left zero where no claim reads it).
-/

def mkBoards (ps : List (Nat × Nat)) (meta : Nat) : State :=
  let boards := (List.range 12).map (fun i =>
    (ps.filter (fun p => p.1 = i)).foldl (fun bb p => set_bit bb p.2) 0)
  let occ := boards.foldl (fun a b => a ||| b) 0
  boards ++ [occ, meta, 0]

/-- The "Kiwipete" position
`r3k2r/p1ppqpb1/bn2pnp1/3PN3/1p2P3/2N2Q1p/PPPBBPPP/R3K2R w KQkq -`
(square = row·8+col with row 0 = rank 8, so a8 = 0 … h1 = 63). -/
def kiwipete : State := mkBoards
  [(0, 27), (0, 36), (0, 48), (0, 49), (0, 50), (0, 53), (0, 54), (0, 55),
   (1, 28), (1, 42), (2, 51), (2, 52), (3, 56), (3, 63), (4, 45), (5, 60),
   (6, 8), (6, 10), (6, 11), (6, 13), (6, 33), (6, 20), (6, 22), (6, 47),
   (7, 17), (7, 21), (8, 14), (8, 16), (9, 0), (9, 7), (10, 12), (11, 4)]
  (pack_metadata CASTLE_ALL (-1) 0 0)

/-- `7k/8/8/8/p7/6q1/P7/7K w - -`-like zugzwang cage: white Kh1, Pa2;
black Ke8, Qg3, Pa4; white to move.  White's only legal move is a2a3
(the king's three neighbours are covered by the queen and the pawn's
double push is blocked). -/
def onlyMovePos : State := mkBoards
  [(5, 63), (0, 48), (11, 4), (10, 46), (6, 32)]
  (pack_metadata 0 (-1) 0 0)

/-- The fool's-mate final position
`rnb1kbnr/pppp1ppp/8/4p3/6Pq/5P2/PPPPP2P/RNBQKBNR w KQkq -`:
white is checkmated. -/
def foolsMate : State := mkBoards
  [(9, 0), (7, 1), (8, 2), (11, 4), (8, 5), (7, 6), (9, 7),
   (6, 8), (6, 9), (6, 10), (6, 11), (6, 13), (6, 14), (6, 15),
   (6, 28), (0, 38), (10, 39), (0, 45),
   (0, 48), (0, 49), (0, 50), (0, 51), (0, 52), (0, 55),
   (3, 56), (1, 57), (2, 58), (4, 59), (5, 60), (2, 61), (1, 62), (3, 63)]
  (pack_metadata CASTLE_ALL (-1) 1 0)

/-- `4k3/8/8/1Pp5/8/8/8/4K2R w K c6`: white Ke1, Rh1, Pb5; black Ke8,
Pc5 (just double-pushed); en-passant square c6 (18); white may castle
kingside.  The legal moves include both the en-passant capture
b5xc6 = `encode_move 25 18 7` = 29849 and the castle
e1g1 = `encode_move 60 62 5` = 24508. -/
def epCastlePos : State := mkBoards
  [(5, 60), (3, 63), (0, 25), (11, 4), (6, 26)]
  (pack_metadata CASTLE_WK 18 0 0)

/-- A transposition-table state with one interesting slot: index 5 holds
hash 1285, score 77, best move 42, depth 1, node type EXACT, age 0. -/
def tt6 : TTState :=
  { mask := 0xFF
    hash_keys := fun i => if i = 5 then 1285 else 0
    scores := fun _ => 77
    best_moves := fun _ => 42
    depths := fun i => if i = 5 then 1 else 0
    node_types := fun _ => 0
    ages := fun _ => 0
    current_age := 0 }

/-- Legacy-board position for the evaluator: white Ke1 (row 7 col 4) and
Qd1 (row 7 col 3), black Ke8 (row 0 col 4); black to move.  White is a
queen up. -/
def evalCounterBoard : EvalBoard :=
  { piece := fun r c =>
      if r = 7 ∧ c = 4 then 6 else if r = 7 ∧ c = 3 then 5
      else if r = 0 ∧ c = 4 then 6 else 0
    color := fun r c =>
      if r = 7 ∧ (c = 4 ∨ c = 3) then 1 else if r = 0 ∧ c = 4 then -1 else 0
    side := 1 }

/-- A concrete Zobrist key table used to witness key-genericity
hypotheses. -/
def kWitness : ZKeys := ⟨fun _ _ => 0, fun c => c, fun f => 16 + f, 256⟩

/-!
## Well-formedness of reachable positions

The round-trip claim quantifies over *reachable* positions.  `WellFormed`
collects the invariants of reachable positions that the proof uses: the
spec's §3 invariants 1–4 and 6 (occupancy, disjointness, single kings,
en-passant coherence, pawns off the back ranks), and the standard
consequence of invariant 5 (castling rights only ever get cleared) that a
surviving right implies the king and the rook still stand on their home
squares. -/

def boardsBounded (s : State) : Prop := ∀ i, i < 12 → getIdx s i < 2 ^ 64

def boardsDisjoint (s : State) : Prop :=
  ∀ i j, i < 12 → j < 12 → i ≠ j → getIdx s i &&& getIdx s j = 0

def occupancyOk (s : State) : Prop := getIdx s OCCUPIED = occUnion s

def kingsOk (s : State) : Prop :=
  (∃ sq, sq < 64 ∧ getIdx s 5 = 2 ^ sq) ∧ (∃ sq, sq < 64 ∧ getIdx s 11 = 2 ^ sq)

def castleOk (s : State) : Prop :=
  let c := unpack_castling (getIdx s META)
  (c &&& CASTLE_WK ≠ 0 → get_bit (getIdx s 5) E1 = true ∧ get_bit (getIdx s 3) H1 = true) ∧
  (c &&& CASTLE_WQ ≠ 0 → get_bit (getIdx s 5) E1 = true ∧ get_bit (getIdx s 3) A1 = true) ∧
  (c &&& CASTLE_BK ≠ 0 → get_bit (getIdx s 11) E8 = true ∧ get_bit (getIdx s 9) H8 = true) ∧
  (c &&& CASTLE_BQ ≠ 0 → get_bit (getIdx s 11) E8 = true ∧ get_bit (getIdx s 9) A8 = true)

def epOk (s : State) : Prop :=
  let ep := unpack_ep_square (getIdx s META)
  0 ≤ ep →
    (∀ i, i < 12 → get_bit (getIdx s i) ep.toNat = false) ∧
    (if unpack_side (getIdx s META) = 0 then
      ep.toNat / 8 = 2 ∧ get_bit (getIdx s 6) (ep.toNat + 8) = true
     else
      ep.toNat / 8 = 5 ∧ get_bit (getIdx s 0) (ep.toNat - 8) = true)

def pawnsOk (s : State) : Prop :=
  ∀ sq, sq < 64 → sq < 8 ∨ 56 ≤ sq →
    get_bit (getIdx s 0) sq = false ∧ get_bit (getIdx s 6) sq = false

def WellFormed (s : State) : Prop :=
  s.length = 15 ∧ boardsBounded s ∧ boardsDisjoint s ∧ occupancyOk s ∧
    kingsOk s ∧ castleOk s ∧ epOk s ∧ pawnsOk s

/-- Own piece boards of color `c` are all clear at square `t`. -/
def ownClearAt (s : State) (c : Nat) (t : Nat) : Prop :=
  ∀ pt, pt < 6 → get_bit (getIdx s (pt + 6 * c)) t = false

/-- The structural facts the generator guarantees for every pseudo-legal
move it emits for the side `c`, split by flag: a normal move comes from a
square holding one of `c`'s pieces and never targets one of `c`'s own
pieces; a promotion moves one of `c`'s pawns; a castle is emitted only
with the matching right set, with the fixed king squares, and with the
traversed squares empty; an en-passant capture moves one of `c`'s pawns
onto the metadata's en-passant square. -/
def MoveFacts (s : State) (c : Nat) (m : Nat) : Prop :=
  (moveFlags m = 0 ∧
    (∃ pt, pt < 6 ∧ get_bit (getIdx s (pt + 6 * c)) (moveFrom m) = true) ∧
    ownClearAt s c (moveTo m)) ∨
  (1 ≤ moveFlags m ∧ moveFlags m ≤ 4 ∧
    get_bit (getIdx s (6 * c)) (moveFrom m) = true ∧ ownClearAt s c (moveTo m)) ∨
  (moveFlags m = 5 ∧
    unpack_castling (getIdx s META) &&& (if c = 0 then CASTLE_WK else CASTLE_BK) ≠ 0 ∧
    moveFrom m = (if c = 0 then E1 else E8) ∧ moveTo m = (if c = 0 then G1 else G8) ∧
    get_bit (getIdx s OCCUPIED) (if c = 0 then F1 else F8) = false ∧
    get_bit (getIdx s OCCUPIED) (if c = 0 then G1 else G8) = false) ∨
  (moveFlags m = 6 ∧
    unpack_castling (getIdx s META) &&& (if c = 0 then CASTLE_WQ else CASTLE_BQ) ≠ 0 ∧
    moveFrom m = (if c = 0 then E1 else E8) ∧ moveTo m = (if c = 0 then C1 else C8) ∧
    get_bit (getIdx s OCCUPIED) (if c = 0 then D1 else D8) = false ∧
    get_bit (getIdx s OCCUPIED) (if c = 0 then C1 else C8) = false ∧
    get_bit (getIdx s OCCUPIED) (if c = 0 then B1 else B8) = false) ∨
  (moveFlags m = 7 ∧ get_bit (getIdx s (6 * c)) (moveFrom m) = true ∧
    (moveTo m : Int) = unpack_ep_square (getIdx s META))


/-- The castling-rights recomputation slice of `make_move_numba` (the value
packed into the new metadata word). -/
def mkCastling (s : State) (move : Nat) : Nat :=
  let from_sq := moveFrom move
  let to_sq := moveTo move
  let pc := get_piece_at s from_sq
  let piece_type := pc.1
  let color := pc.2
  let cap := get_piece_at s to_sq
  let castling0 := unpack_castling (getIdx s META)
  let castling1 :=
    if piece_type = 5 then
      if color = 0 then castling0 &&& (0xF ^^^ (CASTLE_WK ||| CASTLE_WQ))
      else castling0 &&& (0xF ^^^ (CASTLE_BK ||| CASTLE_BQ))
    else if piece_type = 3 then
      if color = 0 then
        if from_sq = A1 then castling0 &&& (0xF ^^^ CASTLE_WQ)
        else if from_sq = H1 then castling0 &&& (0xF ^^^ CASTLE_WK)
        else castling0
      else
        if from_sq = A8 then castling0 &&& (0xF ^^^ CASTLE_BQ)
        else if from_sq = H8 then castling0 &&& (0xF ^^^ CASTLE_BK)
        else castling0
    else castling0
  if cap.1 = 3 then
    if to_sq = A1 then castling1 &&& (0xF ^^^ CASTLE_WQ)
    else if to_sq = H1 then castling1 &&& (0xF ^^^ CASTLE_WK)
    else if to_sq = A8 then castling1 &&& (0xF ^^^ CASTLE_BQ)
    else if to_sq = H8 then castling1 &&& (0xF ^^^ CASTLE_BK)
    else castling1
  else castling1

/-- The en-passant recomputation slice of `make_move_numba`. -/
def mkNewEp (s : State) (move : Nat) : Int :=
  let from_sq := moveFrom move
  let to_sq := moveTo move
  let pc := get_piece_at s from_sq
  if pc.1 = 0 ∧ ((to_sq : Int) - (from_sq : Int)).natAbs = 16 then
    (((from_sq + to_sq) / 2 : Nat) : Int)
  else -1

/-- The halfmove-clock slice of `make_move_numba`. -/
def mkHalfmove (s : State) (move : Nat) : Nat :=
  let pc := get_piece_at s (moveFrom move)
  let cap := get_piece_at s (moveTo move)
  if pc.1 = 0 ∨ 0 ≤ cap.1 then 0 else unpack_halfmove (getIdx s META) + 1

/-- The new metadata word written by `make_move_numba`. -/
def mkMeta (s : State) (move : Nat) : Nat :=
  pack_metadata (mkCastling s move) (mkNewEp s move) (mkHalfmove s move)
    (1 - unpack_side (getIdx s META))

/-!
# Theorems
-/


/-!
## Bitboard and state-array lemmas for the round-trip proof (C1)
-/

theorem testBit_MASK64 (i : Nat) : MASK64.testBit i = decide (i < 64) := by
  rw [show MASK64 = 2 ^ 64 - 1 from rfl, Nat.testBit_two_pow_sub_one]

theorem get_bit_eq_testBit (bb sq : Nat) : get_bit bb sq = bb.testBit sq := by
  cases h : bb.testBit sq <;>
    simp [get_bit, Nat.one_shiftLeft, Nat.and_two_pow, h, bne_iff_ne, Nat.pow_pos,
      Nat.pos_iff_ne_zero.symm]

theorem testBit_set_bit (bb s i : Nat) :
    (set_bit bb s).testBit i = (bb.testBit i || decide (s = i)) := by
  rw [set_bit, Nat.one_shiftLeft, Nat.testBit_lor, Nat.testBit_two_pow]

theorem set_bit_lt {bb : Nat} (hbb : bb < 2 ^ 64) {s : Nat} (hs : s < 64) :
    set_bit bb s < 2 ^ 64 := by
  rw [set_bit, Nat.one_shiftLeft]
  exact Nat.or_lt_two_pow hbb (Nat.pow_lt_pow_right (by omega) hs)

theorem clear_bit_lt {bb : Nat} (hbb : bb < 2 ^ 64) (s : Nat) : clear_bit bb s < 2 ^ 64 :=
  Nat.lt_of_le_of_lt Nat.and_le_left hbb

theorem testBit_clear_bit {bb : Nat} (hbb : bb < 2 ^ 64) {s : Nat} (hs : s < 64) (i : Nat) :
    (clear_bit bb s).testBit i = (bb.testBit i && ! decide (s = i)) := by
  rw [clear_bit, Nat.one_shiftLeft, Nat.testBit_land, Nat.testBit_xor, Nat.testBit_two_pow]
  rw [testBit_MASK64]
  by_cases h64 : i < 64
  · simp [h64]
  · have h1 : bb.testBit i = false :=
      Nat.testBit_lt_two_pow (Nat.lt_of_lt_of_le hbb (Nat.pow_le_pow_right (by omega) (by omega)))
    have h3 : decide (s = i) = false := by simp; omega
    simp [h1, h3, h64]

theorem clear_set_cancel {bb s : Nat} (hbb : bb < 2 ^ 64) (hs : s < 64)
    (h : bb.testBit s = false) : clear_bit (set_bit bb s) s = bb := by
  apply Nat.eq_of_testBit_eq
  intro i
  rw [testBit_clear_bit (set_bit_lt hbb hs) hs, testBit_set_bit]
  by_cases hi : s = i
  · subst hi; simp [h]
  · simp [hi]

theorem set_clear_cancel {bb s : Nat} (hbb : bb < 2 ^ 64) (hs : s < 64)
    (h : bb.testBit s = true) : set_bit (clear_bit bb s) s = bb := by
  apply Nat.eq_of_testBit_eq
  intro i
  rw [testBit_set_bit, testBit_clear_bit hbb hs]
  by_cases hi : s = i
  · subst hi; simp [h]
  · simp [hi]

theorem moveBit_roundtrip {bb f t : Nat} (hbb : bb < 2 ^ 64) (hf64 : f < 64) (ht64 : t < 64)
    (hf : bb.testBit f = true) (ht : bb.testBit t = false) :
    set_bit (clear_bit (set_bit (clear_bit bb f) t) t) f = bb := by
  apply Nat.eq_of_testBit_eq
  intro i
  rw [testBit_set_bit, testBit_clear_bit (set_bit_lt (clear_bit_lt hbb f) ht64) ht64,
    testBit_set_bit, testBit_clear_bit hbb hf64]
  by_cases hif : f = i
  · subst hif; simp [hf]
  · by_cases hit : t = i
    · subst hit; simp [ht, hif]
    · simp [hif, hit]

/-! State-array access lemmas. -/

theorem length_setIdx (s : State) (i : Nat) (v : Nat) : (setIdx s i v).length = s.length :=
  List.length_set s i v

theorem getIdx_setIdx_same {s : State} {i : Nat} (v : Nat) (h : i < s.length) :
    getIdx (setIdx s i v) i = v := by
  simp [getIdx, setIdx, List.getD_eq_getElem?_getD, List.getElem?_set_self h]

theorem getIdx_setIdx_ne {s : State} {i j : Nat} (v : Nat) (h : j ≠ i) :
    getIdx (setIdx s j v) i = getIdx s i := by
  simp [getIdx, setIdx, List.getD_eq_getElem?_getD, List.getElem?_set_ne h]

theorem stateEq_of_getIdx {s t : State} (hs : s.length = 15) (ht : t.length = 15)
    (h : ∀ i, i < 15 → getIdx s i = getIdx t i) : s = t := by
  apply List.ext_getElem (by omega)
  intro i hi1 hi2
  have hgi := h i (by omega)
  simp only [getIdx, List.getD_eq_getElem?_getD, List.getElem?_eq_getElem hi1,
    List.getElem?_eq_getElem hi2, Option.getD_some] at hgi
  exact hgi

/-! Move encoding/decoding lemmas. -/

theorem encode_eq_add {f t : Nat} (hf : f < 64) (ht : t < 64) (fl : Nat) :
    encode_move f t fl = fl * 4096 + t * 64 + f := by
  unfold encode_move
  have h64 : (2 : Nat) ^ 6 = 64 := by norm_num
  have h4096 : (2 : Nat) ^ 12 = 4096 := by norm_num
  rw [Nat.lor_assoc, Nat.shiftLeft_eq, Nat.shiftLeft_eq, Nat.mul_comm t, Nat.mul_comm fl,
    ← Nat.mul_add_lt_is_or (show f < 2 ^ 6 by omega) t,
    ← Nat.mul_add_lt_is_or (show 2 ^ 6 * t + f < 2 ^ 12 by rw [h64]; omega) fl]
  rw [h64, h4096]
  ring

theorem moveFrom_encode {f t : Nat} (hf : f < 64) (ht : t < 64) (fl : Nat) :
    moveFrom (encode_move f t fl) = f := by
  rw [encode_eq_add hf ht, moveFrom,
    show (0x3F : Nat) = 2 ^ 6 - 1 by norm_num, Nat.and_pow_two_sub_one_eq_mod]
  have h64 : (2 : Nat) ^ 6 = 64 := by norm_num
  rw [h64]
  omega

theorem moveTo_encode {f t : Nat} (hf : f < 64) (ht : t < 64) (fl : Nat) :
    moveTo (encode_move f t fl) = t := by
  rw [encode_eq_add hf ht, moveTo, Nat.shiftRight_eq_div_pow,
    show (0x3F : Nat) = 2 ^ 6 - 1 by norm_num, Nat.and_pow_two_sub_one_eq_mod]
  have h64 : (2 : Nat) ^ 6 = 64 := by norm_num
  rw [h64]
  omega

theorem moveFlags_encode {f t fl : Nat} (hf : f < 64) (ht : t < 64) (hfl : fl < 16) :
    moveFlags (encode_move f t fl) = fl := by
  rw [encode_eq_add hf ht, moveFlags, Nat.shiftRight_eq_div_pow,
    show (0xF : Nat) = 2 ^ 4 - 1 by norm_num, Nat.and_pow_two_sub_one_eq_mod]
  have h1 : (2 : Nat) ^ 12 = 4096 := by norm_num
  have h2 : (2 : Nat) ^ 4 = 16 := by norm_num
  rw [h1, h2]
  omega

theorem moveFrom_lt (m : Nat) : moveFrom m < 64 := by
  have : moveFrom m ≤ 0x3F := Nat.and_le_right
  omega

theorem moveTo_lt (m : Nat) : moveTo m < 64 := by
  have : moveTo m ≤ 0x3F := Nat.and_le_right
  omega

/-! Board iteration lemmas. -/

theorem mem_bitSquares {bb sq : Nat} : sq ∈ bitSquares bb ↔ sq < 64 ∧ bb.testBit sq = true := by
  simp [bitSquares, List.mem_filter, List.mem_range, get_bit_eq_testBit]

theorem side_pieces_testBit_iff (s : State) (c : Nat) (i : Nat) :
    (side_pieces s c).testBit i = true ↔
      ∃ pt, pt < 6 ∧ (getIdx s ((if c = 0 then 0 else 6) + pt)).testBit i = true := by
  unfold side_pieces
  rw [show List.range 6 = [0, 1, 2, 3, 4, 5] from rfl]
  simp only [List.foldl, Nat.testBit_lor, Nat.zero_testBit, Bool.false_or, Bool.or_eq_true]
  constructor
  · intro h
    simp only [or_assoc] at h
    rcases h with h | h | h | h | h | h
    · exact ⟨0, by omega, h⟩
    · exact ⟨1, by omega, h⟩
    · exact ⟨2, by omega, h⟩
    · exact ⟨3, by omega, h⟩
    · exact ⟨4, by omega, h⟩
    · exact ⟨5, by omega, h⟩
  · rintro ⟨pt, hpt, h⟩
    interval_cases pt <;> simp_all

theorem occUnion_testBit_iff (s : State) (i : Nat) :
    (occUnion s).testBit i = true ↔ ∃ j, j < 12 ∧ (getIdx s j).testBit i = true := by
  unfold occUnion
  rw [show List.range 12 = [0, 1, 2, 3, 4, 5, 6, 7, 8, 9, 10, 11] from rfl]
  simp only [List.foldl, Nat.testBit_lor, Nat.zero_testBit, Bool.false_or, Bool.or_eq_true]
  constructor
  · intro h
    simp only [or_assoc] at h
    rcases h with h | h | h | h | h | h | h | h | h | h | h | h
    · exact ⟨0, by omega, h⟩
    · exact ⟨1, by omega, h⟩
    · exact ⟨2, by omega, h⟩
    · exact ⟨3, by omega, h⟩
    · exact ⟨4, by omega, h⟩
    · exact ⟨5, by omega, h⟩
    · exact ⟨6, by omega, h⟩
    · exact ⟨7, by omega, h⟩
    · exact ⟨8, by omega, h⟩
    · exact ⟨9, by omega, h⟩
    · exact ⟨10, by omega, h⟩
    · exact ⟨11, by omega, h⟩
  · rintro ⟨j, hj, h⟩
    interval_cases j <;> simp_all

/-! `get_piece_at` identification. -/

theorem get_piece_at_of_bit {s : State} {pi sq : Nat} (hpi : pi < 12)
    (hbit : (getIdx s pi).testBit sq = true)
    (hothers : ∀ j, j < 12 → j ≠ pi → (getIdx s j).testBit sq = false) :
    get_piece_at s sq = (((pi % 6 : Nat) : Int), if pi < 6 then 0 else 1) := by
  interval_cases pi <;>
    simp_all [get_piece_at, get_piece_at_go, get_bit_eq_testBit]

theorem get_piece_at_empty {s : State} {sq : Nat}
    (h : ∀ j, j < 12 → (getIdx s j).testBit sq = false) :
    get_piece_at s sq = (-1, -1) := by
  simp_all [get_piece_at, get_piece_at_go, get_bit_eq_testBit]


/-! Well-formedness consequences. -/

theorem ownClearAt_of_sideClear {s : State} {c t : Nat} (hc : c ≤ 1)
    (h : (side_pieces s c).testBit t = false) : ownClearAt s c t := by
  intro pt hpt
  rw [get_bit_eq_testBit]
  by_contra hbit
  rw [Bool.not_eq_false] at hbit
  have hx : (side_pieces s c).testBit t = true := by
    rw [side_pieces_testBit_iff]
    refine ⟨pt, hpt, ?_⟩
    interval_cases c
    · simpa using hbit
    · have he : (if (1 : Nat) = 0 then 0 else 6) + pt = pt + 6 * 1 := by norm_num [Nat.add_comm]
      rw [he]
      exact hbit
  rw [h] at hx
  simp at hx

theorem allClear_of_notOcc {s : State} {t : Nat} (hocc : occupancyOk s)
    (h : (getIdx s OCCUPIED).testBit t = false) :
    ∀ j, j < 12 → (getIdx s j).testBit t = false := by
  intro j hj
  by_contra hbit
  rw [Bool.not_eq_false] at hbit
  have hx : (occUnion s).testBit t = true := (occUnion_testBit_iff s t).mpr ⟨j, hj, hbit⟩
  rw [occupancyOk] at hocc
  rw [hocc, hx] at h
  simp at h

theorem sideClear_of_notOcc {s : State} {c t : Nat} (hc : c ≤ 1) (hocc : occupancyOk s)
    (h : (getIdx s OCCUPIED).testBit t = false) : ownClearAt s c t := by
  intro pt hpt
  rw [get_bit_eq_testBit]
  exact allClear_of_notOcc hocc h (pt + 6 * c) (by omega)

theorem disjoint_other_clear {s : State} {i j t : Nat} (hd : boardsDisjoint s) (hi : i < 12)
    (hj : j < 12) (hij : i ≠ j) (hbit : (getIdx s i).testBit t = true) :
    (getIdx s j).testBit t = false := by
  have h0 := hd i j hi hj hij
  have h1 := congrArg (fun x => x.testBit t) h0
  simpa [Nat.testBit_land, hbit] using h1

/-- Own boards are clear wherever an opponent board is set. -/
theorem ownClearAt_of_oppBit {s : State} {c t : Nat} (hc : c ≤ 1) (hd : boardsDisjoint s)
    (h : (side_pieces s (1 - c)).testBit t = true) : ownClearAt s c t := by
  rw [side_pieces_testBit_iff] at h
  obtain ⟨q, hq, hqbit⟩ := h
  intro pt hpt
  rw [get_bit_eq_testBit]
  interval_cases c
  · norm_num at hqbit
    have hq6 : pt + 6 * 0 = pt := by omega
    rw [hq6]
    exact disjoint_other_clear (i := 6 + q) (j := pt) hd (by omega) (by omega) (by omega) hqbit
  · norm_num at hqbit
    exact disjoint_other_clear (i := q) (j := pt + 6 * 1) hd (by omega) (by omega) (by omega) hqbit

/-- The attack masks `attacks &&& ~own` never target own pieces. -/
theorem notOwn_of_maskedBit {att own t : Nat} (ht64 : t < 64)
    (h : (att &&& (MASK64 ^^^ own)).testBit t = true) : own.testBit t = false := by
  rw [Nat.testBit_land, Bool.and_eq_true, Nat.testBit_xor, testBit_MASK64] at h
  rcases h with ⟨_, h2⟩
  simpa [ht64] using h2

theorem lsb_two_pow : ∀ k : Nat, k < 64 → lsb (2 ^ k) = (k : Int) := by decide

/-! Generator soundness: every emitted pseudo-legal move satisfies
`MoveFacts`. -/

theorem knight_moves_sound {s : State} {c m : Nat} (hwf : WellFormed s) (hc : c ≤ 1)
    (hm : m ∈ generate_knight_moves s c) : MoveFacts s c m := by
  obtain ⟨hlen, hbnd, hdisj, hocc, hkings, hcastle, hep, hpawns⟩ := hwf
  unfold generate_knight_moves at hm
  simp only [List.mem_flatMap, List.mem_map, mem_bitSquares] at hm
  obtain ⟨f, ⟨hf64, hfbit⟩, t, ⟨⟨ht64, htbit⟩, rfl⟩⟩ := hm
  have hnotown : (side_pieces s c).testBit t = false := notOwn_of_maskedBit ht64 htbit
  left
  rw [moveFlags_encode hf64 ht64 (by norm_num [FLAG_NORMAL]), moveFrom_encode hf64 ht64,
    moveTo_encode hf64 ht64]
  refine ⟨rfl, ⟨1, by omega, ?_⟩, ownClearAt_of_sideClear hc hnotown⟩
  rw [get_bit_eq_testBit]
  interval_cases c
  · simpa using hfbit
  · have he : (1 : Nat) + 6 * 1 = 7 := by norm_num
    rw [he]
    simpa using hfbit

theorem sliding_moves_sound {s : State} {c m pt : Nat} (hwf : WellFormed s) (hc : c ≤ 1)
    (hpt : pt = 2 ∨ pt = 3 ∨ pt = 4) (hm : m ∈ generate_sliding_moves s c pt) :
    MoveFacts s c m := by
  obtain ⟨hlen, hbnd, hdisj, hocc, hkings, hcastle, hep, hpawns⟩ := hwf
  unfold generate_sliding_moves at hm
  simp only [List.mem_flatMap, List.mem_map, mem_bitSquares] at hm
  obtain ⟨f, ⟨hf64, hfbit⟩, t, ⟨⟨ht64, htbit⟩, rfl⟩⟩ := hm
  have hnotown : (side_pieces s c).testBit t = false := notOwn_of_maskedBit ht64 htbit
  left
  rw [moveFlags_encode hf64 ht64 (by norm_num [FLAG_NORMAL]), moveFrom_encode hf64 ht64,
    moveTo_encode hf64 ht64]
  refine ⟨rfl, ⟨pt, by omega, ?_⟩, ownClearAt_of_sideClear hc hnotown⟩
  rw [get_bit_eq_testBit]
  have hidx : (if c = 0 then 2 else 8) + pt - 2 = pt + 6 * c := by
    interval_cases c <;> (norm_num; try omega)
  rw [← hidx]
  exact hfbit


/-! Per-color unfoldings of the generators (definitional equations with the
color selectors reduced). -/

theorem generate_king_moves_zero_eq (s : State) :
    generate_king_moves s 0 =
      if getIdx s 5 = 0 then []
      else
        ((bitSquares (KING_ATTACKS (lsb (getIdx s 5)).toNat &&& (MASK64 ^^^ side_pieces s 0))).map
          (fun to_sq => encode_move (lsb (getIdx s 5)).toNat to_sq FLAG_NORMAL)) ++
        ((if unpack_castling (getIdx s META) &&& CASTLE_WK ≠ 0 ∧
              ¬ get_bit (getIdx s OCCUPIED) F1 ∧ ¬ get_bit (getIdx s OCCUPIED) G1 then
            [encode_move E1 G1 FLAG_CASTLING_KINGSIDE] else []) ++
          (if unpack_castling (getIdx s META) &&& CASTLE_WQ ≠ 0 ∧
              ¬ get_bit (getIdx s OCCUPIED) D1 ∧ ¬ get_bit (getIdx s OCCUPIED) C1 ∧
              ¬ get_bit (getIdx s OCCUPIED) B1 then
            [encode_move E1 C1 FLAG_CASTLING_QUEENSIDE] else [])) := rfl

theorem generate_king_moves_one_eq (s : State) :
    generate_king_moves s 1 =
      if getIdx s 11 = 0 then []
      else
        ((bitSquares (KING_ATTACKS (lsb (getIdx s 11)).toNat &&& (MASK64 ^^^ side_pieces s 1))).map
          (fun to_sq => encode_move (lsb (getIdx s 11)).toNat to_sq FLAG_NORMAL)) ++
        ((if unpack_castling (getIdx s META) &&& CASTLE_BK ≠ 0 ∧
              ¬ get_bit (getIdx s OCCUPIED) F8 ∧ ¬ get_bit (getIdx s OCCUPIED) G8 then
            [encode_move E8 G8 FLAG_CASTLING_KINGSIDE] else []) ++
          (if unpack_castling (getIdx s META) &&& CASTLE_BQ ≠ 0 ∧
              ¬ get_bit (getIdx s OCCUPIED) D8 ∧ ¬ get_bit (getIdx s OCCUPIED) C8 ∧
              ¬ get_bit (getIdx s OCCUPIED) B8 then
            [encode_move E8 C8 FLAG_CASTLING_QUEENSIDE] else [])) := rfl

theorem generate_pawn_moves_zero_eq (s : State) :
    generate_pawn_moves s 0 =
      (bitSquares (getIdx s 0)).flatMap (fun from_sq =>
        (if ¬ get_bit (getIdx s OCCUPIED) ((from_sq : Int) + -8).toNat then
          (if ((from_sq / 8 : Nat) : Int) + -1 = 0 then
            [encode_move from_sq ((from_sq : Int) + -8).toNat FLAG_PROMOTION_QUEEN,
             encode_move from_sq ((from_sq : Int) + -8).toNat FLAG_PROMOTION_ROOK,
             encode_move from_sq ((from_sq : Int) + -8).toNat FLAG_PROMOTION_BISHOP,
             encode_move from_sq ((from_sq : Int) + -8).toNat FLAG_PROMOTION_KNIGHT]
          else
            encode_move from_sq ((from_sq : Int) + -8).toNat FLAG_NORMAL ::
              (if from_sq / 8 = 6 then
                (if ¬ get_bit (getIdx s OCCUPIED) ((from_sq : Int) + 2 * -8).toNat then
                  [encode_move from_sq ((from_sq : Int) + 2 * -8).toNat FLAG_NORMAL]
                else [])
              else []))
        else []) ++
        ([-1, 1] : List Int).flatMap (fun cap_offset =>
          if 0 ≤ ((from_sq % 8 : Nat) : Int) + cap_offset ∧
              ((from_sq % 8 : Nat) : Int) + cap_offset < 8 then
            (if get_bit (side_pieces s 1)
                ((((from_sq / 8 : Nat) : Int) + -1) * 8 +
                  (((from_sq % 8 : Nat) : Int) + cap_offset)).toNat then
              (if ((from_sq / 8 : Nat) : Int) + -1 = 0 then
                [encode_move from_sq
                  ((((from_sq / 8 : Nat) : Int) + -1) * 8 +
                    (((from_sq % 8 : Nat) : Int) + cap_offset)).toNat FLAG_PROMOTION_QUEEN,
                 encode_move from_sq
                  ((((from_sq / 8 : Nat) : Int) + -1) * 8 +
                    (((from_sq % 8 : Nat) : Int) + cap_offset)).toNat FLAG_PROMOTION_ROOK,
                 encode_move from_sq
                  ((((from_sq / 8 : Nat) : Int) + -1) * 8 +
                    (((from_sq % 8 : Nat) : Int) + cap_offset)).toNat FLAG_PROMOTION_BISHOP,
                 encode_move from_sq
                  ((((from_sq / 8 : Nat) : Int) + -1) * 8 +
                    (((from_sq % 8 : Nat) : Int) + cap_offset)).toNat FLAG_PROMOTION_KNIGHT]
              else
                [encode_move from_sq
                  ((((from_sq / 8 : Nat) : Int) + -1) * 8 +
                    (((from_sq % 8 : Nat) : Int) + cap_offset)).toNat FLAG_NORMAL])
            else []) ++
            (if 0 ≤ unpack_ep_square (getIdx s META) ∧
                (((((from_sq / 8 : Nat) : Int) + -1) * 8 +
                  (((from_sq % 8 : Nat) : Int) + cap_offset)).toNat : Int) =
                  unpack_ep_square (getIdx s META) then
              [encode_move from_sq
                ((((from_sq / 8 : Nat) : Int) + -1) * 8 +
                  (((from_sq % 8 : Nat) : Int) + cap_offset)).toNat FLAG_EN_PASSANT]
            else [])
          else []))
      := rfl


theorem generate_pawn_moves_one_eq (s : State) :
    generate_pawn_moves s 1 =
      (bitSquares (getIdx s 6)).flatMap (fun from_sq =>
        (if ¬ get_bit (getIdx s OCCUPIED) ((from_sq : Int) + 8).toNat then
          (if ((from_sq / 8 : Nat) : Int) + 1 = 7 then
            [encode_move from_sq ((from_sq : Int) + 8).toNat FLAG_PROMOTION_QUEEN,
             encode_move from_sq ((from_sq : Int) + 8).toNat FLAG_PROMOTION_ROOK,
             encode_move from_sq ((from_sq : Int) + 8).toNat FLAG_PROMOTION_BISHOP,
             encode_move from_sq ((from_sq : Int) + 8).toNat FLAG_PROMOTION_KNIGHT]
          else
            encode_move from_sq ((from_sq : Int) + 8).toNat FLAG_NORMAL ::
              (if from_sq / 8 = 1 then
                (if ¬ get_bit (getIdx s OCCUPIED) ((from_sq : Int) + 2 * 8).toNat then
                  [encode_move from_sq ((from_sq : Int) + 2 * 8).toNat FLAG_NORMAL]
                else [])
              else []))
        else []) ++
        ([-1, 1] : List Int).flatMap (fun cap_offset =>
          if 0 ≤ ((from_sq % 8 : Nat) : Int) + cap_offset ∧
              ((from_sq % 8 : Nat) : Int) + cap_offset < 8 then
            (if get_bit (side_pieces s 0)
                ((((from_sq / 8 : Nat) : Int) + 1) * 8 +
                  (((from_sq % 8 : Nat) : Int) + cap_offset)).toNat then
              (if ((from_sq / 8 : Nat) : Int) + 1 = 7 then
                [encode_move from_sq
                  ((((from_sq / 8 : Nat) : Int) + 1) * 8 +
                    (((from_sq % 8 : Nat) : Int) + cap_offset)).toNat FLAG_PROMOTION_QUEEN,
                 encode_move from_sq
                  ((((from_sq / 8 : Nat) : Int) + 1) * 8 +
                    (((from_sq % 8 : Nat) : Int) + cap_offset)).toNat FLAG_PROMOTION_ROOK,
                 encode_move from_sq
                  ((((from_sq / 8 : Nat) : Int) + 1) * 8 +
                    (((from_sq % 8 : Nat) : Int) + cap_offset)).toNat FLAG_PROMOTION_BISHOP,
                 encode_move from_sq
                  ((((from_sq / 8 : Nat) : Int) + 1) * 8 +
                    (((from_sq % 8 : Nat) : Int) + cap_offset)).toNat FLAG_PROMOTION_KNIGHT]
              else
                [encode_move from_sq
                  ((((from_sq / 8 : Nat) : Int) + 1) * 8 +
                    (((from_sq % 8 : Nat) : Int) + cap_offset)).toNat FLAG_NORMAL])
            else []) ++
            (if 0 ≤ unpack_ep_square (getIdx s META) ∧
                (((((from_sq / 8 : Nat) : Int) + 1) * 8 +
                  (((from_sq % 8 : Nat) : Int) + cap_offset)).toNat : Int) =
                  unpack_ep_square (getIdx s META) then
              [encode_move from_sq
                ((((from_sq / 8 : Nat) : Int) + 1) * 8 +
                  (((from_sq % 8 : Nat) : Int) + cap_offset)).toNat FLAG_EN_PASSANT]
            else [])
          else []))
      := rfl


theorem king_moves_sound {s : State} {c m : Nat} (hwf : WellFormed s) (hc : c ≤ 1)
    (hm : m ∈ generate_king_moves s c) : MoveFacts s c m := by
  obtain ⟨hlen, hbnd, hdisj, hocc, hkings, hcastle, hep, hpawns⟩ := hwf
  interval_cases c
  · obtain ⟨ks, hks64, hksbb⟩ := hkings.1
    rw [generate_king_moves_zero_eq, hksbb, if_neg (Nat.two_pow_pos ks).ne',
      lsb_two_pow ks hks64] at hm
    simp only [Int.toNat_natCast] at hm
    rcases List.mem_append.mp hm with hm | hm
    · simp only [List.mem_map, mem_bitSquares] at hm
      obtain ⟨t, ⟨ht64, htbit⟩, rfl⟩ := hm
      have hnotown := notOwn_of_maskedBit ht64 htbit
      left
      rw [moveFlags_encode hks64 ht64 (by norm_num [FLAG_NORMAL]), moveFrom_encode hks64 ht64,
        moveTo_encode hks64 ht64]
      refine ⟨rfl, ⟨5, by omega, ?_⟩, ownClearAt_of_sideClear (by omega) hnotown⟩
      rw [get_bit_eq_testBit, show (5 : Nat) + 6 * 0 = 5 from by omega, hksbb]
      exact Nat.testBit_two_pow_self
    · rcases List.mem_append.mp hm with hm | hm
      · by_cases hcond : unpack_castling (getIdx s META) &&& CASTLE_WK ≠ 0 ∧
            ¬ get_bit (getIdx s OCCUPIED) F1 = true ∧ ¬ get_bit (getIdx s OCCUPIED) G1 = true
        · rw [if_pos hcond, List.mem_singleton] at hm
          subst hm
          right; right; left
          rw [moveFlags_encode (by norm_num [E1]) (by norm_num [G1])
                (by norm_num [FLAG_CASTLING_KINGSIDE]),
            moveFrom_encode (by norm_num [E1]) (by norm_num [G1]),
            moveTo_encode (by norm_num [E1]) (by norm_num [G1])]
          obtain ⟨h1, h2, h3⟩ := hcond
          exact ⟨rfl, by simpa using h1, by norm_num, by norm_num,
            by simpa using h2, by simpa using h3⟩
        · rw [if_neg hcond] at hm
          simp at hm
      · by_cases hcond : unpack_castling (getIdx s META) &&& CASTLE_WQ ≠ 0 ∧
            ¬ get_bit (getIdx s OCCUPIED) D1 = true ∧ ¬ get_bit (getIdx s OCCUPIED) C1 = true ∧
            ¬ get_bit (getIdx s OCCUPIED) B1 = true
        · rw [if_pos hcond, List.mem_singleton] at hm
          subst hm
          right; right; right; left
          rw [moveFlags_encode (by norm_num [E1]) (by norm_num [C1])
                (by norm_num [FLAG_CASTLING_QUEENSIDE]),
            moveFrom_encode (by norm_num [E1]) (by norm_num [C1]),
            moveTo_encode (by norm_num [E1]) (by norm_num [C1])]
          obtain ⟨h1, h2, h3, h4⟩ := hcond
          exact ⟨rfl, by simpa using h1, by norm_num, by norm_num,
            by simpa using h2, by simpa using h3, by simpa using h4⟩
        · rw [if_neg hcond] at hm
          simp at hm
  · obtain ⟨ks, hks64, hksbb⟩ := hkings.2
    rw [generate_king_moves_one_eq, hksbb, if_neg (Nat.two_pow_pos ks).ne',
      lsb_two_pow ks hks64] at hm
    simp only [Int.toNat_natCast] at hm
    rcases List.mem_append.mp hm with hm | hm
    · simp only [List.mem_map, mem_bitSquares] at hm
      obtain ⟨t, ⟨ht64, htbit⟩, rfl⟩ := hm
      have hnotown := notOwn_of_maskedBit ht64 htbit
      left
      rw [moveFlags_encode hks64 ht64 (by norm_num [FLAG_NORMAL]), moveFrom_encode hks64 ht64,
        moveTo_encode hks64 ht64]
      refine ⟨rfl, ⟨5, by omega, ?_⟩, ownClearAt_of_sideClear (by omega) hnotown⟩
      rw [get_bit_eq_testBit, show (5 : Nat) + 6 * 1 = 11 from by omega, hksbb]
      exact Nat.testBit_two_pow_self
    · rcases List.mem_append.mp hm with hm | hm
      · by_cases hcond : unpack_castling (getIdx s META) &&& CASTLE_BK ≠ 0 ∧
            ¬ get_bit (getIdx s OCCUPIED) F8 = true ∧ ¬ get_bit (getIdx s OCCUPIED) G8 = true
        · rw [if_pos hcond, List.mem_singleton] at hm
          subst hm
          right; right; left
          rw [moveFlags_encode (by norm_num [E8]) (by norm_num [G8])
                (by norm_num [FLAG_CASTLING_KINGSIDE]),
            moveFrom_encode (by norm_num [E8]) (by norm_num [G8]),
            moveTo_encode (by norm_num [E8]) (by norm_num [G8])]
          obtain ⟨h1, h2, h3⟩ := hcond
          exact ⟨rfl, by simpa using h1, by norm_num, by norm_num,
            by simpa using h2, by simpa using h3⟩
        · rw [if_neg hcond] at hm
          simp at hm
      · by_cases hcond : unpack_castling (getIdx s META) &&& CASTLE_BQ ≠ 0 ∧
            ¬ get_bit (getIdx s OCCUPIED) D8 = true ∧ ¬ get_bit (getIdx s OCCUPIED) C8 = true ∧
            ¬ get_bit (getIdx s OCCUPIED) B8 = true
        · rw [if_pos hcond, List.mem_singleton] at hm
          subst hm
          right; right; right; left
          rw [moveFlags_encode (by norm_num [E8]) (by norm_num [C8])
                (by norm_num [FLAG_CASTLING_QUEENSIDE]),
            moveFrom_encode (by norm_num [E8]) (by norm_num [C8]),
            moveTo_encode (by norm_num [E8]) (by norm_num [C8])]
          obtain ⟨h1, h2, h3, h4⟩ := hcond
          exact ⟨rfl, by simpa using h1, by norm_num, by norm_num,
            by simpa using h2, by simpa using h3, by simpa using h4⟩
        · rw [if_neg hcond] at hm
          simp at hm


/-! Packaging lemmas for the `MoveFacts` disjuncts. -/

theorem normal_facts {s : State} {c f t : Nat} (pt : Nat) (hf : f < 64) (ht : t < 64)
    (hpt : pt < 6) (hpb : get_bit (getIdx s (pt + 6 * c)) f = true)
    (hclear : ownClearAt s c t) : MoveFacts s c (encode_move f t FLAG_NORMAL) := by
  left
  rw [moveFlags_encode hf ht (by norm_num [FLAG_NORMAL]), moveFrom_encode hf ht,
    moveTo_encode hf ht]
  exact ⟨rfl, ⟨pt, hpt, hpb⟩, hclear⟩

theorem promo_facts {s : State} {c f t fl : Nat} (hf : f < 64) (ht : t < 64)
    (hfl1 : 1 ≤ fl) (hfl4 : fl ≤ 4)
    (hpb : get_bit (getIdx s (6 * c)) f = true) (hclear : ownClearAt s c t) :
    MoveFacts s c (encode_move f t fl) := by
  right; left
  rw [moveFlags_encode hf ht (by omega), moveFrom_encode hf ht, moveTo_encode hf ht]
  exact ⟨hfl1, hfl4, hpb, hclear⟩

theorem ep_facts {s : State} {c f t : Nat} (hf : f < 64) (ht : t < 64)
    (hpb : get_bit (getIdx s (6 * c)) f = true)
    (hep : (t : Int) = unpack_ep_square (getIdx s META)) :
    MoveFacts s c (encode_move f t FLAG_EN_PASSANT) := by
  right; right; right; right
  rw [moveFlags_encode hf ht (by norm_num [FLAG_EN_PASSANT]), moveFrom_encode hf ht,
    moveTo_encode hf ht]
  exact ⟨by norm_num [FLAG_EN_PASSANT], hpb, hep⟩

theorem pawn_moves_sound {s : State} {c m : Nat} (hwf : WellFormed s) (hc : c ≤ 1)
    (hm : m ∈ generate_pawn_moves s c) : MoveFacts s c m := by
  obtain ⟨hlen, hbnd, hdisj, hocc, hkings, hcastle, hep, hpawns⟩ := hwf
  interval_cases c
  · rw [generate_pawn_moves_zero_eq] at hm
    simp only [List.mem_flatMap, mem_bitSquares] at hm
    obtain ⟨f, ⟨hf64, hfbit⟩, hm⟩ := hm
    have hpbN : get_bit (getIdx s (0 + 6 * 0)) f = true := by
      rw [get_bit_eq_testBit]; exact hfbit
    have hpbP : get_bit (getIdx s (6 * 0)) f = true := by
      rw [get_bit_eq_testBit]; exact hfbit
    have hflo : 8 ≤ f := by
      by_contra h8
      have hx := (hpawns f hf64 (Or.inl (by omega))).1
      rw [get_bit_eq_testBit, hfbit] at hx
      simp at hx
    have hfhi : f < 56 := by
      by_contra h56
      have hx := (hpawns f hf64 (Or.inr (by omega))).1
      rw [get_bit_eq_testBit, hfbit] at hx
      simp at hx
    rcases List.mem_append.mp hm with hm | hm
    · rw [show ((f : Int) + -8).toNat = f - 8 from by omega,
        show ((f : Int) + 2 * -8).toNat = f - 16 from by omega] at hm
      by_cases hP : ¬ get_bit (getIdx s OCCUPIED) (f - 8) = true
      · rw [if_pos hP] at hm
        have hclear : ownClearAt s 0 (f - 8) :=
          sideClear_of_notOcc (by omega) hocc (by simpa [get_bit_eq_testBit] using hP)
        by_cases hPr : ((f / 8 : Nat) : Int) + -1 = 0
        · rw [if_pos hPr] at hm
          simp only [List.mem_cons, List.not_mem_nil, or_false] at hm
          rcases hm with rfl | rfl | rfl | rfl
          · exact promo_facts hf64 (by omega) (by norm_num [FLAG_PROMOTION_QUEEN])
              (by norm_num [FLAG_PROMOTION_QUEEN]) hpbP hclear
          · exact promo_facts hf64 (by omega) (by norm_num [FLAG_PROMOTION_ROOK])
              (by norm_num [FLAG_PROMOTION_ROOK]) hpbP hclear
          · exact promo_facts hf64 (by omega) (by norm_num [FLAG_PROMOTION_BISHOP])
              (by norm_num [FLAG_PROMOTION_BISHOP]) hpbP hclear
          · exact promo_facts hf64 (by omega) (by norm_num [FLAG_PROMOTION_KNIGHT])
              (by norm_num [FLAG_PROMOTION_KNIGHT]) hpbP hclear
        · rw [if_neg hPr] at hm
          rcases List.mem_cons.mp hm with rfl | hm
          · exact normal_facts 0 hf64 (by omega) (by omega) hpbN hclear
          · by_cases hR : f / 8 = 6
            · rw [if_pos hR] at hm
              by_cases hP2 : ¬ get_bit (getIdx s OCCUPIED) (f - 16) = true
              · rw [if_pos hP2, List.mem_singleton] at hm
                subst hm
                exact normal_facts 0 hf64 (by omega) (by omega) hpbN
                  (sideClear_of_notOcc (by omega) hocc
                    (by simpa [get_bit_eq_testBit] using hP2))
              · rw [if_neg hP2] at hm; simp at hm
            · rw [if_neg hR] at hm; simp at hm
      · rw [if_neg hP] at hm; simp at hm
    · simp only [List.flatMap_cons, List.flatMap_nil, List.append_nil] at hm
      rcases List.mem_append.mp hm with hm | hm
      · by_cases hB : 0 ≤ ((f % 8 : Nat) : Int) + -1 ∧ ((f % 8 : Nat) : Int) + -1 < 8
        · rw [if_pos hB] at hm
          obtain ⟨hB1, hB2⟩ := hB
          rw [show ((((f / 8 : Nat) : Int) + -1) * 8 + (((f % 8 : Nat) : Int) + -1)).toNat
              = f - 9 from by omega] at hm
          have ht64 : f - 9 < 64 := by omega
          rcases List.mem_append.mp hm with hm | hm
          · by_cases hO : get_bit (side_pieces s 1) (f - 9) = true
            · rw [if_pos hO] at hm
              have hclear : ownClearAt s 0 (f - 9) :=
                ownClearAt_of_oppBit (by omega) hdisj
                  (by rw [← get_bit_eq_testBit]; exact hO)
              by_cases hPr : ((f / 8 : Nat) : Int) + -1 = 0
              · rw [if_pos hPr] at hm
                simp only [List.mem_cons, List.not_mem_nil, or_false] at hm
                rcases hm with rfl | rfl | rfl | rfl
                · exact promo_facts hf64 ht64 (by norm_num [FLAG_PROMOTION_QUEEN])
                    (by norm_num [FLAG_PROMOTION_QUEEN]) hpbP hclear
                · exact promo_facts hf64 ht64 (by norm_num [FLAG_PROMOTION_ROOK])
                    (by norm_num [FLAG_PROMOTION_ROOK]) hpbP hclear
                · exact promo_facts hf64 ht64 (by norm_num [FLAG_PROMOTION_BISHOP])
                    (by norm_num [FLAG_PROMOTION_BISHOP]) hpbP hclear
                · exact promo_facts hf64 ht64 (by norm_num [FLAG_PROMOTION_KNIGHT])
                    (by norm_num [FLAG_PROMOTION_KNIGHT]) hpbP hclear
              · rw [if_neg hPr, List.mem_singleton] at hm
                subst hm
                exact normal_facts 0 hf64 ht64 (by omega) hpbN hclear
            · rw [if_neg hO] at hm; simp at hm
          · by_cases hE : 0 ≤ unpack_ep_square (getIdx s META) ∧
                ((f - 9 : Nat) : Int) = unpack_ep_square (getIdx s META)
            · rw [if_pos hE, List.mem_singleton] at hm
              subst hm
              exact ep_facts hf64 ht64 hpbP hE.2
            · rw [if_neg hE] at hm; simp at hm
        · rw [if_neg hB] at hm; simp at hm
      · by_cases hB : 0 ≤ ((f % 8 : Nat) : Int) + 1 ∧ ((f % 8 : Nat) : Int) + 1 < 8
        · rw [if_pos hB] at hm
          obtain ⟨hB1, hB2⟩ := hB
          rw [show ((((f / 8 : Nat) : Int) + -1) * 8 + (((f % 8 : Nat) : Int) + 1)).toNat
              = f - 7 from by omega] at hm
          have ht64 : f - 7 < 64 := by omega
          rcases List.mem_append.mp hm with hm | hm
          · by_cases hO : get_bit (side_pieces s 1) (f - 7) = true
            · rw [if_pos hO] at hm
              have hclear : ownClearAt s 0 (f - 7) :=
                ownClearAt_of_oppBit (by omega) hdisj
                  (by rw [← get_bit_eq_testBit]; exact hO)
              by_cases hPr : ((f / 8 : Nat) : Int) + -1 = 0
              · rw [if_pos hPr] at hm
                simp only [List.mem_cons, List.not_mem_nil, or_false] at hm
                rcases hm with rfl | rfl | rfl | rfl
                · exact promo_facts hf64 ht64 (by norm_num [FLAG_PROMOTION_QUEEN])
                    (by norm_num [FLAG_PROMOTION_QUEEN]) hpbP hclear
                · exact promo_facts hf64 ht64 (by norm_num [FLAG_PROMOTION_ROOK])
                    (by norm_num [FLAG_PROMOTION_ROOK]) hpbP hclear
                · exact promo_facts hf64 ht64 (by norm_num [FLAG_PROMOTION_BISHOP])
                    (by norm_num [FLAG_PROMOTION_BISHOP]) hpbP hclear
                · exact promo_facts hf64 ht64 (by norm_num [FLAG_PROMOTION_KNIGHT])
                    (by norm_num [FLAG_PROMOTION_KNIGHT]) hpbP hclear
              · rw [if_neg hPr, List.mem_singleton] at hm
                subst hm
                exact normal_facts 0 hf64 ht64 (by omega) hpbN hclear
            · rw [if_neg hO] at hm; simp at hm
          · by_cases hE : 0 ≤ unpack_ep_square (getIdx s META) ∧
                ((f - 7 : Nat) : Int) = unpack_ep_square (getIdx s META)
            · rw [if_pos hE, List.mem_singleton] at hm
              subst hm
              exact ep_facts hf64 ht64 hpbP hE.2
            · rw [if_neg hE] at hm; simp at hm
        · rw [if_neg hB] at hm; simp at hm
  · rw [generate_pawn_moves_one_eq] at hm
    simp only [List.mem_flatMap, mem_bitSquares] at hm
    obtain ⟨f, ⟨hf64, hfbit⟩, hm⟩ := hm
    have hpbN : get_bit (getIdx s (0 + 6 * 1)) f = true := by
      rw [get_bit_eq_testBit]; exact hfbit
    have hpbP : get_bit (getIdx s (6 * 1)) f = true := by
      rw [get_bit_eq_testBit]; exact hfbit
    have hflo : 8 ≤ f := by
      by_contra h8
      have hx := (hpawns f hf64 (Or.inl (by omega))).2
      rw [get_bit_eq_testBit, hfbit] at hx
      simp at hx
    have hfhi : f < 56 := by
      by_contra h56
      have hx := (hpawns f hf64 (Or.inr (by omega))).2
      rw [get_bit_eq_testBit, hfbit] at hx
      simp at hx
    rcases List.mem_append.mp hm with hm | hm
    · rw [show ((f : Int) + 8).toNat = f + 8 from by omega,
        show ((f : Int) + 2 * 8).toNat = f + 16 from by omega] at hm
      by_cases hP : ¬ get_bit (getIdx s OCCUPIED) (f + 8) = true
      · rw [if_pos hP] at hm
        have hclear : ownClearAt s 1 (f + 8) :=
          sideClear_of_notOcc (by omega) hocc (by simpa [get_bit_eq_testBit] using hP)
        by_cases hPr : ((f / 8 : Nat) : Int) + 1 = 7
        · rw [if_pos hPr] at hm
          simp only [List.mem_cons, List.not_mem_nil, or_false] at hm
          rcases hm with rfl | rfl | rfl | rfl
          · exact promo_facts hf64 (by omega) (by norm_num [FLAG_PROMOTION_QUEEN])
              (by norm_num [FLAG_PROMOTION_QUEEN]) hpbP hclear
          · exact promo_facts hf64 (by omega) (by norm_num [FLAG_PROMOTION_ROOK])
              (by norm_num [FLAG_PROMOTION_ROOK]) hpbP hclear
          · exact promo_facts hf64 (by omega) (by norm_num [FLAG_PROMOTION_BISHOP])
              (by norm_num [FLAG_PROMOTION_BISHOP]) hpbP hclear
          · exact promo_facts hf64 (by omega) (by norm_num [FLAG_PROMOTION_KNIGHT])
              (by norm_num [FLAG_PROMOTION_KNIGHT]) hpbP hclear
        · rw [if_neg hPr] at hm
          rcases List.mem_cons.mp hm with rfl | hm
          · exact normal_facts 0 hf64 (by omega) (by omega) hpbN hclear
          · by_cases hR : f / 8 = 1
            · rw [if_pos hR] at hm
              by_cases hP2 : ¬ get_bit (getIdx s OCCUPIED) (f + 16) = true
              · rw [if_pos hP2, List.mem_singleton] at hm
                subst hm
                exact normal_facts 0 hf64 (by omega) (by omega) hpbN
                  (sideClear_of_notOcc (by omega) hocc
                    (by simpa [get_bit_eq_testBit] using hP2))
              · rw [if_neg hP2] at hm; simp at hm
            · rw [if_neg hR] at hm; simp at hm
      · rw [if_neg hP] at hm; simp at hm
    · simp only [List.flatMap_cons, List.flatMap_nil, List.append_nil] at hm
      rcases List.mem_append.mp hm with hm | hm
      · by_cases hB : 0 ≤ ((f % 8 : Nat) : Int) + -1 ∧ ((f % 8 : Nat) : Int) + -1 < 8
        · rw [if_pos hB] at hm
          obtain ⟨hB1, hB2⟩ := hB
          rw [show ((((f / 8 : Nat) : Int) + 1) * 8 + (((f % 8 : Nat) : Int) + -1)).toNat
              = f + 7 from by omega] at hm
          have ht64 : f + 7 < 64 := by omega
          rcases List.mem_append.mp hm with hm | hm
          · by_cases hO : get_bit (side_pieces s 0) (f + 7) = true
            · rw [if_pos hO] at hm
              have hclear : ownClearAt s 1 (f + 7) :=
                ownClearAt_of_oppBit (by omega) hdisj
                  (by rw [← get_bit_eq_testBit]; exact hO)
              by_cases hPr : ((f / 8 : Nat) : Int) + 1 = 7
              · rw [if_pos hPr] at hm
                simp only [List.mem_cons, List.not_mem_nil, or_false] at hm
                rcases hm with rfl | rfl | rfl | rfl
                · exact promo_facts hf64 ht64 (by norm_num [FLAG_PROMOTION_QUEEN])
                    (by norm_num [FLAG_PROMOTION_QUEEN]) hpbP hclear
                · exact promo_facts hf64 ht64 (by norm_num [FLAG_PROMOTION_ROOK])
                    (by norm_num [FLAG_PROMOTION_ROOK]) hpbP hclear
                · exact promo_facts hf64 ht64 (by norm_num [FLAG_PROMOTION_BISHOP])
                    (by norm_num [FLAG_PROMOTION_BISHOP]) hpbP hclear
                · exact promo_facts hf64 ht64 (by norm_num [FLAG_PROMOTION_KNIGHT])
                    (by norm_num [FLAG_PROMOTION_KNIGHT]) hpbP hclear
              · rw [if_neg hPr, List.mem_singleton] at hm
                subst hm
                exact normal_facts 0 hf64 ht64 (by omega) hpbN hclear
            · rw [if_neg hO] at hm; simp at hm
          · by_cases hE : 0 ≤ unpack_ep_square (getIdx s META) ∧
                ((f + 7 : Nat) : Int) = unpack_ep_square (getIdx s META)
            · rw [if_pos hE, List.mem_singleton] at hm
              subst hm
              exact ep_facts hf64 ht64 hpbP hE.2
            · rw [if_neg hE] at hm; simp at hm
        · rw [if_neg hB] at hm; simp at hm
      · by_cases hB : 0 ≤ ((f % 8 : Nat) : Int) + 1 ∧ ((f % 8 : Nat) : Int) + 1 < 8
        · rw [if_pos hB] at hm
          obtain ⟨hB1, hB2⟩ := hB
          rw [show ((((f / 8 : Nat) : Int) + 1) * 8 + (((f % 8 : Nat) : Int) + 1)).toNat
              = f + 9 from by omega] at hm
          have ht64 : f + 9 < 64 := by omega
          rcases List.mem_append.mp hm with hm | hm
          · by_cases hO : get_bit (side_pieces s 0) (f + 9) = true
            · rw [if_pos hO] at hm
              have hclear : ownClearAt s 1 (f + 9) :=
                ownClearAt_of_oppBit (by omega) hdisj
                  (by rw [← get_bit_eq_testBit]; exact hO)
              by_cases hPr : ((f / 8 : Nat) : Int) + 1 = 7
              · rw [if_pos hPr] at hm
                simp only [List.mem_cons, List.not_mem_nil, or_false] at hm
                rcases hm with rfl | rfl | rfl | rfl
                · exact promo_facts hf64 ht64 (by norm_num [FLAG_PROMOTION_QUEEN])
                    (by norm_num [FLAG_PROMOTION_QUEEN]) hpbP hclear
                · exact promo_facts hf64 ht64 (by norm_num [FLAG_PROMOTION_ROOK])
                    (by norm_num [FLAG_PROMOTION_ROOK]) hpbP hclear
                · exact promo_facts hf64 ht64 (by norm_num [FLAG_PROMOTION_BISHOP])
                    (by norm_num [FLAG_PROMOTION_BISHOP]) hpbP hclear
                · exact promo_facts hf64 ht64 (by norm_num [FLAG_PROMOTION_KNIGHT])
                    (by norm_num [FLAG_PROMOTION_KNIGHT]) hpbP hclear
              · rw [if_neg hPr, List.mem_singleton] at hm
                subst hm
                exact normal_facts 0 hf64 ht64 (by omega) hpbN hclear
            · rw [if_neg hO] at hm; simp at hm
          · by_cases hE : 0 ≤ unpack_ep_square (getIdx s META) ∧
                ((f + 9 : Nat) : Int) = unpack_ep_square (getIdx s META)
            · rw [if_pos hE, List.mem_singleton] at hm
              subst hm
              exact ep_facts hf64 ht64 hpbP hE.2
            · rw [if_neg hE] at hm; simp at hm
        · rw [if_neg hB] at hm; simp at hm

theorem pseudo_moves_sound {s : State} {c m : Nat} (hwf : WellFormed s) (hc : c ≤ 1)
    (hm : m ∈ generate_pseudo_legal_moves s c) : MoveFacts s c m := by
  unfold generate_pseudo_legal_moves at hm
  rcases List.mem_append.mp hm with hm | hm
  rcases List.mem_append.mp hm with hm | hm
  rcases List.mem_append.mp hm with hm | hm
  rcases List.mem_append.mp hm with hm | hm
  rcases List.mem_append.mp hm with hm | hm
  · exact pawn_moves_sound hwf hc hm
  · exact knight_moves_sound hwf hc hm
  · exact sliding_moves_sound hwf hc (by norm_num) hm
  · exact sliding_moves_sound hwf hc (by norm_num) hm
  · exact sliding_moves_sound hwf hc (by norm_num) hm
  · exact king_moves_sound hwf hc hm

theorem legal_moves_sound {s : State} {c m : Nat} (hwf : WellFormed s) (hc : c ≤ 1)
    (hm : m ∈ generate_legal_moves_numba s c) : MoveFacts s c m :=
  pseudo_moves_sound hwf hc (List.mem_filter.mp hm).1


/-! Metadata, length and occupancy-rebuild helpers for the round-trip. -/

theorem unpack_side_le (meta : Nat) : unpack_side meta ≤ 1 := Nat.and_le_right

theorem unpack_side_pack (cas : Nat) (ep : Int) (hm side : Nat) (hside : side ≤ 1) :
    unpack_side (pack_metadata cas ep hm side) = side := by
  simp only [unpack_side, pack_metadata]
  rw [Nat.shiftRight_eq_div_pow, Nat.and_one_is_mod]
  have hlow : (cas &&& 0xF) ||| ((ep + 1).toNat &&& 0x7F) <<< 4 |||
      ((hm &&& 0x1FF) <<< 11) < 2 ^ 20 := by
    apply Nat.or_lt_two_pow
    apply Nat.or_lt_two_pow
    · have h1 : cas &&& 0xF ≤ 0xF := Nat.and_le_right
      omega
    · have h1 : (ep + 1).toNat &&& 0x7F ≤ 0x7F := Nat.and_le_right
      rw [Nat.shiftLeft_eq]
      have : ((ep + 1).toNat &&& 0x7F) * 2 ^ 4 ≤ 0x7F * 2 ^ 4 :=
        Nat.mul_le_mul_right _ h1
      omega
    · have h1 : hm &&& 0x1FF ≤ 0x1FF := Nat.and_le_right
      rw [Nat.shiftLeft_eq]
      have : (hm &&& 0x1FF) * 2 ^ 11 ≤ 0x1FF * 2 ^ 11 := Nat.mul_le_mul_right _ h1
      omega
  interval_cases side
  · norm_num
    rw [show (1048576 : Nat) = 2 ^ 20 from by norm_num, Nat.div_eq_of_lt hlow]
  · rw [show ((1 : Nat) &&& 1) <<< 20 = 2 ^ 20 from by norm_num [Nat.shiftLeft_eq]]
    have ht : ((cas &&& 0xF) ||| ((ep + 1).toNat &&& 0x7F) <<< 4 |||
        ((hm &&& 0x1FF) <<< 11) ||| 2 ^ 20).testBit 20 = true := by
      rw [Nat.testBit_or, Nat.testBit_two_pow_self, Bool.or_true]
    rw [Nat.testBit_to_div_mod] at ht
    simpa using ht

theorem occUnion_congr {a b : State} (h : ∀ i, i < 12 → getIdx a i = getIdx b i) :
    occUnion a = occUnion b := by
  unfold occUnion
  rw [show List.range 12 = [0, 1, 2, 3, 4, 5, 6, 7, 8, 9, 10, 11] from rfl]
  simp only [List.foldl]
  rw [h 0 (by omega), h 1 (by omega), h 2 (by omega), h 3 (by omega), h 4 (by omega),
    h 5 (by omega), h 6 (by omega), h 7 (by omega), h 8 (by omega), h 9 (by omega),
    h 10 (by omega), h 11 (by omega)]

theorem length_applyMoveBoards (s : State) (m : Nat) :
    (applyMoveBoards s m).length = s.length := by
  simp only [applyMoveBoards, apply_ite List.length, length_setIdx, ite_self]

theorem length_make (k : ZKeys) (s : State) (m : Nat) :
    ((make_move_numba k s m).1).length = s.length := by
  dsimp only [make_move_numba]
  rw [length_setIdx, length_applyMoveBoards]

theorem length_unmake (s : State) (m : Nat) (u : UndoInfo) :
    (unmake_move_numba s m u).length = s.length := by
  simp only [unmake_move_numba, apply_ite List.length, length_setIdx, ite_self]

/-- The last two writes of `unmake_move_numba` (occupancy rebuild and hash
restore) recover `s` whenever the piece boards and metadata already do. -/
theorem restore_finish {s r : State} (h : Nat) (hs15 : s.length = 15) (hr15 : r.length = 15)
    (hocc : occupancyOk s)
    (hb : ∀ i, i < 12 → getIdx r i = getIdx s i)
    (hmeta : getIdx r META = getIdx s META)
    (hh : h = getIdx s HASH) :
    setIdx (setIdx r OCCUPIED (occUnion r)) HASH h = s := by
  have hocc2 : occUnion r = occUnion s := occUnion_congr hb
  have hoccs : getIdx s OCCUPIED = occUnion s := hocc
  have hl1 : (setIdx r OCCUPIED (occUnion r)).length = 15 := by
    rw [length_setIdx]; exact hr15
  apply stateEq_of_getIdx (by rw [length_setIdx]; exact hl1) hs15
  intro i hi
  by_cases h14 : i = 14
  · subst h14
    rw [show (14 : Nat) = HASH from rfl, getIdx_setIdx_same h (by rw [hl1]; norm_num [HASH]),
      hh]
  · rw [getIdx_setIdx_ne h (by norm_num [HASH]; omega)]
    by_cases h12 : i = 12
    · subst h12
      rw [show (12 : Nat) = OCCUPIED from rfl,
        getIdx_setIdx_same (occUnion r) (by rw [hr15]; norm_num [OCCUPIED]), hocc2, ← hoccs]
    · rw [getIdx_setIdx_ne (occUnion r) (by norm_num [OCCUPIED]; omega)]
      by_cases h13 : i = 13
      · subst h13
        exact hmeta
      · exact hb i (by omega)

/-- Bounds on the promoted-piece selector `[0, 4, 3, 2, 1][flags]`. -/
theorem promo_piece_bounds (fl : Nat) (h1 : 1 ≤ fl) (h4 : fl ≤ 4) :
    1 ≤ [0, 4, 3, 2, 1].getD fl 0 ∧ [0, 4, 3, 2, 1].getD fl 0 < 6 := by
  interval_cases fl <;> exact (by decide)



/-! Per-flag characterizations of the board strand of make.  Each lemma
resolves the capture and flag dispatch of `applyMoveBoards` under the
stated facts about the move; the metadata word is abbreviated through the
`mkMeta` slice, since unmake restores it verbatim from the undo record. -/

theorem apply_norm_cap (s : State) (m : Nat) (pidx cidx : Nat)
    (hfl : moveFlags m = 0)
    (hcap : 0 ≤ (get_piece_at s (moveTo m)).1)
    (hpidx : (if (get_piece_at s (moveFrom m)).2 = 0 then (get_piece_at s (moveFrom m)).1
        else (get_piece_at s (moveFrom m)).1 + 6).toNat = pidx)
    (hcidx : (if (get_piece_at s (moveTo m)).2 = 0 then (get_piece_at s (moveTo m)).1
        else (get_piece_at s (moveTo m)).1 + 6).toNat = cidx) :
    applyMoveBoards s m =
      setIdx (setIdx (setIdx (setIdx s cidx (clear_bit (getIdx s cidx) (moveTo m))) pidx (set_bit (clear_bit (getIdx (setIdx s cidx (clear_bit (getIdx s cidx) (moveTo m))) pidx) (moveFrom m)) (moveTo m))) OCCUPIED
          (occUnion (setIdx (setIdx s cidx (clear_bit (getIdx s cidx) (moveTo m))) pidx (set_bit (clear_bit (getIdx (setIdx s cidx (clear_bit (getIdx s cidx) (moveTo m))) pidx) (moveFrom m)) (moveTo m)))))
        META (mkMeta s m) := by
  simp only [applyMoveBoards, mkMeta, mkCastling, mkNewEp, mkHalfmove]
  rw [if_pos hcap, hcidx,
    if_neg (show ¬ moveFlags m = FLAG_CASTLING_KINGSIDE from by
      simp [hfl, FLAG_CASTLING_KINGSIDE]),
    if_neg (show ¬ moveFlags m = FLAG_CASTLING_QUEENSIDE from by
      simp [hfl, FLAG_CASTLING_QUEENSIDE]),
    if_neg (show ¬ moveFlags m = FLAG_EN_PASSANT from by simp [hfl, FLAG_EN_PASSANT]),
    if_neg (show ¬ (1 ≤ moveFlags m ∧ moveFlags m ≤ 4) from by simp [hfl]),
    hpidx]

theorem apply_norm_quiet (s : State) (m : Nat) (pidx : Nat)
    (hfl : moveFlags m = 0)
    (hcapn : ¬ 0 ≤ (get_piece_at s (moveTo m)).1)
    (hpidx : (if (get_piece_at s (moveFrom m)).2 = 0 then (get_piece_at s (moveFrom m)).1
        else (get_piece_at s (moveFrom m)).1 + 6).toNat = pidx) :
    applyMoveBoards s m =
      setIdx (setIdx (setIdx s pidx (set_bit (clear_bit (getIdx s pidx) (moveFrom m)) (moveTo m))) OCCUPIED
          (occUnion (setIdx s pidx (set_bit (clear_bit (getIdx s pidx) (moveFrom m)) (moveTo m)))))
        META (mkMeta s m) := by
  simp only [applyMoveBoards, mkMeta, mkCastling, mkNewEp, mkHalfmove]
  rw [if_neg hcapn,
    if_neg (show ¬ moveFlags m = FLAG_CASTLING_KINGSIDE from by
      simp [hfl, FLAG_CASTLING_KINGSIDE]),
    if_neg (show ¬ moveFlags m = FLAG_CASTLING_QUEENSIDE from by
      simp [hfl, FLAG_CASTLING_QUEENSIDE]),
    if_neg (show ¬ moveFlags m = FLAG_EN_PASSANT from by simp [hfl, FLAG_EN_PASSANT]),
    if_neg (show ¬ (1 ≤ moveFlags m ∧ moveFlags m ≤ 4) from by simp [hfl]),
    hpidx]

theorem apply_promo_cap (s : State) (m : Nat) (pidx ppidx cidx : Nat)
    (hfl1 : 1 ≤ moveFlags m) (hfl4 : moveFlags m ≤ 4)
    (hcap : 0 ≤ (get_piece_at s (moveTo m)).1)
    (hpidx : (if (get_piece_at s (moveFrom m)).2 = 0 then (get_piece_at s (moveFrom m)).1
        else (get_piece_at s (moveFrom m)).1 + 6).toNat = pidx)
    (hppidx : (if (get_piece_at s (moveFrom m)).2 = 0 then [0, 4, 3, 2, 1].getD (moveFlags m) 0
        else [0, 4, 3, 2, 1].getD (moveFlags m) 0 + 6) = ppidx)
    (hcidx : (if (get_piece_at s (moveTo m)).2 = 0 then (get_piece_at s (moveTo m)).1
        else (get_piece_at s (moveTo m)).1 + 6).toNat = cidx) :
    applyMoveBoards s m =
      setIdx (setIdx (setIdx (setIdx (setIdx s cidx (clear_bit (getIdx s cidx) (moveTo m))) pidx (clear_bit (getIdx (setIdx s cidx (clear_bit (getIdx s cidx) (moveTo m))) pidx) (moveFrom m))) ppidx (set_bit (getIdx (setIdx (setIdx s cidx (clear_bit (getIdx s cidx) (moveTo m))) pidx (clear_bit (getIdx (setIdx s cidx (clear_bit (getIdx s cidx) (moveTo m))) pidx) (moveFrom m))) ppidx) (moveTo m))) OCCUPIED
          (occUnion (setIdx (setIdx (setIdx s cidx (clear_bit (getIdx s cidx) (moveTo m))) pidx (clear_bit (getIdx (setIdx s cidx (clear_bit (getIdx s cidx) (moveTo m))) pidx) (moveFrom m))) ppidx (set_bit (getIdx (setIdx (setIdx s cidx (clear_bit (getIdx s cidx) (moveTo m))) pidx (clear_bit (getIdx (setIdx s cidx (clear_bit (getIdx s cidx) (moveTo m))) pidx) (moveFrom m))) ppidx) (moveTo m)))))
        META (mkMeta s m) := by
  simp only [applyMoveBoards, mkMeta, mkCastling, mkNewEp, mkHalfmove]
  rw [if_pos hcap, hcidx,
    if_neg (show ¬ moveFlags m = FLAG_CASTLING_KINGSIDE from by
      simp only [FLAG_CASTLING_KINGSIDE]; omega),
    if_neg (show ¬ moveFlags m = FLAG_CASTLING_QUEENSIDE from by
      simp only [FLAG_CASTLING_QUEENSIDE]; omega),
    if_neg (show ¬ moveFlags m = FLAG_EN_PASSANT from by
      simp only [FLAG_EN_PASSANT]; omega),
    if_pos (show 1 ≤ moveFlags m ∧ moveFlags m ≤ 4 from ⟨hfl1, hfl4⟩),
    hpidx, hppidx]

theorem apply_promo_quiet (s : State) (m : Nat) (pidx ppidx : Nat)
    (hfl1 : 1 ≤ moveFlags m) (hfl4 : moveFlags m ≤ 4)
    (hcapn : ¬ 0 ≤ (get_piece_at s (moveTo m)).1)
    (hpidx : (if (get_piece_at s (moveFrom m)).2 = 0 then (get_piece_at s (moveFrom m)).1
        else (get_piece_at s (moveFrom m)).1 + 6).toNat = pidx)
    (hppidx : (if (get_piece_at s (moveFrom m)).2 = 0 then [0, 4, 3, 2, 1].getD (moveFlags m) 0
        else [0, 4, 3, 2, 1].getD (moveFlags m) 0 + 6) = ppidx) :
    applyMoveBoards s m =
      setIdx (setIdx (setIdx (setIdx s pidx (clear_bit (getIdx s pidx) (moveFrom m))) ppidx (set_bit (getIdx (setIdx s pidx (clear_bit (getIdx s pidx) (moveFrom m))) ppidx) (moveTo m))) OCCUPIED
          (occUnion (setIdx (setIdx s pidx (clear_bit (getIdx s pidx) (moveFrom m))) ppidx (set_bit (getIdx (setIdx s pidx (clear_bit (getIdx s pidx) (moveFrom m))) ppidx) (moveTo m)))))
        META (mkMeta s m) := by
  simp only [applyMoveBoards, mkMeta, mkCastling, mkNewEp, mkHalfmove]
  rw [if_neg hcapn,
    if_neg (show ¬ moveFlags m = FLAG_CASTLING_KINGSIDE from by
      simp only [FLAG_CASTLING_KINGSIDE]; omega),
    if_neg (show ¬ moveFlags m = FLAG_CASTLING_QUEENSIDE from by
      simp only [FLAG_CASTLING_QUEENSIDE]; omega),
    if_neg (show ¬ moveFlags m = FLAG_EN_PASSANT from by
      simp only [FLAG_EN_PASSANT]; omega),
    if_pos (show 1 ≤ moveFlags m ∧ moveFlags m ≤ 4 from ⟨hfl1, hfl4⟩),
    hpidx, hppidx]

theorem apply_ep_eq (s : State) (m : Nat) (pidx oidx e : Nat)
    (hfl : moveFlags m = 7)
    (hcapn : ¬ 0 ≤ (get_piece_at s (moveTo m)).1)
    (hpidx : (if (get_piece_at s (moveFrom m)).2 = 0 then (get_piece_at s (moveFrom m)).1
        else (get_piece_at s (moveFrom m)).1 + 6).toNat = pidx)
    (he : (if (get_piece_at s (moveFrom m)).2 = 0 then unpack_ep_square (getIdx s META) + 8
        else unpack_ep_square (getIdx s META) - 8).toNat = e)
    (hoidx : (if (get_piece_at s (moveFrom m)).2 = 0 then 6 else 0) = oidx) :
    applyMoveBoards s m =
      setIdx (setIdx (setIdx (setIdx s pidx (set_bit (clear_bit (getIdx s pidx) (moveFrom m)) (moveTo m))) oidx (clear_bit (getIdx (setIdx s pidx (set_bit (clear_bit (getIdx s pidx) (moveFrom m)) (moveTo m))) oidx) e)) OCCUPIED
          (occUnion (setIdx (setIdx s pidx (set_bit (clear_bit (getIdx s pidx) (moveFrom m)) (moveTo m))) oidx (clear_bit (getIdx (setIdx s pidx (set_bit (clear_bit (getIdx s pidx) (moveFrom m)) (moveTo m))) oidx) e))))
        META (mkMeta s m) := by
  simp only [applyMoveBoards, mkMeta, mkCastling, mkNewEp, mkHalfmove]
  rw [if_neg hcapn,
    if_neg (show ¬ moveFlags m = FLAG_CASTLING_KINGSIDE from by
      simp [hfl, FLAG_CASTLING_KINGSIDE]),
    if_neg (show ¬ moveFlags m = FLAG_CASTLING_QUEENSIDE from by
      simp [hfl, FLAG_CASTLING_QUEENSIDE]),
    if_pos (show moveFlags m = FLAG_EN_PASSANT from hfl),
    hpidx, he, hoidx]

theorem apply_castleK_eq (s : State) (m : Nat) (pidx ridx rf rt : Nat)
    (hfl : moveFlags m = 5)
    (hcapn : ¬ 0 ≤ (get_piece_at s (moveTo m)).1)
    (hpidx : (if (get_piece_at s (moveFrom m)).2 = 0 then (get_piece_at s (moveFrom m)).1
        else (get_piece_at s (moveFrom m)).1 + 6).toNat = pidx)
    (hridx : (if (get_piece_at s (moveFrom m)).2 = 0 then 3 else 9) = ridx)
    (hrf : (if (get_piece_at s (moveFrom m)).2 = 0 then H1 else H8) = rf)
    (hrt : (if (get_piece_at s (moveFrom m)).2 = 0 then F1 else F8) = rt) :
    applyMoveBoards s m =
      setIdx (setIdx (setIdx (setIdx s pidx (set_bit (clear_bit (getIdx s pidx) (moveFrom m)) (moveTo m))) ridx (set_bit (clear_bit (getIdx (setIdx s pidx (set_bit (clear_bit (getIdx s pidx) (moveFrom m)) (moveTo m))) ridx) rf) rt)) OCCUPIED
          (occUnion (setIdx (setIdx s pidx (set_bit (clear_bit (getIdx s pidx) (moveFrom m)) (moveTo m))) ridx (set_bit (clear_bit (getIdx (setIdx s pidx (set_bit (clear_bit (getIdx s pidx) (moveFrom m)) (moveTo m))) ridx) rf) rt))))
        META (mkMeta s m) := by
  simp only [applyMoveBoards, mkMeta, mkCastling, mkNewEp, mkHalfmove]
  rw [if_neg hcapn,
    if_pos (show moveFlags m = FLAG_CASTLING_KINGSIDE from hfl),
    hpidx, hridx, hrf, hrt]

theorem apply_castleQ_eq (s : State) (m : Nat) (pidx ridx rf rt : Nat)
    (hfl : moveFlags m = 6)
    (hcapn : ¬ 0 ≤ (get_piece_at s (moveTo m)).1)
    (hpidx : (if (get_piece_at s (moveFrom m)).2 = 0 then (get_piece_at s (moveFrom m)).1
        else (get_piece_at s (moveFrom m)).1 + 6).toNat = pidx)
    (hridx : (if (get_piece_at s (moveFrom m)).2 = 0 then 3 else 9) = ridx)
    (hrf : (if (get_piece_at s (moveFrom m)).2 = 0 then A1 else A8) = rf)
    (hrt : (if (get_piece_at s (moveFrom m)).2 = 0 then D1 else D8) = rt) :
    applyMoveBoards s m =
      setIdx (setIdx (setIdx (setIdx s pidx (set_bit (clear_bit (getIdx s pidx) (moveFrom m)) (moveTo m))) ridx (set_bit (clear_bit (getIdx (setIdx s pidx (set_bit (clear_bit (getIdx s pidx) (moveFrom m)) (moveTo m))) ridx) rf) rt)) OCCUPIED
          (occUnion (setIdx (setIdx s pidx (set_bit (clear_bit (getIdx s pidx) (moveFrom m)) (moveTo m))) ridx (set_bit (clear_bit (getIdx (setIdx s pidx (set_bit (clear_bit (getIdx s pidx) (moveFrom m)) (moveTo m))) ridx) rf) rt))))
        META (mkMeta s m) := by
  simp only [applyMoveBoards, mkMeta, mkCastling, mkNewEp, mkHalfmove]
  rw [if_neg hcapn,
    if_neg (show ¬ moveFlags m = FLAG_CASTLING_KINGSIDE from by
      simp [hfl, FLAG_CASTLING_KINGSIDE]),
    if_pos (show moveFlags m = FLAG_CASTLING_QUEENSIDE from hfl),
    hpidx, hridx, hrf, hrt]



/-! Per-flag characterizations of `unmake_move_numba`. -/

theorem unmake_norm_cap (s' : State) (m : Nat) (u : UndoInfo) (pidx cidx : Nat)
    (hfl : moveFlags m = 0)
    (hpidx : (if 1 - unpack_side (getIdx s' META) = 0
        then (get_piece_at (setIdx s' META u.meta) (moveTo m)).1
        else (get_piece_at (setIdx s' META u.meta) (moveTo m)).1 + 6).toNat = pidx)
    (hcap : 0 ≤ u.capType)
    (hcidx : (if u.capColor = 0 then u.capType else u.capType + 6).toNat = cidx) :
    unmake_move_numba s' m u =
      setIdx (setIdx (setIdx (setIdx (setIdx s' META u.meta) pidx (set_bit (clear_bit (getIdx (setIdx s' META u.meta) pidx) (moveTo m)) (moveFrom m))) cidx (set_bit (getIdx (setIdx (setIdx s' META u.meta) pidx (set_bit (clear_bit (getIdx (setIdx s' META u.meta) pidx) (moveTo m)) (moveFrom m))) cidx) (moveTo m))) OCCUPIED
          (occUnion (setIdx (setIdx (setIdx s' META u.meta) pidx (set_bit (clear_bit (getIdx (setIdx s' META u.meta) pidx) (moveTo m)) (moveFrom m))) cidx (set_bit (getIdx (setIdx (setIdx s' META u.meta) pidx (set_bit (clear_bit (getIdx (setIdx s' META u.meta) pidx) (moveTo m)) (moveFrom m))) cidx) (moveTo m)))))
        HASH u.hash := by
  simp only [unmake_move_numba]
  rw [if_neg (show ¬ (moveFlags m = FLAG_CASTLING_KINGSIDE ∨
        moveFlags m = FLAG_CASTLING_QUEENSIDE) from by
      simp [hfl, FLAG_CASTLING_KINGSIDE, FLAG_CASTLING_QUEENSIDE]),
    if_neg (show ¬ FLAG_PROMOTION_QUEEN ≤ moveFlags m from by
      simp [hfl, FLAG_PROMOTION_QUEEN]),
    if_neg (show ¬ moveFlags m = FLAG_CASTLING_KINGSIDE from by
      simp [hfl, FLAG_CASTLING_KINGSIDE]),
    if_neg (show ¬ moveFlags m = FLAG_CASTLING_QUEENSIDE from by
      simp [hfl, FLAG_CASTLING_QUEENSIDE]),
    if_neg (show ¬ moveFlags m = FLAG_EN_PASSANT from by simp [hfl, FLAG_EN_PASSANT]),
    if_neg (show ¬ (1 ≤ moveFlags m ∧ moveFlags m ≤ 4) from by simp [hfl]),
    hpidx, if_pos hcap, hcidx]

theorem unmake_norm_quiet (s' : State) (m : Nat) (u : UndoInfo) (pidx : Nat)
    (hfl : moveFlags m = 0)
    (hpidx : (if 1 - unpack_side (getIdx s' META) = 0
        then (get_piece_at (setIdx s' META u.meta) (moveTo m)).1
        else (get_piece_at (setIdx s' META u.meta) (moveTo m)).1 + 6).toNat = pidx)
    (hcapn : ¬ 0 ≤ u.capType) :
    unmake_move_numba s' m u =
      setIdx (setIdx (setIdx (setIdx s' META u.meta) pidx (set_bit (clear_bit (getIdx (setIdx s' META u.meta) pidx) (moveTo m)) (moveFrom m))) OCCUPIED
          (occUnion (setIdx (setIdx s' META u.meta) pidx (set_bit (clear_bit (getIdx (setIdx s' META u.meta) pidx) (moveTo m)) (moveFrom m)))))
        HASH u.hash := by
  simp only [unmake_move_numba]
  rw [if_neg (show ¬ (moveFlags m = FLAG_CASTLING_KINGSIDE ∨
        moveFlags m = FLAG_CASTLING_QUEENSIDE) from by
      simp [hfl, FLAG_CASTLING_KINGSIDE, FLAG_CASTLING_QUEENSIDE]),
    if_neg (show ¬ FLAG_PROMOTION_QUEEN ≤ moveFlags m from by
      simp [hfl, FLAG_PROMOTION_QUEEN]),
    if_neg (show ¬ moveFlags m = FLAG_CASTLING_KINGSIDE from by
      simp [hfl, FLAG_CASTLING_KINGSIDE]),
    if_neg (show ¬ moveFlags m = FLAG_CASTLING_QUEENSIDE from by
      simp [hfl, FLAG_CASTLING_QUEENSIDE]),
    if_neg (show ¬ moveFlags m = FLAG_EN_PASSANT from by simp [hfl, FLAG_EN_PASSANT]),
    if_neg (show ¬ (1 ≤ moveFlags m ∧ moveFlags m ≤ 4) from by simp [hfl]),
    hpidx, if_neg hcapn]

theorem unmake_promo_cap (s' : State) (m : Nat) (u : UndoInfo) (ppidx pwidx cidx : Nat)
    (hfl1 : 1 ≤ moveFlags m) (hfl4 : moveFlags m ≤ 4)
    (hppidx : (if 1 - unpack_side (getIdx s' META) = 0 then [0, 4, 3, 2, 1].getD (moveFlags m) 0
        else [0, 4, 3, 2, 1].getD (moveFlags m) 0 + 6) = ppidx)
    (hpw : (if 1 - unpack_side (getIdx s' META) = 0 then 0 else 6) = pwidx)
    (hcap : 0 ≤ u.capType)
    (hcidx : (if u.capColor = 0 then u.capType else u.capType + 6).toNat = cidx) :
    unmake_move_numba s' m u =
      setIdx (setIdx (setIdx (setIdx (setIdx (setIdx s' META u.meta) ppidx (clear_bit (getIdx (setIdx s' META u.meta) ppidx) (moveTo m))) pwidx (set_bit (getIdx (setIdx (setIdx s' META u.meta) ppidx (clear_bit (getIdx (setIdx s' META u.meta) ppidx) (moveTo m))) pwidx) (moveFrom m))) cidx (set_bit (getIdx (setIdx (setIdx (setIdx s' META u.meta) ppidx (clear_bit (getIdx (setIdx s' META u.meta) ppidx) (moveTo m))) pwidx (set_bit (getIdx (setIdx (setIdx s' META u.meta) ppidx (clear_bit (getIdx (setIdx s' META u.meta) ppidx) (moveTo m))) pwidx) (moveFrom m))) cidx) (moveTo m))) OCCUPIED
          (occUnion (setIdx (setIdx (setIdx (setIdx s' META u.meta) ppidx (clear_bit (getIdx (setIdx s' META u.meta) ppidx) (moveTo m))) pwidx (set_bit (getIdx (setIdx (setIdx s' META u.meta) ppidx (clear_bit (getIdx (setIdx s' META u.meta) ppidx) (moveTo m))) pwidx) (moveFrom m))) cidx (set_bit (getIdx (setIdx (setIdx (setIdx s' META u.meta) ppidx (clear_bit (getIdx (setIdx s' META u.meta) ppidx) (moveTo m))) pwidx (set_bit (getIdx (setIdx (setIdx s' META u.meta) ppidx (clear_bit (getIdx (setIdx s' META u.meta) ppidx) (moveTo m))) pwidx) (moveFrom m))) cidx) (moveTo m)))))
        HASH u.hash := by
  simp only [unmake_move_numba]
  rw [if_neg (show ¬ (moveFlags m = FLAG_CASTLING_KINGSIDE ∨
        moveFlags m = FLAG_CASTLING_QUEENSIDE) from by
      simp only [FLAG_CASTLING_KINGSIDE, FLAG_CASTLING_QUEENSIDE]; omega),
    if_neg (show ¬ moveFlags m = FLAG_CASTLING_KINGSIDE from by
      simp only [FLAG_CASTLING_KINGSIDE]; omega),
    if_neg (show ¬ moveFlags m = FLAG_CASTLING_QUEENSIDE from by
      simp only [FLAG_CASTLING_QUEENSIDE]; omega),
    if_neg (show ¬ moveFlags m = FLAG_EN_PASSANT from by
      simp only [FLAG_EN_PASSANT]; omega),
    if_pos (show 1 ≤ moveFlags m ∧ moveFlags m ≤ 4 from ⟨hfl1, hfl4⟩),
    hppidx, hpw, if_pos hcap, hcidx]

theorem unmake_promo_quiet (s' : State) (m : Nat) (u : UndoInfo) (ppidx pwidx : Nat)
    (hfl1 : 1 ≤ moveFlags m) (hfl4 : moveFlags m ≤ 4)
    (hppidx : (if 1 - unpack_side (getIdx s' META) = 0 then [0, 4, 3, 2, 1].getD (moveFlags m) 0
        else [0, 4, 3, 2, 1].getD (moveFlags m) 0 + 6) = ppidx)
    (hpw : (if 1 - unpack_side (getIdx s' META) = 0 then 0 else 6) = pwidx)
    (hcapn : ¬ 0 ≤ u.capType) :
    unmake_move_numba s' m u =
      setIdx (setIdx (setIdx (setIdx (setIdx s' META u.meta) ppidx (clear_bit (getIdx (setIdx s' META u.meta) ppidx) (moveTo m))) pwidx (set_bit (getIdx (setIdx (setIdx s' META u.meta) ppidx (clear_bit (getIdx (setIdx s' META u.meta) ppidx) (moveTo m))) pwidx) (moveFrom m))) OCCUPIED
          (occUnion (setIdx (setIdx (setIdx s' META u.meta) ppidx (clear_bit (getIdx (setIdx s' META u.meta) ppidx) (moveTo m))) pwidx (set_bit (getIdx (setIdx (setIdx s' META u.meta) ppidx (clear_bit (getIdx (setIdx s' META u.meta) ppidx) (moveTo m))) pwidx) (moveFrom m)))))
        HASH u.hash := by
  simp only [unmake_move_numba]
  rw [if_neg (show ¬ (moveFlags m = FLAG_CASTLING_KINGSIDE ∨
        moveFlags m = FLAG_CASTLING_QUEENSIDE) from by
      simp only [FLAG_CASTLING_KINGSIDE, FLAG_CASTLING_QUEENSIDE]; omega),
    if_neg (show ¬ moveFlags m = FLAG_CASTLING_KINGSIDE from by
      simp only [FLAG_CASTLING_KINGSIDE]; omega),
    if_neg (show ¬ moveFlags m = FLAG_CASTLING_QUEENSIDE from by
      simp only [FLAG_CASTLING_QUEENSIDE]; omega),
    if_neg (show ¬ moveFlags m = FLAG_EN_PASSANT from by
      simp only [FLAG_EN_PASSANT]; omega),
    if_pos (show 1 ≤ moveFlags m ∧ moveFlags m ≤ 4 from ⟨hfl1, hfl4⟩),
    hppidx, hpw, if_neg hcapn]

theorem unmake_ep_eq (s' : State) (m : Nat) (u : UndoInfo) (pidx oidx e : Nat)
    (hfl : moveFlags m = 7)
    (hpidx : (if 1 - unpack_side (getIdx s' META) = 0 then ((0 : Int))
        else ((0 : Int) + 6)).toNat = pidx)
    (he : (if 1 - unpack_side (getIdx s' META) = 0 then ((moveTo m : Int) + 8)
        else ((moveTo m : Int) - 8)).toNat = e)
    (hoidx : (if 1 - unpack_side (getIdx s' META) = 0 then 6 else 0) = oidx)
    (hcapn : ¬ 0 ≤ u.capType) :
    unmake_move_numba s' m u =
      setIdx (setIdx (setIdx (setIdx (setIdx s' META u.meta) pidx (set_bit (clear_bit (getIdx (setIdx s' META u.meta) pidx) (moveTo m)) (moveFrom m))) oidx (set_bit (getIdx (setIdx (setIdx s' META u.meta) pidx (set_bit (clear_bit (getIdx (setIdx s' META u.meta) pidx) (moveTo m)) (moveFrom m))) oidx) e)) OCCUPIED
          (occUnion (setIdx (setIdx (setIdx s' META u.meta) pidx (set_bit (clear_bit (getIdx (setIdx s' META u.meta) pidx) (moveTo m)) (moveFrom m))) oidx (set_bit (getIdx (setIdx (setIdx s' META u.meta) pidx (set_bit (clear_bit (getIdx (setIdx s' META u.meta) pidx) (moveTo m)) (moveFrom m))) oidx) e))))
        HASH u.hash := by
  simp only [unmake_move_numba]
  rw [if_neg (show ¬ (moveFlags m = FLAG_CASTLING_KINGSIDE ∨
        moveFlags m = FLAG_CASTLING_QUEENSIDE) from by
      simp [hfl, FLAG_CASTLING_KINGSIDE, FLAG_CASTLING_QUEENSIDE]),
    if_pos (show FLAG_PROMOTION_QUEEN ≤ moveFlags m from by
      simp [hfl, FLAG_PROMOTION_QUEEN]),
    if_neg (show ¬ moveFlags m = FLAG_CASTLING_KINGSIDE from by
      simp [hfl, FLAG_CASTLING_KINGSIDE]),
    if_neg (show ¬ moveFlags m = FLAG_CASTLING_QUEENSIDE from by
      simp [hfl, FLAG_CASTLING_QUEENSIDE]),
    if_pos (show moveFlags m = FLAG_EN_PASSANT from hfl),
    hpidx, he, hoidx, if_neg hcapn]

theorem unmake_castleK_eq (s' : State) (m : Nat) (u : UndoInfo) (pidx ridx rf rt : Nat)
    (hfl : moveFlags m = 5)
    (hpidx : (if 1 - unpack_side (getIdx s' META) = 0 then ((5 : Int))
        else ((5 : Int) + 6)).toNat = pidx)
    (hridx : (if 1 - unpack_side (getIdx s' META) = 0 then 3 else 9) = ridx)
    (hrf : (if 1 - unpack_side (getIdx s' META) = 0 then H1 else H8) = rf)
    (hrt : (if 1 - unpack_side (getIdx s' META) = 0 then F1 else F8) = rt)
    (hcapn : ¬ 0 ≤ u.capType) :
    unmake_move_numba s' m u =
      setIdx (setIdx (setIdx (setIdx (setIdx s' META u.meta) pidx (set_bit (clear_bit (getIdx (setIdx s' META u.meta) pidx) (moveTo m)) (moveFrom m))) ridx (set_bit (clear_bit (getIdx (setIdx (setIdx s' META u.meta) pidx (set_bit (clear_bit (getIdx (setIdx s' META u.meta) pidx) (moveTo m)) (moveFrom m))) ridx) rt) rf)) OCCUPIED
          (occUnion (setIdx (setIdx (setIdx s' META u.meta) pidx (set_bit (clear_bit (getIdx (setIdx s' META u.meta) pidx) (moveTo m)) (moveFrom m))) ridx (set_bit (clear_bit (getIdx (setIdx (setIdx s' META u.meta) pidx (set_bit (clear_bit (getIdx (setIdx s' META u.meta) pidx) (moveTo m)) (moveFrom m))) ridx) rt) rf))))
        HASH u.hash := by
  simp only [unmake_move_numba]
  rw [if_pos (show (moveFlags m = FLAG_CASTLING_KINGSIDE ∨
        moveFlags m = FLAG_CASTLING_QUEENSIDE) from Or.inl hfl),
    if_pos (show moveFlags m = FLAG_CASTLING_KINGSIDE from hfl),
    hpidx, hridx, hrf, hrt, if_neg hcapn]

theorem unmake_castleQ_eq (s' : State) (m : Nat) (u : UndoInfo) (pidx ridx rf rt : Nat)
    (hfl : moveFlags m = 6)
    (hpidx : (if 1 - unpack_side (getIdx s' META) = 0 then ((5 : Int))
        else ((5 : Int) + 6)).toNat = pidx)
    (hridx : (if 1 - unpack_side (getIdx s' META) = 0 then 3 else 9) = ridx)
    (hrf : (if 1 - unpack_side (getIdx s' META) = 0 then A1 else A8) = rf)
    (hrt : (if 1 - unpack_side (getIdx s' META) = 0 then D1 else D8) = rt)
    (hcapn : ¬ 0 ≤ u.capType) :
    unmake_move_numba s' m u =
      setIdx (setIdx (setIdx (setIdx (setIdx s' META u.meta) pidx (set_bit (clear_bit (getIdx (setIdx s' META u.meta) pidx) (moveTo m)) (moveFrom m))) ridx (set_bit (clear_bit (getIdx (setIdx (setIdx s' META u.meta) pidx (set_bit (clear_bit (getIdx (setIdx s' META u.meta) pidx) (moveTo m)) (moveFrom m))) ridx) rt) rf)) OCCUPIED
          (occUnion (setIdx (setIdx (setIdx s' META u.meta) pidx (set_bit (clear_bit (getIdx (setIdx s' META u.meta) pidx) (moveTo m)) (moveFrom m))) ridx (set_bit (clear_bit (getIdx (setIdx (setIdx s' META u.meta) pidx (set_bit (clear_bit (getIdx (setIdx s' META u.meta) pidx) (moveTo m)) (moveFrom m))) ridx) rt) rf))))
        HASH u.hash := by
  simp only [unmake_move_numba]
  rw [if_pos (show (moveFlags m = FLAG_CASTLING_KINGSIDE ∨
        moveFlags m = FLAG_CASTLING_QUEENSIDE) from Or.inr hfl),
    if_neg (show ¬ moveFlags m = FLAG_CASTLING_KINGSIDE from by
      simp [hfl, FLAG_CASTLING_KINGSIDE]),
    if_pos (show moveFlags m = FLAG_CASTLING_QUEENSIDE from hfl),
    hpidx, hridx, hrf, hrt, if_neg hcapn]


/-! Round-trip of make/unmake per flag family. -/

theorem roundtrip_norm (k : ZKeys) {s : State} {m : Nat} {c pt : Nat}
    (hwf : WellFormed s) (hcs : unpack_side (getIdx s META) = c)
    (hfl : moveFlags m = 0) (hpt : pt < 6)
    (hpb : get_bit (getIdx s (pt + 6 * c)) (moveFrom m) = true)
    (hclear : ownClearAt s c (moveTo m)) :
    unmake_move_numba (make_move_numba k s m).1 m (make_move_numba k s m).2 = s := by
  obtain ⟨hlen, hbnd, hdisj, hocc, hkings, hcastle, hep, hpawns⟩ := hwf
  have hocc' : getIdx s OCCUPIED = occUnion s := hocc
  have hc1 : c ≤ 1 := hcs ▸ unpack_side_le _
  have hf64 : moveFrom m < 64 := moveFrom_lt m
  have ht64 : moveTo m < 64 := moveTo_lt m
  have hU : (make_move_numba k s m).2 = mkUndo s m := rfl
  have hum : (mkUndo s m).meta = getIdx s META := rfl
  interval_cases c
  · -- white to move
    have hpb' : (getIdx s pt).testBit (moveFrom m) = true := by
      rw [← get_bit_eq_testBit]; exact hpb
    have hTpt : (getIdx s pt).testBit (moveTo m) = false := by
      have h0 := hclear pt hpt
      rw [get_bit_eq_testBit] at h0
      exact h0
    have hothersF : ∀ j2, j2 < 12 → j2 ≠ pt → (getIdx s j2).testBit (moveFrom m) = false :=
      fun j2 hj2 hne => disjoint_other_clear hdisj (by omega) hj2 (Ne.symm hne) hpb'
    have hpcF : get_piece_at s (moveFrom m) = ((pt : Int), 0) := by
      rw [get_piece_at_of_bit (show pt < 12 from by omega) hpb' hothersF,
        Nat.mod_eq_of_lt hpt, if_pos hpt]
    have hpidxF : (if (get_piece_at s (moveFrom m)).2 = 0 then (get_piece_at s (moveFrom m)).1
        else (get_piece_at s (moveFrom m)).1 + 6).toNat = pt := by
      rw [hpcF]; norm_num
    by_cases hoccT : (getIdx s OCCUPIED).testBit (moveTo m) = true
    · -- a capture move
      obtain ⟨j, hj12, hjbit⟩ :=
        (occUnion_testBit_iff s (moveTo m)).mp (by rw [← hocc']; exact hoccT)
      have hj6 : 6 ≤ j := by
        by_contra hlt
        have h0 := hclear j (by omega)
        rw [get_bit_eq_testBit] at h0
        have h1 : (getIdx s j).testBit (moveTo m) = false := h0
        rw [hjbit] at h1
        simp at h1
      have hothersT : ∀ i, i < 12 → i ≠ j → (getIdx s i).testBit (moveTo m) = false :=
        fun i hi hne => disjoint_other_clear hdisj hj12 hi (Ne.symm hne) hjbit
      obtain ⟨q, hq6, hqlt⟩ : ∃ q, j = q + 6 ∧ q < 6 := ⟨j - 6, by omega, by omega⟩
      have hcapT : get_piece_at s (moveTo m) = ((q : Int), 1) := by
        rw [get_piece_at_of_bit hj12 hjbit hothersT,
          show j % 6 = q from by omega, if_neg (show ¬ j < 6 from by omega)]
      have hcapPos : 0 ≤ (get_piece_at s (moveTo m)).1 := by
        rw [hcapT]; exact Int.natCast_nonneg q
      have hcidxT : (if (get_piece_at s (moveTo m)).2 = 0 then (get_piece_at s (moveTo m)).1
          else (get_piece_at s (moveTo m)).1 + 6).toNat = j := by
        rw [hcapT, if_neg (show ¬ (((q : Int), (1 : Int)).2 = 0) from by norm_num)]
        show ((q : Int) + 6).toNat = j
        omega
      have hA := apply_norm_cap s m pt j hfl hcapPos hpidxF hcidxT
      have hb_pt : getIdx (make_move_numba k s m).1 pt =
          set_bit (clear_bit (getIdx s pt) (moveFrom m)) (moveTo m) := by
        dsimp only [make_move_numba]
        rw [getIdx_setIdx_ne _ (show HASH ≠ pt from by simp only [HASH]; omega), hA,
          getIdx_setIdx_ne _ (show META ≠ pt from by simp only [META]; omega),
          getIdx_setIdx_ne _ (show OCCUPIED ≠ pt from by simp only [OCCUPIED]; omega),
          getIdx_setIdx_same _ (by simp only [length_setIdx]; omega),
          getIdx_setIdx_ne _ (show j ≠ pt from by omega)]
      have hb_j : getIdx (make_move_numba k s m).1 j = clear_bit (getIdx s j) (moveTo m) := by
        dsimp only [make_move_numba]
        rw [getIdx_setIdx_ne _ (show HASH ≠ j from by simp only [HASH]; omega), hA,
          getIdx_setIdx_ne _ (show META ≠ j from by simp only [META]; omega),
          getIdx_setIdx_ne _ (show OCCUPIED ≠ j from by simp only [OCCUPIED]; omega),
          getIdx_setIdx_ne _ (show pt ≠ j from by omega),
          getIdx_setIdx_same _ (by rw [hlen]; omega)]
      have hb_oth : ∀ i, i < 12 → i ≠ pt → i ≠ j →
          getIdx (make_move_numba k s m).1 i = getIdx s i := by
        intro i hi hip hij
        dsimp only [make_move_numba]
        rw [getIdx_setIdx_ne _ (show HASH ≠ i from by simp only [HASH]; omega), hA,
          getIdx_setIdx_ne _ (show META ≠ i from by simp only [META]; omega),
          getIdx_setIdx_ne _ (show OCCUPIED ≠ i from by simp only [OCCUPIED]; omega),
          getIdx_setIdx_ne _ (show pt ≠ i from by omega),
          getIdx_setIdx_ne _ (show j ≠ i from by omega)]
      have hS'meta : getIdx (make_move_numba k s m).1 META = mkMeta s m := by
        dsimp only [make_move_numba]
        rw [getIdx_setIdx_ne _ (show HASH ≠ META from by simp only [HASH, META]; omega), hA,
          getIdx_setIdx_same _ (by simp only [length_setIdx, META]; omega)]
      have hside' : unpack_side (getIdx (make_move_numba k s m).1 META) = 1 := by
        rw [hS'meta, mkMeta, unpack_side_pack _ _ _ _ (by omega), hcs]
      have hgp0 : get_piece_at
          (setIdx (make_move_numba k s m).1 META (getIdx s META)) (moveTo m) =
          ((pt : Int), 0) := by
        have hbit : (getIdx (setIdx (make_move_numba k s m).1 META (getIdx s META))
            pt).testBit (moveTo m) = true := by
          rw [getIdx_setIdx_ne _ (show META ≠ pt from by simp only [META]; omega), hb_pt,
            testBit_set_bit]
          simp
        have hoth : ∀ i, i < 12 → i ≠ pt →
            (getIdx (setIdx (make_move_numba k s m).1 META (getIdx s META)) i).testBit
              (moveTo m) = false := by
          intro i hi hne
          rw [getIdx_setIdx_ne _ (show META ≠ i from by simp only [META]; omega)]
          by_cases hij : i = j
          · subst hij
            rw [hb_j, testBit_clear_bit (hbnd i hi) ht64]
            simp
          · rw [hb_oth i hi hne hij]
            exact hothersT i hi hij
        rw [get_piece_at_of_bit (show pt < 12 from by omega) hbit hoth,
          Nat.mod_eq_of_lt hpt, if_pos hpt]
      have HP : (if 1 - unpack_side (getIdx (make_move_numba k s m).1 META) = 0
          then (get_piece_at (setIdx (make_move_numba k s m).1 META
            ((mkUndo s m).meta)) (moveTo m)).1
          else (get_piece_at (setIdx (make_move_numba k s m).1 META
            ((mkUndo s m).meta)) (moveTo m)).1 + 6).toNat = pt := by
        rw [hside', hum, hgp0]
        norm_num
      have HC : 0 ≤ (mkUndo s m).capType := hcapPos
      have HX : (if (mkUndo s m).capColor = 0 then (mkUndo s m).capType
          else (mkUndo s m).capType + 6).toNat = j := hcidxT
      rw [hU, unmake_norm_cap _ m _ pt j hfl HP HC HX]
      apply restore_finish
      · exact hlen
      · simp only [length_setIdx, length_make]
        exact hlen
      · exact hocc
      · intro i hi
        by_cases hij : i = j
        · subst hij
          rw [getIdx_setIdx_same _ (by simp only [length_setIdx, length_make]; omega),
            getIdx_setIdx_ne _ (show pt ≠ i from by omega),
            getIdx_setIdx_ne _ (show META ≠ i from by simp only [META]; omega),
            hb_j, set_clear_cancel (hbnd i hi) ht64 hjbit]
        · by_cases hip : i = pt
          · subst hip
            rw [getIdx_setIdx_ne _ (show j ≠ i from by omega),
              getIdx_setIdx_same _ (by simp only [length_setIdx, length_make]; omega),
              getIdx_setIdx_ne _ (show META ≠ i from by simp only [META]; omega),
              hb_pt, moveBit_roundtrip (hbnd i hi) hf64 ht64 hpb' hTpt]
          · rw [getIdx_setIdx_ne _ (show j ≠ i from by omega),
              getIdx_setIdx_ne _ (show pt ≠ i from by omega),
              getIdx_setIdx_ne _ (show META ≠ i from by simp only [META]; omega),
              hb_oth i hi hip hij]
      · rw [getIdx_setIdx_ne _ (show j ≠ META from by simp only [META]; omega),
          getIdx_setIdx_ne _ (show pt ≠ META from by simp only [META]; omega),
          getIdx_setIdx_same _ (by rw [length_make, hlen]; simp only [META]; omega)]
        exact hum
      · rfl
    · -- a quiet move
      have hallT : ∀ j2, j2 < 12 → (getIdx s j2).testBit (moveTo m) = false :=
        allClear_of_notOcc hocc (by simpa using hoccT)
      have hcapE : get_piece_at s (moveTo m) = (-1, -1) := get_piece_at_empty hallT
      have hcapn : ¬ 0 ≤ (get_piece_at s (moveTo m)).1 := by
        rw [hcapE]; norm_num
      have hA := apply_norm_quiet s m pt hfl hcapn hpidxF
      have hb_pt : getIdx (make_move_numba k s m).1 pt =
          set_bit (clear_bit (getIdx s pt) (moveFrom m)) (moveTo m) := by
        dsimp only [make_move_numba]
        rw [getIdx_setIdx_ne _ (show HASH ≠ pt from by simp only [HASH]; omega), hA,
          getIdx_setIdx_ne _ (show META ≠ pt from by simp only [META]; omega),
          getIdx_setIdx_ne _ (show OCCUPIED ≠ pt from by simp only [OCCUPIED]; omega),
          getIdx_setIdx_same _ (by rw [hlen]; omega)]
      have hb_oth : ∀ i, i < 12 → i ≠ pt →
          getIdx (make_move_numba k s m).1 i = getIdx s i := by
        intro i hi hip
        dsimp only [make_move_numba]
        rw [getIdx_setIdx_ne _ (show HASH ≠ i from by simp only [HASH]; omega), hA,
          getIdx_setIdx_ne _ (show META ≠ i from by simp only [META]; omega),
          getIdx_setIdx_ne _ (show OCCUPIED ≠ i from by simp only [OCCUPIED]; omega),
          getIdx_setIdx_ne _ (show pt ≠ i from by omega)]
      have hS'meta : getIdx (make_move_numba k s m).1 META = mkMeta s m := by
        dsimp only [make_move_numba]
        rw [getIdx_setIdx_ne _ (show HASH ≠ META from by simp only [HASH, META]; omega), hA,
          getIdx_setIdx_same _ (by simp only [length_setIdx, META]; omega)]
      have hside' : unpack_side (getIdx (make_move_numba k s m).1 META) = 1 := by
        rw [hS'meta, mkMeta, unpack_side_pack _ _ _ _ (by omega), hcs]
      have hgp0 : get_piece_at
          (setIdx (make_move_numba k s m).1 META (getIdx s META)) (moveTo m) =
          ((pt : Int), 0) := by
        have hbit : (getIdx (setIdx (make_move_numba k s m).1 META (getIdx s META))
            pt).testBit (moveTo m) = true := by
          rw [getIdx_setIdx_ne _ (show META ≠ pt from by simp only [META]; omega), hb_pt,
            testBit_set_bit]
          simp
        have hoth : ∀ i, i < 12 → i ≠ pt →
            (getIdx (setIdx (make_move_numba k s m).1 META (getIdx s META)) i).testBit
              (moveTo m) = false := by
          intro i hi hne
          rw [getIdx_setIdx_ne _ (show META ≠ i from by simp only [META]; omega),
            hb_oth i hi hne]
          exact hallT i hi
        rw [get_piece_at_of_bit (show pt < 12 from by omega) hbit hoth,
          Nat.mod_eq_of_lt hpt, if_pos hpt]
      have HP : (if 1 - unpack_side (getIdx (make_move_numba k s m).1 META) = 0
          then (get_piece_at (setIdx (make_move_numba k s m).1 META
            ((mkUndo s m).meta)) (moveTo m)).1
          else (get_piece_at (setIdx (make_move_numba k s m).1 META
            ((mkUndo s m).meta)) (moveTo m)).1 + 6).toNat = pt := by
        rw [hside', hum, hgp0]
        norm_num
      have HCN : ¬ 0 ≤ (mkUndo s m).capType := hcapn
      rw [hU, unmake_norm_quiet _ m _ pt hfl HP HCN]
      apply restore_finish
      · exact hlen
      · simp only [length_setIdx, length_make]
        exact hlen
      · exact hocc
      · intro i hi
        by_cases hip : i = pt
        · subst hip
          rw [getIdx_setIdx_same _ (by simp only [length_setIdx, length_make]; omega),
            getIdx_setIdx_ne _ (show META ≠ i from by simp only [META]; omega),
            hb_pt, moveBit_roundtrip (hbnd i hi) hf64 ht64 hpb' hTpt]
        · rw [getIdx_setIdx_ne _ (show pt ≠ i from by omega),
            getIdx_setIdx_ne _ (show META ≠ i from by simp only [META]; omega),
            hb_oth i hi hip]
      · rw [getIdx_setIdx_ne _ (show pt ≠ META from by simp only [META]; omega),
          getIdx_setIdx_same _ (by rw [length_make, hlen]; simp only [META]; omega)]
        exact hum
      · rfl
  · -- black to move
    have hpb' : (getIdx s (pt + 6)).testBit (moveFrom m) = true := by
      rw [← get_bit_eq_testBit]; exact hpb
    have hTpt : (getIdx s (pt + 6)).testBit (moveTo m) = false := by
      have h0 := hclear pt hpt
      rw [get_bit_eq_testBit] at h0
      exact h0
    have hothersF : ∀ j2, j2 < 12 → j2 ≠ pt + 6 →
        (getIdx s j2).testBit (moveFrom m) = false :=
      fun j2 hj2 hne => disjoint_other_clear hdisj (by omega) hj2 (Ne.symm hne) hpb'
    have hpcF : get_piece_at s (moveFrom m) = ((pt : Int), 1) := by
      rw [get_piece_at_of_bit (show pt + 6 < 12 from by omega) hpb' hothersF,
        show (pt + 6) % 6 = pt from by omega, if_neg (show ¬ pt + 6 < 6 from by omega)]
    have hpidxF : (if (get_piece_at s (moveFrom m)).2 = 0 then (get_piece_at s (moveFrom m)).1
        else (get_piece_at s (moveFrom m)).1 + 6).toNat = pt + 6 := by
      rw [hpcF, if_neg (show ¬ (((pt : Int), (1 : Int)).2 = 0) from by norm_num)]
      show ((pt : Int) + 6).toNat = pt + 6
      omega
    by_cases hoccT : (getIdx s OCCUPIED).testBit (moveTo m) = true
    · -- a capture move
      obtain ⟨j, hj12, hjbit⟩ :=
        (occUnion_testBit_iff s (moveTo m)).mp (by rw [← hocc']; exact hoccT)
      have hj6 : j < 6 := by
        by_contra hge
        have h0 := hclear (j - 6) (by omega)
        rw [get_bit_eq_testBit] at h0
        have h1 : (getIdx s j).testBit (moveTo m) = false := by
          have he : j - 6 + 6 * 1 = j := by omega
          rw [← he]
          exact h0
        rw [hjbit] at h1
        simp at h1
      have hothersT : ∀ i, i < 12 → i ≠ j → (getIdx s i).testBit (moveTo m) = false :=
        fun i hi hne => disjoint_other_clear hdisj hj12 hi (Ne.symm hne) hjbit
      have hcapT : get_piece_at s (moveTo m) = ((j : Int), 0) := by
        rw [get_piece_at_of_bit hj12 hjbit hothersT,
          Nat.mod_eq_of_lt hj6, if_pos hj6]
      have hcapPos : 0 ≤ (get_piece_at s (moveTo m)).1 := by
        rw [hcapT]; exact Int.natCast_nonneg j
      have hcidxT : (if (get_piece_at s (moveTo m)).2 = 0 then (get_piece_at s (moveTo m)).1
          else (get_piece_at s (moveTo m)).1 + 6).toNat = j := by
        rw [hcapT, if_pos (show (((j : Int), (0 : Int)).2 = 0) from rfl)]
        show ((j : Int)).toNat = j
        omega
      have hA := apply_norm_cap s m (pt + 6) j hfl hcapPos hpidxF hcidxT
      have hb_pt : getIdx (make_move_numba k s m).1 (pt + 6) =
          set_bit (clear_bit (getIdx s (pt + 6)) (moveFrom m)) (moveTo m) := by
        dsimp only [make_move_numba]
        rw [getIdx_setIdx_ne _ (show HASH ≠ pt + 6 from by simp only [HASH]; omega), hA,
          getIdx_setIdx_ne _ (show META ≠ pt + 6 from by simp only [META]; omega),
          getIdx_setIdx_ne _ (show OCCUPIED ≠ pt + 6 from by simp only [OCCUPIED]; omega),
          getIdx_setIdx_same _ (by simp only [length_setIdx]; omega),
          getIdx_setIdx_ne _ (show j ≠ pt + 6 from by omega)]
      have hb_j : getIdx (make_move_numba k s m).1 j = clear_bit (getIdx s j) (moveTo m) := by
        dsimp only [make_move_numba]
        rw [getIdx_setIdx_ne _ (show HASH ≠ j from by simp only [HASH]; omega), hA,
          getIdx_setIdx_ne _ (show META ≠ j from by simp only [META]; omega),
          getIdx_setIdx_ne _ (show OCCUPIED ≠ j from by simp only [OCCUPIED]; omega),
          getIdx_setIdx_ne _ (show pt + 6 ≠ j from by omega),
          getIdx_setIdx_same _ (by rw [hlen]; omega)]
      have hb_oth : ∀ i, i < 12 → i ≠ pt + 6 → i ≠ j →
          getIdx (make_move_numba k s m).1 i = getIdx s i := by
        intro i hi hip hij
        dsimp only [make_move_numba]
        rw [getIdx_setIdx_ne _ (show HASH ≠ i from by simp only [HASH]; omega), hA,
          getIdx_setIdx_ne _ (show META ≠ i from by simp only [META]; omega),
          getIdx_setIdx_ne _ (show OCCUPIED ≠ i from by simp only [OCCUPIED]; omega),
          getIdx_setIdx_ne _ (show pt + 6 ≠ i from by omega),
          getIdx_setIdx_ne _ (show j ≠ i from by omega)]
      have hS'meta : getIdx (make_move_numba k s m).1 META = mkMeta s m := by
        dsimp only [make_move_numba]
        rw [getIdx_setIdx_ne _ (show HASH ≠ META from by simp only [HASH, META]; omega), hA,
          getIdx_setIdx_same _ (by simp only [length_setIdx, META]; omega)]
      have hside' : unpack_side (getIdx (make_move_numba k s m).1 META) = 0 := by
        rw [hS'meta, mkMeta, unpack_side_pack _ _ _ _ (by omega), hcs]
      have hgp0 : get_piece_at
          (setIdx (make_move_numba k s m).1 META (getIdx s META)) (moveTo m) =
          ((pt : Int), 1) := by
        have hbit : (getIdx (setIdx (make_move_numba k s m).1 META (getIdx s META))
            (pt + 6)).testBit (moveTo m) = true := by
          rw [getIdx_setIdx_ne _ (show META ≠ pt + 6 from by simp only [META]; omega), hb_pt,
            testBit_set_bit]
          simp
        have hoth : ∀ i, i < 12 → i ≠ pt + 6 →
            (getIdx (setIdx (make_move_numba k s m).1 META (getIdx s META)) i).testBit
              (moveTo m) = false := by
          intro i hi hne
          rw [getIdx_setIdx_ne _ (show META ≠ i from by simp only [META]; omega)]
          by_cases hij : i = j
          · subst hij
            rw [hb_j, testBit_clear_bit (hbnd i hi) ht64]
            simp
          · rw [hb_oth i hi hne hij]
            exact hothersT i hi hij
        rw [get_piece_at_of_bit (show pt + 6 < 12 from by omega) hbit hoth,
          show (pt + 6) % 6 = pt from by omega, if_neg (show ¬ pt + 6 < 6 from by omega)]
      have HP : (if 1 - unpack_side (getIdx (make_move_numba k s m).1 META) = 0
          then (get_piece_at (setIdx (make_move_numba k s m).1 META
            ((mkUndo s m).meta)) (moveTo m)).1
          else (get_piece_at (setIdx (make_move_numba k s m).1 META
            ((mkUndo s m).meta)) (moveTo m)).1 + 6).toNat = pt + 6 := by
        rw [hside', hum, hgp0, if_neg (show ¬ ((1 : Nat) - 0 = 0) from by norm_num)]
        show ((pt : Int) + 6).toNat = pt + 6
        omega
      have HC : 0 ≤ (mkUndo s m).capType := hcapPos
      have HX : (if (mkUndo s m).capColor = 0 then (mkUndo s m).capType
          else (mkUndo s m).capType + 6).toNat = j := hcidxT
      rw [hU, unmake_norm_cap _ m _ (pt + 6) j hfl HP HC HX]
      apply restore_finish
      · exact hlen
      · simp only [length_setIdx, length_make]
        exact hlen
      · exact hocc
      · intro i hi
        by_cases hij : i = j
        · subst hij
          rw [getIdx_setIdx_same _ (by simp only [length_setIdx, length_make]; omega),
            getIdx_setIdx_ne _ (show pt + 6 ≠ i from by omega),
            getIdx_setIdx_ne _ (show META ≠ i from by simp only [META]; omega),
            hb_j, set_clear_cancel (hbnd i hi) ht64 hjbit]
        · by_cases hip : i = pt + 6
          · subst hip
            rw [getIdx_setIdx_ne _ (show j ≠ pt + 6 from by omega),
              getIdx_setIdx_same _ (by simp only [length_setIdx, length_make]; omega),
              getIdx_setIdx_ne _ (show META ≠ pt + 6 from by simp only [META]; omega),
              hb_pt, moveBit_roundtrip (hbnd (pt + 6) (by omega)) hf64 ht64 hpb' hTpt]
          · rw [getIdx_setIdx_ne _ (show j ≠ i from by omega),
              getIdx_setIdx_ne _ (show pt + 6 ≠ i from by omega),
              getIdx_setIdx_ne _ (show META ≠ i from by simp only [META]; omega),
              hb_oth i hi hip hij]
      · rw [getIdx_setIdx_ne _ (show j ≠ META from by simp only [META]; omega),
          getIdx_setIdx_ne _ (show pt + 6 ≠ META from by simp only [META]; omega),
          getIdx_setIdx_same _ (by rw [length_make, hlen]; simp only [META]; omega)]
        exact hum
      · rfl
    · -- a quiet move
      have hallT : ∀ j2, j2 < 12 → (getIdx s j2).testBit (moveTo m) = false :=
        allClear_of_notOcc hocc (by simpa using hoccT)
      have hcapE : get_piece_at s (moveTo m) = (-1, -1) := get_piece_at_empty hallT
      have hcapn : ¬ 0 ≤ (get_piece_at s (moveTo m)).1 := by
        rw [hcapE]; norm_num
      have hA := apply_norm_quiet s m (pt + 6) hfl hcapn hpidxF
      have hb_pt : getIdx (make_move_numba k s m).1 (pt + 6) =
          set_bit (clear_bit (getIdx s (pt + 6)) (moveFrom m)) (moveTo m) := by
        dsimp only [make_move_numba]
        rw [getIdx_setIdx_ne _ (show HASH ≠ pt + 6 from by simp only [HASH]; omega), hA,
          getIdx_setIdx_ne _ (show META ≠ pt + 6 from by simp only [META]; omega),
          getIdx_setIdx_ne _ (show OCCUPIED ≠ pt + 6 from by simp only [OCCUPIED]; omega),
          getIdx_setIdx_same _ (by rw [hlen]; omega)]
      have hb_oth : ∀ i, i < 12 → i ≠ pt + 6 →
          getIdx (make_move_numba k s m).1 i = getIdx s i := by
        intro i hi hip
        dsimp only [make_move_numba]
        rw [getIdx_setIdx_ne _ (show HASH ≠ i from by simp only [HASH]; omega), hA,
          getIdx_setIdx_ne _ (show META ≠ i from by simp only [META]; omega),
          getIdx_setIdx_ne _ (show OCCUPIED ≠ i from by simp only [OCCUPIED]; omega),
          getIdx_setIdx_ne _ (show pt + 6 ≠ i from by omega)]
      have hS'meta : getIdx (make_move_numba k s m).1 META = mkMeta s m := by
        dsimp only [make_move_numba]
        rw [getIdx_setIdx_ne _ (show HASH ≠ META from by simp only [HASH, META]; omega), hA,
          getIdx_setIdx_same _ (by simp only [length_setIdx, META]; omega)]
      have hside' : unpack_side (getIdx (make_move_numba k s m).1 META) = 0 := by
        rw [hS'meta, mkMeta, unpack_side_pack _ _ _ _ (by omega), hcs]
      have hgp0 : get_piece_at
          (setIdx (make_move_numba k s m).1 META (getIdx s META)) (moveTo m) =
          ((pt : Int), 1) := by
        have hbit : (getIdx (setIdx (make_move_numba k s m).1 META (getIdx s META))
            (pt + 6)).testBit (moveTo m) = true := by
          rw [getIdx_setIdx_ne _ (show META ≠ pt + 6 from by simp only [META]; omega), hb_pt,
            testBit_set_bit]
          simp
        have hoth : ∀ i, i < 12 → i ≠ pt + 6 →
            (getIdx (setIdx (make_move_numba k s m).1 META (getIdx s META)) i).testBit
              (moveTo m) = false := by
          intro i hi hne
          rw [getIdx_setIdx_ne _ (show META ≠ i from by simp only [META]; omega),
            hb_oth i hi hne]
          exact hallT i hi
        rw [get_piece_at_of_bit (show pt + 6 < 12 from by omega) hbit hoth,
          show (pt + 6) % 6 = pt from by omega, if_neg (show ¬ pt + 6 < 6 from by omega)]
      have HP : (if 1 - unpack_side (getIdx (make_move_numba k s m).1 META) = 0
          then (get_piece_at (setIdx (make_move_numba k s m).1 META
            ((mkUndo s m).meta)) (moveTo m)).1
          else (get_piece_at (setIdx (make_move_numba k s m).1 META
            ((mkUndo s m).meta)) (moveTo m)).1 + 6).toNat = pt + 6 := by
        rw [hside', hum, hgp0, if_neg (show ¬ ((1 : Nat) - 0 = 0) from by norm_num)]
        show ((pt : Int) + 6).toNat = pt + 6
        omega
      have HCN : ¬ 0 ≤ (mkUndo s m).capType := hcapn
      rw [hU, unmake_norm_quiet _ m _ (pt + 6) hfl HP HCN]
      apply restore_finish
      · exact hlen
      · simp only [length_setIdx, length_make]
        exact hlen
      · exact hocc
      · intro i hi
        by_cases hip : i = pt + 6
        · subst hip
          rw [getIdx_setIdx_same _ (by simp only [length_setIdx, length_make]; omega),
            getIdx_setIdx_ne _ (show META ≠ pt + 6 from by simp only [META]; omega),
            hb_pt, moveBit_roundtrip (hbnd (pt + 6) (by omega)) hf64 ht64 hpb' hTpt]
        · rw [getIdx_setIdx_ne _ (show pt + 6 ≠ i from by omega),
            getIdx_setIdx_ne _ (show META ≠ i from by simp only [META]; omega),
            hb_oth i hi hip]
      · rw [getIdx_setIdx_ne _ (show pt + 6 ≠ META from by simp only [META]; omega),
          getIdx_setIdx_same _ (by rw [length_make, hlen]; simp only [META]; omega)]
        exact hum
      · rfl


theorem roundtrip_promo (k : ZKeys) {s : State} {m : Nat} {c : Nat}
    (hwf : WellFormed s) (hcs : unpack_side (getIdx s META) = c)
    (hfl1 : 1 ≤ moveFlags m) (hfl4 : moveFlags m ≤ 4)
    (hpb : get_bit (getIdx s (6 * c)) (moveFrom m) = true)
    (hclear : ownClearAt s c (moveTo m)) :
    unmake_move_numba (make_move_numba k s m).1 m (make_move_numba k s m).2 = s := by
  obtain ⟨hlen, hbnd, hdisj, hocc, hkings, hcastle, hep, hpawns⟩ := hwf
  have hocc' : getIdx s OCCUPIED = occUnion s := hocc
  have hc1 : c ≤ 1 := hcs ▸ unpack_side_le _
  have hf64 : moveFrom m < 64 := moveFrom_lt m
  have ht64 : moveTo m < 64 := moveTo_lt m
  have hU : (make_move_numba k s m).2 = mkUndo s m := rfl
  have hum : (mkUndo s m).meta = getIdx s META := rfl
  obtain ⟨PP, hPPdef⟩ : ∃ x, [0, 4, 3, 2, 1].getD (moveFlags m) 0 = x := ⟨_, rfl⟩
  obtain ⟨hPP1, hPP6⟩ : 1 ≤ PP ∧ PP < 6 := hPPdef ▸ promo_piece_bounds _ hfl1 hfl4
  interval_cases c
  · -- white to move
    have hpb' : (getIdx s 0).testBit (moveFrom m) = true := by
      rw [← get_bit_eq_testBit]; exact hpb
    have hTpp : (getIdx s PP).testBit (moveTo m) = false := by
      have h0 := hclear PP hPP6
      rw [get_bit_eq_testBit] at h0
      exact h0
    have hothersF : ∀ j2, j2 < 12 → j2 ≠ 0 → (getIdx s j2).testBit (moveFrom m) = false :=
      fun j2 hj2 hne => disjoint_other_clear hdisj (by omega) hj2 (Ne.symm hne) hpb'
    have hpcF : get_piece_at s (moveFrom m) = ((0 : Int), 0) := by
      rw [get_piece_at_of_bit (show (0 : Nat) < 12 from by omega) hpb' hothersF]
      norm_num
    have hpidxF : (if (get_piece_at s (moveFrom m)).2 = 0 then (get_piece_at s (moveFrom m)).1
        else (get_piece_at s (moveFrom m)).1 + 6).toNat = 0 := by
      rw [hpcF]; norm_num
    have hppidxF : (if (get_piece_at s (moveFrom m)).2 = 0
        then [0, 4, 3, 2, 1].getD (moveFlags m) 0
        else [0, 4, 3, 2, 1].getD (moveFlags m) 0 + 6) = PP := by
      rw [hpcF, if_pos (show (((0 : Int), (0 : Int)).2 = 0) from rfl)]
      exact hPPdef
    by_cases hoccT : (getIdx s OCCUPIED).testBit (moveTo m) = true
    · -- a capture promotion
      obtain ⟨j, hj12, hjbit⟩ :=
        (occUnion_testBit_iff s (moveTo m)).mp (by rw [← hocc']; exact hoccT)
      have hj6 : 6 ≤ j := by
        by_contra hlt
        have h0 := hclear j (by omega)
        rw [get_bit_eq_testBit] at h0
        have h1 : (getIdx s j).testBit (moveTo m) = false := h0
        rw [hjbit] at h1
        simp at h1
      have hothersT : ∀ i, i < 12 → i ≠ j → (getIdx s i).testBit (moveTo m) = false :=
        fun i hi hne => disjoint_other_clear hdisj hj12 hi (Ne.symm hne) hjbit
      obtain ⟨q, hq6, hqlt⟩ : ∃ q, j = q + 6 ∧ q < 6 := ⟨j - 6, by omega, by omega⟩
      have hcapT : get_piece_at s (moveTo m) = ((q : Int), 1) := by
        rw [get_piece_at_of_bit hj12 hjbit hothersT,
          show j % 6 = q from by omega, if_neg (show ¬ j < 6 from by omega)]
      have hcapPos : 0 ≤ (get_piece_at s (moveTo m)).1 := by
        rw [hcapT]; exact Int.natCast_nonneg q
      have hcidxT : (if (get_piece_at s (moveTo m)).2 = 0 then (get_piece_at s (moveTo m)).1
          else (get_piece_at s (moveTo m)).1 + 6).toNat = j := by
        rw [hcapT, if_neg (show ¬ (((q : Int), (1 : Int)).2 = 0) from by norm_num)]
        show ((q : Int) + 6).toNat = j
        omega
      have hA := apply_promo_cap s m 0 PP j hfl1 hfl4 hcapPos hpidxF hppidxF hcidxT
      have hb_pw : getIdx (make_move_numba k s m).1 0 =
          clear_bit (getIdx s 0) (moveFrom m) := by
        dsimp only [make_move_numba]
        rw [getIdx_setIdx_ne _ (show HASH ≠ 0 from by simp only [HASH]; omega), hA,
          getIdx_setIdx_ne _ (show META ≠ 0 from by simp only [META]; omega),
          getIdx_setIdx_ne _ (show OCCUPIED ≠ 0 from by simp only [OCCUPIED]; omega),
          getIdx_setIdx_ne _ (show PP ≠ 0 from by omega),
          getIdx_setIdx_same _ (by simp only [length_setIdx]; omega),
          getIdx_setIdx_ne _ (show j ≠ 0 from by omega)]
      have hb_pp : getIdx (make_move_numba k s m).1 PP =
          set_bit (getIdx s PP) (moveTo m) := by
        dsimp only [make_move_numba]
        rw [getIdx_setIdx_ne _ (show HASH ≠ PP from by simp only [HASH]; omega), hA,
          getIdx_setIdx_ne _ (show META ≠ PP from by simp only [META]; omega),
          getIdx_setIdx_ne _ (show OCCUPIED ≠ PP from by simp only [OCCUPIED]; omega),
          getIdx_setIdx_same _ (by simp only [length_setIdx]; omega),
          getIdx_setIdx_ne _ (show (0 : Nat) ≠ PP from by omega),
          getIdx_setIdx_ne _ (show j ≠ PP from by omega)]
      have hb_j : getIdx (make_move_numba k s m).1 j = clear_bit (getIdx s j) (moveTo m) := by
        dsimp only [make_move_numba]
        rw [getIdx_setIdx_ne _ (show HASH ≠ j from by simp only [HASH]; omega), hA,
          getIdx_setIdx_ne _ (show META ≠ j from by simp only [META]; omega),
          getIdx_setIdx_ne _ (show OCCUPIED ≠ j from by simp only [OCCUPIED]; omega),
          getIdx_setIdx_ne _ (show PP ≠ j from by omega),
          getIdx_setIdx_ne _ (show (0 : Nat) ≠ j from by omega),
          getIdx_setIdx_same _ (by rw [hlen]; omega)]
      have hb_oth : ∀ i, i < 12 → i ≠ 0 → i ≠ PP → i ≠ j →
          getIdx (make_move_numba k s m).1 i = getIdx s i := by
        intro i hi hi0 hipp hij
        dsimp only [make_move_numba]
        rw [getIdx_setIdx_ne _ (show HASH ≠ i from by simp only [HASH]; omega), hA,
          getIdx_setIdx_ne _ (show META ≠ i from by simp only [META]; omega),
          getIdx_setIdx_ne _ (show OCCUPIED ≠ i from by simp only [OCCUPIED]; omega),
          getIdx_setIdx_ne _ (show PP ≠ i from by omega),
          getIdx_setIdx_ne _ (show (0 : Nat) ≠ i from by omega),
          getIdx_setIdx_ne _ (show j ≠ i from by omega)]
      have hS'meta : getIdx (make_move_numba k s m).1 META = mkMeta s m := by
        dsimp only [make_move_numba]
        rw [getIdx_setIdx_ne _ (show HASH ≠ META from by simp only [HASH, META]; omega), hA,
          getIdx_setIdx_same _ (by simp only [length_setIdx, META]; omega)]
      have hside' : unpack_side (getIdx (make_move_numba k s m).1 META) = 1 := by
        rw [hS'meta, mkMeta, unpack_side_pack _ _ _ _ (by omega), hcs]
      have HPP : (if 1 - unpack_side (getIdx (make_move_numba k s m).1 META) = 0
          then [0, 4, 3, 2, 1].getD (moveFlags m) 0
          else [0, 4, 3, 2, 1].getD (moveFlags m) 0 + 6) = PP := by
        rw [hside', if_pos (show (1 : Nat) - 1 = 0 from rfl)]
        exact hPPdef
      have HPW : (if 1 - unpack_side (getIdx (make_move_numba k s m).1 META) = 0
          then 0 else 6) = 0 := by
        rw [hside', if_pos (show (1 : Nat) - 1 = 0 from rfl)]
      have HC : 0 ≤ (mkUndo s m).capType := hcapPos
      have HX : (if (mkUndo s m).capColor = 0 then (mkUndo s m).capType
          else (mkUndo s m).capType + 6).toNat = j := hcidxT
      rw [hU, unmake_promo_cap _ m _ PP 0 j hfl1 hfl4 HPP HPW HC HX]
      apply restore_finish
      · exact hlen
      · simp only [length_setIdx, length_make]
        exact hlen
      · exact hocc
      · intro i hi
        by_cases hij : i = j
        · subst hij
          rw [getIdx_setIdx_same _ (by simp only [length_setIdx, length_make]; omega),
            getIdx_setIdx_ne _ (show (0 : Nat) ≠ i from by omega),
            getIdx_setIdx_ne _ (show PP ≠ i from by omega),
            getIdx_setIdx_ne _ (show META ≠ i from by simp only [META]; omega),
            hb_j, set_clear_cancel (hbnd i hi) ht64 hjbit]
        · by_cases hipp : i = PP
          · subst hipp
            rw [getIdx_setIdx_ne _ (show j ≠ i from by omega),
              getIdx_setIdx_ne _ (show (0 : Nat) ≠ i from by omega),
              getIdx_setIdx_same _ (by simp only [length_setIdx, length_make]; omega),
              getIdx_setIdx_ne _ (show META ≠ i from by simp only [META]; omega),
              hb_pp, clear_set_cancel (hbnd i hi) ht64 hTpp]
          · by_cases hi0 : i = 0
            · subst hi0
              rw [getIdx_setIdx_ne _ (show j ≠ 0 from by omega),
                getIdx_setIdx_same _ (by simp only [length_setIdx, length_make]; omega),
                getIdx_setIdx_ne _ (show PP ≠ 0 from by omega),
                getIdx_setIdx_ne _ (show META ≠ 0 from by simp only [META]; omega),
                hb_pw, set_clear_cancel (hbnd 0 (by omega)) hf64 hpb']
            · rw [getIdx_setIdx_ne _ (show j ≠ i from by omega),
                getIdx_setIdx_ne _ (show (0 : Nat) ≠ i from by omega),
                getIdx_setIdx_ne _ (show PP ≠ i from by omega),
                getIdx_setIdx_ne _ (show META ≠ i from by simp only [META]; omega),
                hb_oth i hi hi0 hipp hij]
      · rw [getIdx_setIdx_ne _ (show j ≠ META from by simp only [META]; omega),
          getIdx_setIdx_ne _ (show (0 : Nat) ≠ META from by simp only [META]; omega),
          getIdx_setIdx_ne _ (show PP ≠ META from by simp only [META]; omega),
          getIdx_setIdx_same _ (by rw [length_make, hlen]; simp only [META]; omega)]
        exact hum
      · rfl
    · -- a quiet promotion
      have hallT : ∀ j2, j2 < 12 → (getIdx s j2).testBit (moveTo m) = false :=
        allClear_of_notOcc hocc (by simpa using hoccT)
      have hcapE : get_piece_at s (moveTo m) = (-1, -1) := get_piece_at_empty hallT
      have hcapn : ¬ 0 ≤ (get_piece_at s (moveTo m)).1 := by
        rw [hcapE]; norm_num
      have hA := apply_promo_quiet s m 0 PP hfl1 hfl4 hcapn hpidxF hppidxF
      have hb_pw : getIdx (make_move_numba k s m).1 0 =
          clear_bit (getIdx s 0) (moveFrom m) := by
        dsimp only [make_move_numba]
        rw [getIdx_setIdx_ne _ (show HASH ≠ 0 from by simp only [HASH]; omega), hA,
          getIdx_setIdx_ne _ (show META ≠ 0 from by simp only [META]; omega),
          getIdx_setIdx_ne _ (show OCCUPIED ≠ 0 from by simp only [OCCUPIED]; omega),
          getIdx_setIdx_ne _ (show PP ≠ 0 from by omega),
          getIdx_setIdx_same _ (by rw [hlen]; omega)]
      have hb_pp : getIdx (make_move_numba k s m).1 PP =
          set_bit (getIdx s PP) (moveTo m) := by
        dsimp only [make_move_numba]
        rw [getIdx_setIdx_ne _ (show HASH ≠ PP from by simp only [HASH]; omega), hA,
          getIdx_setIdx_ne _ (show META ≠ PP from by simp only [META]; omega),
          getIdx_setIdx_ne _ (show OCCUPIED ≠ PP from by simp only [OCCUPIED]; omega),
          getIdx_setIdx_same _ (by simp only [length_setIdx]; omega),
          getIdx_setIdx_ne _ (show (0 : Nat) ≠ PP from by omega)]
      have hb_oth : ∀ i, i < 12 → i ≠ 0 → i ≠ PP →
          getIdx (make_move_numba k s m).1 i = getIdx s i := by
        intro i hi hi0 hipp
        dsimp only [make_move_numba]
        rw [getIdx_setIdx_ne _ (show HASH ≠ i from by simp only [HASH]; omega), hA,
          getIdx_setIdx_ne _ (show META ≠ i from by simp only [META]; omega),
          getIdx_setIdx_ne _ (show OCCUPIED ≠ i from by simp only [OCCUPIED]; omega),
          getIdx_setIdx_ne _ (show PP ≠ i from by omega),
          getIdx_setIdx_ne _ (show (0 : Nat) ≠ i from by omega)]
      have hS'meta : getIdx (make_move_numba k s m).1 META = mkMeta s m := by
        dsimp only [make_move_numba]
        rw [getIdx_setIdx_ne _ (show HASH ≠ META from by simp only [HASH, META]; omega), hA,
          getIdx_setIdx_same _ (by simp only [length_setIdx, META]; omega)]
      have hside' : unpack_side (getIdx (make_move_numba k s m).1 META) = 1 := by
        rw [hS'meta, mkMeta, unpack_side_pack _ _ _ _ (by omega), hcs]
      have HPP : (if 1 - unpack_side (getIdx (make_move_numba k s m).1 META) = 0
          then [0, 4, 3, 2, 1].getD (moveFlags m) 0
          else [0, 4, 3, 2, 1].getD (moveFlags m) 0 + 6) = PP := by
        rw [hside', if_pos (show (1 : Nat) - 1 = 0 from rfl)]
        exact hPPdef
      have HPW : (if 1 - unpack_side (getIdx (make_move_numba k s m).1 META) = 0
          then 0 else 6) = 0 := by
        rw [hside', if_pos (show (1 : Nat) - 1 = 0 from rfl)]
      have HCN : ¬ 0 ≤ (mkUndo s m).capType := hcapn
      rw [hU, unmake_promo_quiet _ m _ PP 0 hfl1 hfl4 HPP HPW HCN]
      apply restore_finish
      · exact hlen
      · simp only [length_setIdx, length_make]
        exact hlen
      · exact hocc
      · intro i hi
        by_cases hipp : i = PP
        · subst hipp
          rw [getIdx_setIdx_ne _ (show (0 : Nat) ≠ i from by omega),
            getIdx_setIdx_same _ (by simp only [length_setIdx, length_make]; omega),
            getIdx_setIdx_ne _ (show META ≠ i from by simp only [META]; omega),
            hb_pp, clear_set_cancel (hbnd i hi) ht64 hTpp]
        · by_cases hi0 : i = 0
          · subst hi0
            rw [getIdx_setIdx_same _ (by simp only [length_setIdx, length_make]; omega),
              getIdx_setIdx_ne _ (show PP ≠ 0 from by omega),
              getIdx_setIdx_ne _ (show META ≠ 0 from by simp only [META]; omega),
              hb_pw, set_clear_cancel (hbnd 0 (by omega)) hf64 hpb']
          · rw [getIdx_setIdx_ne _ (show (0 : Nat) ≠ i from by omega),
              getIdx_setIdx_ne _ (show PP ≠ i from by omega),
              getIdx_setIdx_ne _ (show META ≠ i from by simp only [META]; omega),
              hb_oth i hi hi0 hipp]
      · rw [getIdx_setIdx_ne _ (show (0 : Nat) ≠ META from by simp only [META]; omega),
          getIdx_setIdx_ne _ (show PP ≠ META from by simp only [META]; omega),
          getIdx_setIdx_same _ (by rw [length_make, hlen]; simp only [META]; omega)]
        exact hum
      · rfl
  · -- black to move
    have hpb' : (getIdx s 6).testBit (moveFrom m) = true := by
      rw [← get_bit_eq_testBit]; exact hpb
    have hTpp : (getIdx s (PP + 6)).testBit (moveTo m) = false := by
      have h0 := hclear PP hPP6
      rw [get_bit_eq_testBit] at h0
      exact h0
    have hothersF : ∀ j2, j2 < 12 → j2 ≠ 6 → (getIdx s j2).testBit (moveFrom m) = false :=
      fun j2 hj2 hne => disjoint_other_clear hdisj (by omega) hj2 (Ne.symm hne) hpb'
    have hpcF : get_piece_at s (moveFrom m) = ((0 : Int), 1) := by
      rw [get_piece_at_of_bit (show (6 : Nat) < 12 from by omega) hpb' hothersF]
      norm_num
    have hpidxF : (if (get_piece_at s (moveFrom m)).2 = 0 then (get_piece_at s (moveFrom m)).1
        else (get_piece_at s (moveFrom m)).1 + 6).toNat = 6 := by
      rw [hpcF, if_neg (show ¬ (((0 : Int), (1 : Int)).2 = 0) from by norm_num)]
      show ((0 : Int) + 6).toNat = 6
      omega
    have hppidxF : (if (get_piece_at s (moveFrom m)).2 = 0
        then [0, 4, 3, 2, 1].getD (moveFlags m) 0
        else [0, 4, 3, 2, 1].getD (moveFlags m) 0 + 6) = PP + 6 := by
      rw [hpcF, if_neg (show ¬ (((0 : Int), (1 : Int)).2 = 0) from by norm_num), hPPdef]
    by_cases hoccT : (getIdx s OCCUPIED).testBit (moveTo m) = true
    · -- a capture promotion
      obtain ⟨j, hj12, hjbit⟩ :=
        (occUnion_testBit_iff s (moveTo m)).mp (by rw [← hocc']; exact hoccT)
      have hj6 : j < 6 := by
        by_contra hge
        have h0 := hclear (j - 6) (by omega)
        rw [get_bit_eq_testBit] at h0
        have h1 : (getIdx s j).testBit (moveTo m) = false := by
          have he : j - 6 + 6 * 1 = j := by omega
          rw [← he]
          exact h0
        rw [hjbit] at h1
        simp at h1
      have hothersT : ∀ i, i < 12 → i ≠ j → (getIdx s i).testBit (moveTo m) = false :=
        fun i hi hne => disjoint_other_clear hdisj hj12 hi (Ne.symm hne) hjbit
      have hcapT : get_piece_at s (moveTo m) = ((j : Int), 0) := by
        rw [get_piece_at_of_bit hj12 hjbit hothersT,
          Nat.mod_eq_of_lt hj6, if_pos hj6]
      have hcapPos : 0 ≤ (get_piece_at s (moveTo m)).1 := by
        rw [hcapT]; exact Int.natCast_nonneg j
      have hcidxT : (if (get_piece_at s (moveTo m)).2 = 0 then (get_piece_at s (moveTo m)).1
          else (get_piece_at s (moveTo m)).1 + 6).toNat = j := by
        rw [hcapT, if_pos (show (((j : Int), (0 : Int)).2 = 0) from rfl)]
        show ((j : Int)).toNat = j
        omega
      have hA := apply_promo_cap s m 6 (PP + 6) j hfl1 hfl4 hcapPos hpidxF hppidxF hcidxT
      have hb_pw : getIdx (make_move_numba k s m).1 6 =
          clear_bit (getIdx s 6) (moveFrom m) := by
        dsimp only [make_move_numba]
        rw [getIdx_setIdx_ne _ (show HASH ≠ 6 from by simp only [HASH]; omega), hA,
          getIdx_setIdx_ne _ (show META ≠ 6 from by simp only [META]; omega),
          getIdx_setIdx_ne _ (show OCCUPIED ≠ 6 from by simp only [OCCUPIED]; omega),
          getIdx_setIdx_ne _ (show PP + 6 ≠ 6 from by omega),
          getIdx_setIdx_same _ (by simp only [length_setIdx]; omega),
          getIdx_setIdx_ne _ (show j ≠ 6 from by omega)]
      have hb_pp : getIdx (make_move_numba k s m).1 (PP + 6) =
          set_bit (getIdx s (PP + 6)) (moveTo m) := by
        dsimp only [make_move_numba]
        rw [getIdx_setIdx_ne _ (show HASH ≠ PP + 6 from by simp only [HASH]; omega), hA,
          getIdx_setIdx_ne _ (show META ≠ PP + 6 from by simp only [META]; omega),
          getIdx_setIdx_ne _ (show OCCUPIED ≠ PP + 6 from by simp only [OCCUPIED]; omega),
          getIdx_setIdx_same _ (by simp only [length_setIdx]; omega),
          getIdx_setIdx_ne _ (show (6 : Nat) ≠ PP + 6 from by omega),
          getIdx_setIdx_ne _ (show j ≠ PP + 6 from by omega)]
      have hb_j : getIdx (make_move_numba k s m).1 j = clear_bit (getIdx s j) (moveTo m) := by
        dsimp only [make_move_numba]
        rw [getIdx_setIdx_ne _ (show HASH ≠ j from by simp only [HASH]; omega), hA,
          getIdx_setIdx_ne _ (show META ≠ j from by simp only [META]; omega),
          getIdx_setIdx_ne _ (show OCCUPIED ≠ j from by simp only [OCCUPIED]; omega),
          getIdx_setIdx_ne _ (show PP + 6 ≠ j from by omega),
          getIdx_setIdx_ne _ (show (6 : Nat) ≠ j from by omega),
          getIdx_setIdx_same _ (by rw [hlen]; omega)]
      have hb_oth : ∀ i, i < 12 → i ≠ 6 → i ≠ PP + 6 → i ≠ j →
          getIdx (make_move_numba k s m).1 i = getIdx s i := by
        intro i hi hi0 hipp hij
        dsimp only [make_move_numba]
        rw [getIdx_setIdx_ne _ (show HASH ≠ i from by simp only [HASH]; omega), hA,
          getIdx_setIdx_ne _ (show META ≠ i from by simp only [META]; omega),
          getIdx_setIdx_ne _ (show OCCUPIED ≠ i from by simp only [OCCUPIED]; omega),
          getIdx_setIdx_ne _ (show PP + 6 ≠ i from by omega),
          getIdx_setIdx_ne _ (show (6 : Nat) ≠ i from by omega),
          getIdx_setIdx_ne _ (show j ≠ i from by omega)]
      have hS'meta : getIdx (make_move_numba k s m).1 META = mkMeta s m := by
        dsimp only [make_move_numba]
        rw [getIdx_setIdx_ne _ (show HASH ≠ META from by simp only [HASH, META]; omega), hA,
          getIdx_setIdx_same _ (by simp only [length_setIdx, META]; omega)]
      have hside' : unpack_side (getIdx (make_move_numba k s m).1 META) = 0 := by
        rw [hS'meta, mkMeta, unpack_side_pack _ _ _ _ (by omega), hcs]
      have HPP : (if 1 - unpack_side (getIdx (make_move_numba k s m).1 META) = 0
          then [0, 4, 3, 2, 1].getD (moveFlags m) 0
          else [0, 4, 3, 2, 1].getD (moveFlags m) 0 + 6) = PP + 6 := by
        rw [hside', if_neg (show ¬ ((1 : Nat) - 0 = 0) from by norm_num), hPPdef]
      have HPW : (if 1 - unpack_side (getIdx (make_move_numba k s m).1 META) = 0
          then 0 else 6) = 6 := by
        rw [hside', if_neg (show ¬ ((1 : Nat) - 0 = 0) from by norm_num)]
      have HC : 0 ≤ (mkUndo s m).capType := hcapPos
      have HX : (if (mkUndo s m).capColor = 0 then (mkUndo s m).capType
          else (mkUndo s m).capType + 6).toNat = j := hcidxT
      rw [hU, unmake_promo_cap _ m _ (PP + 6) 6 j hfl1 hfl4 HPP HPW HC HX]
      apply restore_finish
      · exact hlen
      · simp only [length_setIdx, length_make]
        exact hlen
      · exact hocc
      · intro i hi
        by_cases hij : i = j
        · subst hij
          rw [getIdx_setIdx_same _ (by simp only [length_setIdx, length_make]; omega),
            getIdx_setIdx_ne _ (show (6 : Nat) ≠ i from by omega),
            getIdx_setIdx_ne _ (show PP + 6 ≠ i from by omega),
            getIdx_setIdx_ne _ (show META ≠ i from by simp only [META]; omega),
            hb_j, set_clear_cancel (hbnd i hi) ht64 hjbit]
        · by_cases hipp : i = PP + 6
          · subst hipp
            rw [getIdx_setIdx_ne _ (show j ≠ PP + 6 from by omega),
              getIdx_setIdx_ne _ (show (6 : Nat) ≠ PP + 6 from by omega),
              getIdx_setIdx_same _ (by simp only [length_setIdx, length_make]; omega),
              getIdx_setIdx_ne _ (show META ≠ PP + 6 from by simp only [META]; omega),
              hb_pp, clear_set_cancel (hbnd (PP + 6) (by omega)) ht64 hTpp]
          · by_cases hi0 : i = 6
            · subst hi0
              rw [getIdx_setIdx_ne _ (show j ≠ 6 from by omega),
                getIdx_setIdx_same _ (by simp only [length_setIdx, length_make]; omega),
                getIdx_setIdx_ne _ (show PP + 6 ≠ 6 from by omega),
                getIdx_setIdx_ne _ (show META ≠ 6 from by simp only [META]; omega),
                hb_pw, set_clear_cancel (hbnd 6 (by omega)) hf64 hpb']
            · rw [getIdx_setIdx_ne _ (show j ≠ i from by omega),
                getIdx_setIdx_ne _ (show (6 : Nat) ≠ i from by omega),
                getIdx_setIdx_ne _ (show PP + 6 ≠ i from by omega),
                getIdx_setIdx_ne _ (show META ≠ i from by simp only [META]; omega),
                hb_oth i hi hi0 hipp hij]
      · rw [getIdx_setIdx_ne _ (show j ≠ META from by simp only [META]; omega),
          getIdx_setIdx_ne _ (show (6 : Nat) ≠ META from by simp only [META]; omega),
          getIdx_setIdx_ne _ (show PP + 6 ≠ META from by simp only [META]; omega),
          getIdx_setIdx_same _ (by rw [length_make, hlen]; simp only [META]; omega)]
        exact hum
      · rfl
    · -- a quiet promotion
      have hallT : ∀ j2, j2 < 12 → (getIdx s j2).testBit (moveTo m) = false :=
        allClear_of_notOcc hocc (by simpa using hoccT)
      have hcapE : get_piece_at s (moveTo m) = (-1, -1) := get_piece_at_empty hallT
      have hcapn : ¬ 0 ≤ (get_piece_at s (moveTo m)).1 := by
        rw [hcapE]; norm_num
      have hA := apply_promo_quiet s m 6 (PP + 6) hfl1 hfl4 hcapn hpidxF hppidxF
      have hb_pw : getIdx (make_move_numba k s m).1 6 =
          clear_bit (getIdx s 6) (moveFrom m) := by
        dsimp only [make_move_numba]
        rw [getIdx_setIdx_ne _ (show HASH ≠ 6 from by simp only [HASH]; omega), hA,
          getIdx_setIdx_ne _ (show META ≠ 6 from by simp only [META]; omega),
          getIdx_setIdx_ne _ (show OCCUPIED ≠ 6 from by simp only [OCCUPIED]; omega),
          getIdx_setIdx_ne _ (show PP + 6 ≠ 6 from by omega),
          getIdx_setIdx_same _ (by rw [hlen]; omega)]
      have hb_pp : getIdx (make_move_numba k s m).1 (PP + 6) =
          set_bit (getIdx s (PP + 6)) (moveTo m) := by
        dsimp only [make_move_numba]
        rw [getIdx_setIdx_ne _ (show HASH ≠ PP + 6 from by simp only [HASH]; omega), hA,
          getIdx_setIdx_ne _ (show META ≠ PP + 6 from by simp only [META]; omega),
          getIdx_setIdx_ne _ (show OCCUPIED ≠ PP + 6 from by simp only [OCCUPIED]; omega),
          getIdx_setIdx_same _ (by simp only [length_setIdx]; omega),
          getIdx_setIdx_ne _ (show (6 : Nat) ≠ PP + 6 from by omega)]
      have hb_oth : ∀ i, i < 12 → i ≠ 6 → i ≠ PP + 6 →
          getIdx (make_move_numba k s m).1 i = getIdx s i := by
        intro i hi hi0 hipp
        dsimp only [make_move_numba]
        rw [getIdx_setIdx_ne _ (show HASH ≠ i from by simp only [HASH]; omega), hA,
          getIdx_setIdx_ne _ (show META ≠ i from by simp only [META]; omega),
          getIdx_setIdx_ne _ (show OCCUPIED ≠ i from by simp only [OCCUPIED]; omega),
          getIdx_setIdx_ne _ (show PP + 6 ≠ i from by omega),
          getIdx_setIdx_ne _ (show (6 : Nat) ≠ i from by omega)]
      have hS'meta : getIdx (make_move_numba k s m).1 META = mkMeta s m := by
        dsimp only [make_move_numba]
        rw [getIdx_setIdx_ne _ (show HASH ≠ META from by simp only [HASH, META]; omega), hA,
          getIdx_setIdx_same _ (by simp only [length_setIdx, META]; omega)]
      have hside' : unpack_side (getIdx (make_move_numba k s m).1 META) = 0 := by
        rw [hS'meta, mkMeta, unpack_side_pack _ _ _ _ (by omega), hcs]
      have HPP : (if 1 - unpack_side (getIdx (make_move_numba k s m).1 META) = 0
          then [0, 4, 3, 2, 1].getD (moveFlags m) 0
          else [0, 4, 3, 2, 1].getD (moveFlags m) 0 + 6) = PP + 6 := by
        rw [hside', if_neg (show ¬ ((1 : Nat) - 0 = 0) from by norm_num), hPPdef]
      have HPW : (if 1 - unpack_side (getIdx (make_move_numba k s m).1 META) = 0
          then 0 else 6) = 6 := by
        rw [hside', if_neg (show ¬ ((1 : Nat) - 0 = 0) from by norm_num)]
      have HCN : ¬ 0 ≤ (mkUndo s m).capType := hcapn
      rw [hU, unmake_promo_quiet _ m _ (PP + 6) 6 hfl1 hfl4 HPP HPW HCN]
      apply restore_finish
      · exact hlen
      · simp only [length_setIdx, length_make]
        exact hlen
      · exact hocc
      · intro i hi
        by_cases hipp : i = PP + 6
        · subst hipp
          rw [getIdx_setIdx_ne _ (show (6 : Nat) ≠ PP + 6 from by omega),
            getIdx_setIdx_same _ (by simp only [length_setIdx, length_make]; omega),
            getIdx_setIdx_ne _ (show META ≠ PP + 6 from by simp only [META]; omega),
            hb_pp, clear_set_cancel (hbnd (PP + 6) (by omega)) ht64 hTpp]
        · by_cases hi0 : i = 6
          · subst hi0
            rw [getIdx_setIdx_same _ (by simp only [length_setIdx, length_make]; omega),
              getIdx_setIdx_ne _ (show PP + 6 ≠ 6 from by omega),
              getIdx_setIdx_ne _ (show META ≠ 6 from by simp only [META]; omega),
              hb_pw, set_clear_cancel (hbnd 6 (by omega)) hf64 hpb']
          · rw [getIdx_setIdx_ne _ (show (6 : Nat) ≠ i from by omega),
              getIdx_setIdx_ne _ (show PP + 6 ≠ i from by omega),
              getIdx_setIdx_ne _ (show META ≠ i from by simp only [META]; omega),
              hb_oth i hi hi0 hipp]
      · rw [getIdx_setIdx_ne _ (show (6 : Nat) ≠ META from by simp only [META]; omega),
          getIdx_setIdx_ne _ (show PP + 6 ≠ META from by simp only [META]; omega),
          getIdx_setIdx_same _ (by rw [length_make, hlen]; simp only [META]; omega)]
        exact hum
      · rfl


theorem roundtrip_castleK (k : ZKeys) {s : State} {m : Nat} {c : Nat}
    (hwf : WellFormed s) (hcs : unpack_side (getIdx s META) = c)
    (hfl : moveFlags m = 5)
    (hright : unpack_castling (getIdx s META) &&& (if c = 0 then CASTLE_WK else CASTLE_BK) ≠ 0)
    (hFrom : moveFrom m = (if c = 0 then E1 else E8))
    (hTo : moveTo m = (if c = 0 then G1 else G8))
    (hO1 : get_bit (getIdx s OCCUPIED) (if c = 0 then F1 else F8) = false)
    (hO2 : get_bit (getIdx s OCCUPIED) (if c = 0 then G1 else G8) = false) :
    unmake_move_numba (make_move_numba k s m).1 m (make_move_numba k s m).2 = s := by
  obtain ⟨hlen, hbnd, hdisj, hocc, hkings, hcastle, hep, hpawns⟩ := hwf
  obtain ⟨hcwk, hcwq, hcbk, hcbq⟩ := hcastle
  have hocc' : getIdx s OCCUPIED = occUnion s := hocc
  have hc1 : c ≤ 1 := hcs ▸ unpack_side_le _
  have hf64 : moveFrom m < 64 := moveFrom_lt m
  have ht64 : moveTo m < 64 := moveTo_lt m
  have hU : (make_move_numba k s m).2 = mkUndo s m := rfl
  have hum : (mkUndo s m).meta = getIdx s META := rfl
  interval_cases c
  · -- white kingside
    have hF : moveFrom m = E1 := hFrom
    have hT : moveTo m = G1 := hTo
    have hr : unpack_castling (getIdx s META) &&& CASTLE_WK ≠ 0 := hright
    obtain ⟨hKbit0, hRbit0⟩ := hcwk hr
    have hKbit : (getIdx s 5).testBit (moveFrom m) = true := by
      rw [hF, ← get_bit_eq_testBit]; exact hKbit0
    have hRbit : (getIdx s 3).testBit H1 = true := by
      rw [← get_bit_eq_testBit]; exact hRbit0
    have hoccTf : (getIdx s OCCUPIED).testBit (moveTo m) = false := by
      rw [hT, ← get_bit_eq_testBit]; exact hO2
    have hallT : ∀ j2, j2 < 12 → (getIdx s j2).testBit (moveTo m) = false :=
      allClear_of_notOcc hocc hoccTf
    have hallRT : ∀ j2, j2 < 12 → (getIdx s j2).testBit F1 = false :=
      allClear_of_notOcc hocc (by rw [← get_bit_eq_testBit]; exact hO1)
    have hcapE : get_piece_at s (moveTo m) = (-1, -1) := get_piece_at_empty hallT
    have hcapn : ¬ 0 ≤ (get_piece_at s (moveTo m)).1 := by
      rw [hcapE]; norm_num
    have hothersF : ∀ j2, j2 < 12 → j2 ≠ 5 →
        (getIdx s j2).testBit (moveFrom m) = false :=
      fun j2 hj2 hne => disjoint_other_clear hdisj (by omega) hj2 (Ne.symm hne) hKbit
    have hpcF : get_piece_at s (moveFrom m) = ((5 : Int), 0) := by
      rw [get_piece_at_of_bit (show (5 : Nat) < 12 from by omega) hKbit hothersF]
      norm_num
    have hpidxF : (if (get_piece_at s (moveFrom m)).2 = 0 then (get_piece_at s (moveFrom m)).1
        else (get_piece_at s (moveFrom m)).1 + 6).toNat = 5 := by
      rw [hpcF]; norm_num; rfl
    have hridxF : (if (get_piece_at s (moveFrom m)).2 = 0 then 3 else 9) = 3 := by
      rw [hpcF]; norm_num
    have hrfF : (if (get_piece_at s (moveFrom m)).2 = 0 then H1 else H8) = H1 := by
      rw [hpcF]; norm_num
    have hrtF : (if (get_piece_at s (moveFrom m)).2 = 0 then F1 else F8) = F1 := by
      rw [hpcF]; norm_num
    have hA := apply_castleK_eq s m 5 3 H1 F1 hfl hcapn hpidxF hridxF hrfF hrtF
    have hb_k : getIdx (make_move_numba k s m).1 5 =
        set_bit (clear_bit (getIdx s 5) (moveFrom m)) (moveTo m) := by
      dsimp only [make_move_numba]
      rw [getIdx_setIdx_ne _ (show HASH ≠ 5 from by simp only [HASH]; omega), hA,
        getIdx_setIdx_ne _ (show META ≠ 5 from by simp only [META]; omega),
        getIdx_setIdx_ne _ (show OCCUPIED ≠ 5 from by simp only [OCCUPIED]; omega),
        getIdx_setIdx_ne _ (show (3 : Nat) ≠ 5 from by omega),
        getIdx_setIdx_same _ (by rw [hlen]; omega)]
    have hb_r : getIdx (make_move_numba k s m).1 3 =
        set_bit (clear_bit (getIdx s 3) H1) F1 := by
      dsimp only [make_move_numba]
      rw [getIdx_setIdx_ne _ (show HASH ≠ 3 from by simp only [HASH]; omega), hA,
        getIdx_setIdx_ne _ (show META ≠ 3 from by simp only [META]; omega),
        getIdx_setIdx_ne _ (show OCCUPIED ≠ 3 from by simp only [OCCUPIED]; omega),
        getIdx_setIdx_same _ (by simp only [length_setIdx]; omega),
        getIdx_setIdx_ne _ (show (5 : Nat) ≠ 3 from by omega)]
    have hb_oth : ∀ i, i < 12 → i ≠ 5 → i ≠ 3 →
        getIdx (make_move_numba k s m).1 i = getIdx s i := by
      intro i hi hik hir
      dsimp only [make_move_numba]
      rw [getIdx_setIdx_ne _ (show HASH ≠ i from by simp only [HASH]; omega), hA,
        getIdx_setIdx_ne _ (show META ≠ i from by simp only [META]; omega),
        getIdx_setIdx_ne _ (show OCCUPIED ≠ i from by simp only [OCCUPIED]; omega),
        getIdx_setIdx_ne _ (show (3 : Nat) ≠ i from by omega),
        getIdx_setIdx_ne _ (show (5 : Nat) ≠ i from by omega)]
    have hS'meta : getIdx (make_move_numba k s m).1 META = mkMeta s m := by
      dsimp only [make_move_numba]
      rw [getIdx_setIdx_ne _ (show HASH ≠ META from by simp only [HASH, META]; omega), hA,
        getIdx_setIdx_same _ (by simp only [length_setIdx, META]; omega)]
    have hside' : unpack_side (getIdx (make_move_numba k s m).1 META) = 1 := by
      rw [hS'meta, mkMeta, unpack_side_pack _ _ _ _ (by omega), hcs]
    have HP : (if 1 - unpack_side (getIdx (make_move_numba k s m).1 META) = 0
        then ((5 : Int)) else ((5 : Int) + 6)).toNat = 5 := by
      rw [hside', if_pos (show (1 : Nat) - 1 = 0 from rfl)]
      rfl
    have HR : (if 1 - unpack_side (getIdx (make_move_numba k s m).1 META) = 0
        then 3 else 9) = 3 := by
      rw [hside', if_pos (show (1 : Nat) - 1 = 0 from rfl)]
    have HRf : (if 1 - unpack_side (getIdx (make_move_numba k s m).1 META) = 0
        then H1 else H8) = H1 := by
      rw [hside', if_pos (show (1 : Nat) - 1 = 0 from rfl)]
    have HRt : (if 1 - unpack_side (getIdx (make_move_numba k s m).1 META) = 0
        then F1 else F8) = F1 := by
      rw [hside', if_pos (show (1 : Nat) - 1 = 0 from rfl)]
    have HCN : ¬ 0 ≤ (mkUndo s m).capType := hcapn
    rw [hU, unmake_castleK_eq _ m _ 5 3 H1 F1 hfl HP HR HRf HRt HCN]
    apply restore_finish
    · exact hlen
    · simp only [length_setIdx, length_make]
      exact hlen
    · exact hocc
    · intro i hi
      by_cases hir : i = 3
      · subst hir
        rw [getIdx_setIdx_same _ (by simp only [length_setIdx, length_make]; omega),
          getIdx_setIdx_ne _ (show (5 : Nat) ≠ 3 from by omega),
          getIdx_setIdx_ne _ (show META ≠ 3 from by simp only [META]; omega),
          hb_r, moveBit_roundtrip (hbnd 3 (by omega)) (show H1 < 64 from by norm_num [H1])
            (show F1 < 64 from by norm_num [F1]) hRbit (hallRT 3 (by omega))]
      · by_cases hik : i = 5
        · subst hik
          rw [getIdx_setIdx_ne _ (show (3 : Nat) ≠ 5 from by omega),
            getIdx_setIdx_same _ (by simp only [length_setIdx, length_make]; omega),
            getIdx_setIdx_ne _ (show META ≠ 5 from by simp only [META]; omega),
            hb_k, moveBit_roundtrip (hbnd 5 (by omega)) hf64 ht64 hKbit
              (hallT 5 (by omega))]
        · rw [getIdx_setIdx_ne _ (show (3 : Nat) ≠ i from by omega),
            getIdx_setIdx_ne _ (show (5 : Nat) ≠ i from by omega),
            getIdx_setIdx_ne _ (show META ≠ i from by simp only [META]; omega),
            hb_oth i hi hik hir]
    · rw [getIdx_setIdx_ne _ (show (3 : Nat) ≠ META from by simp only [META]; omega),
        getIdx_setIdx_ne _ (show (5 : Nat) ≠ META from by simp only [META]; omega),
        getIdx_setIdx_same _ (by rw [length_make, hlen]; simp only [META]; omega)]
      exact hum
    · rfl
  · -- black kingside
    have hF : moveFrom m = E8 := hFrom
    have hT : moveTo m = G8 := hTo
    have hr : unpack_castling (getIdx s META) &&& CASTLE_BK ≠ 0 := hright
    obtain ⟨hKbit0, hRbit0⟩ := hcbk hr
    have hKbit : (getIdx s 11).testBit (moveFrom m) = true := by
      rw [hF, ← get_bit_eq_testBit]; exact hKbit0
    have hRbit : (getIdx s 9).testBit H8 = true := by
      rw [← get_bit_eq_testBit]; exact hRbit0
    have hoccTf : (getIdx s OCCUPIED).testBit (moveTo m) = false := by
      rw [hT, ← get_bit_eq_testBit]; exact hO2
    have hallT : ∀ j2, j2 < 12 → (getIdx s j2).testBit (moveTo m) = false :=
      allClear_of_notOcc hocc hoccTf
    have hallRT : ∀ j2, j2 < 12 → (getIdx s j2).testBit F8 = false :=
      allClear_of_notOcc hocc (by rw [← get_bit_eq_testBit]; exact hO1)
    have hcapE : get_piece_at s (moveTo m) = (-1, -1) := get_piece_at_empty hallT
    have hcapn : ¬ 0 ≤ (get_piece_at s (moveTo m)).1 := by
      rw [hcapE]; norm_num
    have hothersF : ∀ j2, j2 < 12 → j2 ≠ 11 →
        (getIdx s j2).testBit (moveFrom m) = false :=
      fun j2 hj2 hne => disjoint_other_clear hdisj (by omega) hj2 (Ne.symm hne) hKbit
    have hpcF : get_piece_at s (moveFrom m) = ((5 : Int), 1) := by
      rw [get_piece_at_of_bit (show (11 : Nat) < 12 from by omega) hKbit hothersF]
      norm_num
    have hpidxF : (if (get_piece_at s (moveFrom m)).2 = 0 then (get_piece_at s (moveFrom m)).1
        else (get_piece_at s (moveFrom m)).1 + 6).toNat = 11 := by
      rw [hpcF]; norm_num; rfl
    have hridxF : (if (get_piece_at s (moveFrom m)).2 = 0 then 3 else 9) = 9 := by
      rw [hpcF]; norm_num
    have hrfF : (if (get_piece_at s (moveFrom m)).2 = 0 then H1 else H8) = H8 := by
      rw [hpcF]; norm_num
    have hrtF : (if (get_piece_at s (moveFrom m)).2 = 0 then F1 else F8) = F8 := by
      rw [hpcF]; norm_num
    have hA := apply_castleK_eq s m 11 9 H8 F8 hfl hcapn hpidxF hridxF hrfF hrtF
    have hb_k : getIdx (make_move_numba k s m).1 11 =
        set_bit (clear_bit (getIdx s 11) (moveFrom m)) (moveTo m) := by
      dsimp only [make_move_numba]
      rw [getIdx_setIdx_ne _ (show HASH ≠ 11 from by simp only [HASH]; omega), hA,
        getIdx_setIdx_ne _ (show META ≠ 11 from by simp only [META]; omega),
        getIdx_setIdx_ne _ (show OCCUPIED ≠ 11 from by simp only [OCCUPIED]; omega),
        getIdx_setIdx_ne _ (show (9 : Nat) ≠ 11 from by omega),
        getIdx_setIdx_same _ (by rw [hlen]; omega)]
    have hb_r : getIdx (make_move_numba k s m).1 9 =
        set_bit (clear_bit (getIdx s 9) H8) F8 := by
      dsimp only [make_move_numba]
      rw [getIdx_setIdx_ne _ (show HASH ≠ 9 from by simp only [HASH]; omega), hA,
        getIdx_setIdx_ne _ (show META ≠ 9 from by simp only [META]; omega),
        getIdx_setIdx_ne _ (show OCCUPIED ≠ 9 from by simp only [OCCUPIED]; omega),
        getIdx_setIdx_same _ (by simp only [length_setIdx]; omega),
        getIdx_setIdx_ne _ (show (11 : Nat) ≠ 9 from by omega)]
    have hb_oth : ∀ i, i < 12 → i ≠ 11 → i ≠ 9 →
        getIdx (make_move_numba k s m).1 i = getIdx s i := by
      intro i hi hik hir
      dsimp only [make_move_numba]
      rw [getIdx_setIdx_ne _ (show HASH ≠ i from by simp only [HASH]; omega), hA,
        getIdx_setIdx_ne _ (show META ≠ i from by simp only [META]; omega),
        getIdx_setIdx_ne _ (show OCCUPIED ≠ i from by simp only [OCCUPIED]; omega),
        getIdx_setIdx_ne _ (show (9 : Nat) ≠ i from by omega),
        getIdx_setIdx_ne _ (show (11 : Nat) ≠ i from by omega)]
    have hS'meta : getIdx (make_move_numba k s m).1 META = mkMeta s m := by
      dsimp only [make_move_numba]
      rw [getIdx_setIdx_ne _ (show HASH ≠ META from by simp only [HASH, META]; omega), hA,
        getIdx_setIdx_same _ (by simp only [length_setIdx, META]; omega)]
    have hside' : unpack_side (getIdx (make_move_numba k s m).1 META) = 0 := by
      rw [hS'meta, mkMeta, unpack_side_pack _ _ _ _ (by omega), hcs]
    have HP : (if 1 - unpack_side (getIdx (make_move_numba k s m).1 META) = 0
        then ((5 : Int)) else ((5 : Int) + 6)).toNat = 11 := by
      rw [hside', if_neg (show ¬ ((1 : Nat) - 0 = 0) from by norm_num)]
      rfl
    have HR : (if 1 - unpack_side (getIdx (make_move_numba k s m).1 META) = 0
        then 3 else 9) = 9 := by
      rw [hside', if_neg (show ¬ ((1 : Nat) - 0 = 0) from by norm_num)]
    have HRf : (if 1 - unpack_side (getIdx (make_move_numba k s m).1 META) = 0
        then H1 else H8) = H8 := by
      rw [hside', if_neg (show ¬ ((1 : Nat) - 0 = 0) from by norm_num)]
    have HRt : (if 1 - unpack_side (getIdx (make_move_numba k s m).1 META) = 0
        then F1 else F8) = F8 := by
      rw [hside', if_neg (show ¬ ((1 : Nat) - 0 = 0) from by norm_num)]
    have HCN : ¬ 0 ≤ (mkUndo s m).capType := hcapn
    rw [hU, unmake_castleK_eq _ m _ 11 9 H8 F8 hfl HP HR HRf HRt HCN]
    apply restore_finish
    · exact hlen
    · simp only [length_setIdx, length_make]
      exact hlen
    · exact hocc
    · intro i hi
      by_cases hir : i = 9
      · subst hir
        rw [getIdx_setIdx_same _ (by simp only [length_setIdx, length_make]; omega),
          getIdx_setIdx_ne _ (show (11 : Nat) ≠ 9 from by omega),
          getIdx_setIdx_ne _ (show META ≠ 9 from by simp only [META]; omega),
          hb_r, moveBit_roundtrip (hbnd 9 (by omega)) (show H8 < 64 from by norm_num [H8])
            (show F8 < 64 from by norm_num [F8]) hRbit (hallRT 9 (by omega))]
      · by_cases hik : i = 11
        · subst hik
          rw [getIdx_setIdx_ne _ (show (9 : Nat) ≠ 11 from by omega),
            getIdx_setIdx_same _ (by simp only [length_setIdx, length_make]; omega),
            getIdx_setIdx_ne _ (show META ≠ 11 from by simp only [META]; omega),
            hb_k, moveBit_roundtrip (hbnd 11 (by omega)) hf64 ht64 hKbit
              (hallT 11 (by omega))]
        · rw [getIdx_setIdx_ne _ (show (9 : Nat) ≠ i from by omega),
            getIdx_setIdx_ne _ (show (11 : Nat) ≠ i from by omega),
            getIdx_setIdx_ne _ (show META ≠ i from by simp only [META]; omega),
            hb_oth i hi hik hir]
    · rw [getIdx_setIdx_ne _ (show (9 : Nat) ≠ META from by simp only [META]; omega),
        getIdx_setIdx_ne _ (show (11 : Nat) ≠ META from by simp only [META]; omega),
        getIdx_setIdx_same _ (by rw [length_make, hlen]; simp only [META]; omega)]
      exact hum
    · rfl

theorem roundtrip_castleQ (k : ZKeys) {s : State} {m : Nat} {c : Nat}
    (hwf : WellFormed s) (hcs : unpack_side (getIdx s META) = c)
    (hfl : moveFlags m = 6)
    (hright : unpack_castling (getIdx s META) &&& (if c = 0 then CASTLE_WQ else CASTLE_BQ) ≠ 0)
    (hFrom : moveFrom m = (if c = 0 then E1 else E8))
    (hTo : moveTo m = (if c = 0 then C1 else C8))
    (hO1 : get_bit (getIdx s OCCUPIED) (if c = 0 then D1 else D8) = false)
    (hO2 : get_bit (getIdx s OCCUPIED) (if c = 0 then C1 else C8) = false) :
    unmake_move_numba (make_move_numba k s m).1 m (make_move_numba k s m).2 = s := by
  obtain ⟨hlen, hbnd, hdisj, hocc, hkings, hcastle, hep, hpawns⟩ := hwf
  obtain ⟨hcwk, hcwq, hcbk, hcbq⟩ := hcastle
  have hocc' : getIdx s OCCUPIED = occUnion s := hocc
  have hc1 : c ≤ 1 := hcs ▸ unpack_side_le _
  have hf64 : moveFrom m < 64 := moveFrom_lt m
  have ht64 : moveTo m < 64 := moveTo_lt m
  have hU : (make_move_numba k s m).2 = mkUndo s m := rfl
  have hum : (mkUndo s m).meta = getIdx s META := rfl
  interval_cases c
  · -- white queenside
    have hF : moveFrom m = E1 := hFrom
    have hT : moveTo m = C1 := hTo
    have hr : unpack_castling (getIdx s META) &&& CASTLE_WQ ≠ 0 := hright
    obtain ⟨hKbit0, hRbit0⟩ := hcwq hr
    have hKbit : (getIdx s 5).testBit (moveFrom m) = true := by
      rw [hF, ← get_bit_eq_testBit]; exact hKbit0
    have hRbit : (getIdx s 3).testBit A1 = true := by
      rw [← get_bit_eq_testBit]; exact hRbit0
    have hoccTf : (getIdx s OCCUPIED).testBit (moveTo m) = false := by
      rw [hT, ← get_bit_eq_testBit]; exact hO2
    have hallT : ∀ j2, j2 < 12 → (getIdx s j2).testBit (moveTo m) = false :=
      allClear_of_notOcc hocc hoccTf
    have hallRT : ∀ j2, j2 < 12 → (getIdx s j2).testBit D1 = false :=
      allClear_of_notOcc hocc (by rw [← get_bit_eq_testBit]; exact hO1)
    have hcapE : get_piece_at s (moveTo m) = (-1, -1) := get_piece_at_empty hallT
    have hcapn : ¬ 0 ≤ (get_piece_at s (moveTo m)).1 := by
      rw [hcapE]; norm_num
    have hothersF : ∀ j2, j2 < 12 → j2 ≠ 5 →
        (getIdx s j2).testBit (moveFrom m) = false :=
      fun j2 hj2 hne => disjoint_other_clear hdisj (by omega) hj2 (Ne.symm hne) hKbit
    have hpcF : get_piece_at s (moveFrom m) = ((5 : Int), 0) := by
      rw [get_piece_at_of_bit (show (5 : Nat) < 12 from by omega) hKbit hothersF]
      norm_num
    have hpidxF : (if (get_piece_at s (moveFrom m)).2 = 0 then (get_piece_at s (moveFrom m)).1
        else (get_piece_at s (moveFrom m)).1 + 6).toNat = 5 := by
      rw [hpcF]; norm_num; rfl
    have hridxF : (if (get_piece_at s (moveFrom m)).2 = 0 then 3 else 9) = 3 := by
      rw [hpcF]; norm_num
    have hrfF : (if (get_piece_at s (moveFrom m)).2 = 0 then A1 else A8) = A1 := by
      rw [hpcF]; norm_num
    have hrtF : (if (get_piece_at s (moveFrom m)).2 = 0 then D1 else D8) = D1 := by
      rw [hpcF]; norm_num
    have hA := apply_castleQ_eq s m 5 3 A1 D1 hfl hcapn hpidxF hridxF hrfF hrtF
    have hb_k : getIdx (make_move_numba k s m).1 5 =
        set_bit (clear_bit (getIdx s 5) (moveFrom m)) (moveTo m) := by
      dsimp only [make_move_numba]
      rw [getIdx_setIdx_ne _ (show HASH ≠ 5 from by simp only [HASH]; omega), hA,
        getIdx_setIdx_ne _ (show META ≠ 5 from by simp only [META]; omega),
        getIdx_setIdx_ne _ (show OCCUPIED ≠ 5 from by simp only [OCCUPIED]; omega),
        getIdx_setIdx_ne _ (show (3 : Nat) ≠ 5 from by omega),
        getIdx_setIdx_same _ (by rw [hlen]; omega)]
    have hb_r : getIdx (make_move_numba k s m).1 3 =
        set_bit (clear_bit (getIdx s 3) A1) D1 := by
      dsimp only [make_move_numba]
      rw [getIdx_setIdx_ne _ (show HASH ≠ 3 from by simp only [HASH]; omega), hA,
        getIdx_setIdx_ne _ (show META ≠ 3 from by simp only [META]; omega),
        getIdx_setIdx_ne _ (show OCCUPIED ≠ 3 from by simp only [OCCUPIED]; omega),
        getIdx_setIdx_same _ (by simp only [length_setIdx]; omega),
        getIdx_setIdx_ne _ (show (5 : Nat) ≠ 3 from by omega)]
    have hb_oth : ∀ i, i < 12 → i ≠ 5 → i ≠ 3 →
        getIdx (make_move_numba k s m).1 i = getIdx s i := by
      intro i hi hik hir
      dsimp only [make_move_numba]
      rw [getIdx_setIdx_ne _ (show HASH ≠ i from by simp only [HASH]; omega), hA,
        getIdx_setIdx_ne _ (show META ≠ i from by simp only [META]; omega),
        getIdx_setIdx_ne _ (show OCCUPIED ≠ i from by simp only [OCCUPIED]; omega),
        getIdx_setIdx_ne _ (show (3 : Nat) ≠ i from by omega),
        getIdx_setIdx_ne _ (show (5 : Nat) ≠ i from by omega)]
    have hS'meta : getIdx (make_move_numba k s m).1 META = mkMeta s m := by
      dsimp only [make_move_numba]
      rw [getIdx_setIdx_ne _ (show HASH ≠ META from by simp only [HASH, META]; omega), hA,
        getIdx_setIdx_same _ (by simp only [length_setIdx, META]; omega)]
    have hside' : unpack_side (getIdx (make_move_numba k s m).1 META) = 1 := by
      rw [hS'meta, mkMeta, unpack_side_pack _ _ _ _ (by omega), hcs]
    have HP : (if 1 - unpack_side (getIdx (make_move_numba k s m).1 META) = 0
        then ((5 : Int)) else ((5 : Int) + 6)).toNat = 5 := by
      rw [hside', if_pos (show (1 : Nat) - 1 = 0 from rfl)]
      rfl
    have HR : (if 1 - unpack_side (getIdx (make_move_numba k s m).1 META) = 0
        then 3 else 9) = 3 := by
      rw [hside', if_pos (show (1 : Nat) - 1 = 0 from rfl)]
    have HRf : (if 1 - unpack_side (getIdx (make_move_numba k s m).1 META) = 0
        then A1 else A8) = A1 := by
      rw [hside', if_pos (show (1 : Nat) - 1 = 0 from rfl)]
    have HRt : (if 1 - unpack_side (getIdx (make_move_numba k s m).1 META) = 0
        then D1 else D8) = D1 := by
      rw [hside', if_pos (show (1 : Nat) - 1 = 0 from rfl)]
    have HCN : ¬ 0 ≤ (mkUndo s m).capType := hcapn
    rw [hU, unmake_castleQ_eq _ m _ 5 3 A1 D1 hfl HP HR HRf HRt HCN]
    apply restore_finish
    · exact hlen
    · simp only [length_setIdx, length_make]
      exact hlen
    · exact hocc
    · intro i hi
      by_cases hir : i = 3
      · subst hir
        rw [getIdx_setIdx_same _ (by simp only [length_setIdx, length_make]; omega),
          getIdx_setIdx_ne _ (show (5 : Nat) ≠ 3 from by omega),
          getIdx_setIdx_ne _ (show META ≠ 3 from by simp only [META]; omega),
          hb_r, moveBit_roundtrip (hbnd 3 (by omega)) (show A1 < 64 from by norm_num [A1])
            (show D1 < 64 from by norm_num [D1]) hRbit (hallRT 3 (by omega))]
      · by_cases hik : i = 5
        · subst hik
          rw [getIdx_setIdx_ne _ (show (3 : Nat) ≠ 5 from by omega),
            getIdx_setIdx_same _ (by simp only [length_setIdx, length_make]; omega),
            getIdx_setIdx_ne _ (show META ≠ 5 from by simp only [META]; omega),
            hb_k, moveBit_roundtrip (hbnd 5 (by omega)) hf64 ht64 hKbit
              (hallT 5 (by omega))]
        · rw [getIdx_setIdx_ne _ (show (3 : Nat) ≠ i from by omega),
            getIdx_setIdx_ne _ (show (5 : Nat) ≠ i from by omega),
            getIdx_setIdx_ne _ (show META ≠ i from by simp only [META]; omega),
            hb_oth i hi hik hir]
    · rw [getIdx_setIdx_ne _ (show (3 : Nat) ≠ META from by simp only [META]; omega),
        getIdx_setIdx_ne _ (show (5 : Nat) ≠ META from by simp only [META]; omega),
        getIdx_setIdx_same _ (by rw [length_make, hlen]; simp only [META]; omega)]
      exact hum
    · rfl
  · -- black queenside
    have hF : moveFrom m = E8 := hFrom
    have hT : moveTo m = C8 := hTo
    have hr : unpack_castling (getIdx s META) &&& CASTLE_BQ ≠ 0 := hright
    obtain ⟨hKbit0, hRbit0⟩ := hcbq hr
    have hKbit : (getIdx s 11).testBit (moveFrom m) = true := by
      rw [hF, ← get_bit_eq_testBit]; exact hKbit0
    have hRbit : (getIdx s 9).testBit A8 = true := by
      rw [← get_bit_eq_testBit]; exact hRbit0
    have hoccTf : (getIdx s OCCUPIED).testBit (moveTo m) = false := by
      rw [hT, ← get_bit_eq_testBit]; exact hO2
    have hallT : ∀ j2, j2 < 12 → (getIdx s j2).testBit (moveTo m) = false :=
      allClear_of_notOcc hocc hoccTf
    have hallRT : ∀ j2, j2 < 12 → (getIdx s j2).testBit D8 = false :=
      allClear_of_notOcc hocc (by rw [← get_bit_eq_testBit]; exact hO1)
    have hcapE : get_piece_at s (moveTo m) = (-1, -1) := get_piece_at_empty hallT
    have hcapn : ¬ 0 ≤ (get_piece_at s (moveTo m)).1 := by
      rw [hcapE]; norm_num
    have hothersF : ∀ j2, j2 < 12 → j2 ≠ 11 →
        (getIdx s j2).testBit (moveFrom m) = false :=
      fun j2 hj2 hne => disjoint_other_clear hdisj (by omega) hj2 (Ne.symm hne) hKbit
    have hpcF : get_piece_at s (moveFrom m) = ((5 : Int), 1) := by
      rw [get_piece_at_of_bit (show (11 : Nat) < 12 from by omega) hKbit hothersF]
      norm_num
    have hpidxF : (if (get_piece_at s (moveFrom m)).2 = 0 then (get_piece_at s (moveFrom m)).1
        else (get_piece_at s (moveFrom m)).1 + 6).toNat = 11 := by
      rw [hpcF]; norm_num; rfl
    have hridxF : (if (get_piece_at s (moveFrom m)).2 = 0 then 3 else 9) = 9 := by
      rw [hpcF]; norm_num
    have hrfF : (if (get_piece_at s (moveFrom m)).2 = 0 then A1 else A8) = A8 := by
      rw [hpcF]; norm_num
    have hrtF : (if (get_piece_at s (moveFrom m)).2 = 0 then D1 else D8) = D8 := by
      rw [hpcF]; norm_num
    have hA := apply_castleQ_eq s m 11 9 A8 D8 hfl hcapn hpidxF hridxF hrfF hrtF
    have hb_k : getIdx (make_move_numba k s m).1 11 =
        set_bit (clear_bit (getIdx s 11) (moveFrom m)) (moveTo m) := by
      dsimp only [make_move_numba]
      rw [getIdx_setIdx_ne _ (show HASH ≠ 11 from by simp only [HASH]; omega), hA,
        getIdx_setIdx_ne _ (show META ≠ 11 from by simp only [META]; omega),
        getIdx_setIdx_ne _ (show OCCUPIED ≠ 11 from by simp only [OCCUPIED]; omega),
        getIdx_setIdx_ne _ (show (9 : Nat) ≠ 11 from by omega),
        getIdx_setIdx_same _ (by rw [hlen]; omega)]
    have hb_r : getIdx (make_move_numba k s m).1 9 =
        set_bit (clear_bit (getIdx s 9) A8) D8 := by
      dsimp only [make_move_numba]
      rw [getIdx_setIdx_ne _ (show HASH ≠ 9 from by simp only [HASH]; omega), hA,
        getIdx_setIdx_ne _ (show META ≠ 9 from by simp only [META]; omega),
        getIdx_setIdx_ne _ (show OCCUPIED ≠ 9 from by simp only [OCCUPIED]; omega),
        getIdx_setIdx_same _ (by simp only [length_setIdx]; omega),
        getIdx_setIdx_ne _ (show (11 : Nat) ≠ 9 from by omega)]
    have hb_oth : ∀ i, i < 12 → i ≠ 11 → i ≠ 9 →
        getIdx (make_move_numba k s m).1 i = getIdx s i := by
      intro i hi hik hir
      dsimp only [make_move_numba]
      rw [getIdx_setIdx_ne _ (show HASH ≠ i from by simp only [HASH]; omega), hA,
        getIdx_setIdx_ne _ (show META ≠ i from by simp only [META]; omega),
        getIdx_setIdx_ne _ (show OCCUPIED ≠ i from by simp only [OCCUPIED]; omega),
        getIdx_setIdx_ne _ (show (9 : Nat) ≠ i from by omega),
        getIdx_setIdx_ne _ (show (11 : Nat) ≠ i from by omega)]
    have hS'meta : getIdx (make_move_numba k s m).1 META = mkMeta s m := by
      dsimp only [make_move_numba]
      rw [getIdx_setIdx_ne _ (show HASH ≠ META from by simp only [HASH, META]; omega), hA,
        getIdx_setIdx_same _ (by simp only [length_setIdx, META]; omega)]
    have hside' : unpack_side (getIdx (make_move_numba k s m).1 META) = 0 := by
      rw [hS'meta, mkMeta, unpack_side_pack _ _ _ _ (by omega), hcs]
    have HP : (if 1 - unpack_side (getIdx (make_move_numba k s m).1 META) = 0
        then ((5 : Int)) else ((5 : Int) + 6)).toNat = 11 := by
      rw [hside', if_neg (show ¬ ((1 : Nat) - 0 = 0) from by norm_num)]
      rfl
    have HR : (if 1 - unpack_side (getIdx (make_move_numba k s m).1 META) = 0
        then 3 else 9) = 9 := by
      rw [hside', if_neg (show ¬ ((1 : Nat) - 0 = 0) from by norm_num)]
    have HRf : (if 1 - unpack_side (getIdx (make_move_numba k s m).1 META) = 0
        then A1 else A8) = A8 := by
      rw [hside', if_neg (show ¬ ((1 : Nat) - 0 = 0) from by norm_num)]
    have HRt : (if 1 - unpack_side (getIdx (make_move_numba k s m).1 META) = 0
        then D1 else D8) = D8 := by
      rw [hside', if_neg (show ¬ ((1 : Nat) - 0 = 0) from by norm_num)]
    have HCN : ¬ 0 ≤ (mkUndo s m).capType := hcapn
    rw [hU, unmake_castleQ_eq _ m _ 11 9 A8 D8 hfl HP HR HRf HRt HCN]
    apply restore_finish
    · exact hlen
    · simp only [length_setIdx, length_make]
      exact hlen
    · exact hocc
    · intro i hi
      by_cases hir : i = 9
      · subst hir
        rw [getIdx_setIdx_same _ (by simp only [length_setIdx, length_make]; omega),
          getIdx_setIdx_ne _ (show (11 : Nat) ≠ 9 from by omega),
          getIdx_setIdx_ne _ (show META ≠ 9 from by simp only [META]; omega),
          hb_r, moveBit_roundtrip (hbnd 9 (by omega)) (show A8 < 64 from by norm_num [A8])
            (show D8 < 64 from by norm_num [D8]) hRbit (hallRT 9 (by omega))]
      · by_cases hik : i = 11
        · subst hik
          rw [getIdx_setIdx_ne _ (show (9 : Nat) ≠ 11 from by omega),
            getIdx_setIdx_same _ (by simp only [length_setIdx, length_make]; omega),
            getIdx_setIdx_ne _ (show META ≠ 11 from by simp only [META]; omega),
            hb_k, moveBit_roundtrip (hbnd 11 (by omega)) hf64 ht64 hKbit
              (hallT 11 (by omega))]
        · rw [getIdx_setIdx_ne _ (show (9 : Nat) ≠ i from by omega),
            getIdx_setIdx_ne _ (show (11 : Nat) ≠ i from by omega),
            getIdx_setIdx_ne _ (show META ≠ i from by simp only [META]; omega),
            hb_oth i hi hik hir]
    · rw [getIdx_setIdx_ne _ (show (9 : Nat) ≠ META from by simp only [META]; omega),
        getIdx_setIdx_ne _ (show (11 : Nat) ≠ META from by simp only [META]; omega),
        getIdx_setIdx_same _ (by rw [length_make, hlen]; simp only [META]; omega)]
      exact hum
    · rfl


theorem roundtrip_ep (k : ZKeys) {s : State} {m : Nat} {c : Nat}
    (hwf : WellFormed s) (hcs : unpack_side (getIdx s META) = c)
    (hfl : moveFlags m = 7)
    (hpb : get_bit (getIdx s (6 * c)) (moveFrom m) = true)
    (hept : (moveTo m : Int) = unpack_ep_square (getIdx s META)) :
    unmake_move_numba (make_move_numba k s m).1 m (make_move_numba k s m).2 = s := by
  obtain ⟨hlen, hbnd, hdisj, hocc, hkings, hcastle, hep, hpawns⟩ := hwf
  have hocc' : getIdx s OCCUPIED = occUnion s := hocc
  have hc1 : c ≤ 1 := hcs ▸ unpack_side_le _
  have hf64 : moveFrom m < 64 := moveFrom_lt m
  have ht64 : moveTo m < 64 := moveTo_lt m
  have hU : (make_move_numba k s m).2 = mkUndo s m := rfl
  have hum : (mkUndo s m).meta = getIdx s META := rfl
  have hep0 : 0 ≤ unpack_ep_square (getIdx s META) := by
    rw [← hept]; exact Int.natCast_nonneg _
  obtain ⟨hallEp, hcond⟩ := hep hep0
  interval_cases c
  · -- white en passant
    have hpb' : (getIdx s 0).testBit (moveFrom m) = true := by
      rw [← get_bit_eq_testBit]; exact hpb
    rw [hcs, if_pos rfl] at hcond
    obtain ⟨hrow, hopp⟩ := hcond
    have hepT : (unpack_ep_square (getIdx s META)).toNat = moveTo m := by omega
    rw [hepT] at hrow hopp
    have hallT : ∀ j2, j2 < 12 → (getIdx s j2).testBit (moveTo m) = false := by
      intro j2 hj2
      have h0 := hallEp j2 hj2
      rw [hepT, get_bit_eq_testBit] at h0
      exact h0
    have hoppb : (getIdx s 6).testBit (moveTo m + 8) = true := by
      rw [← get_bit_eq_testBit]; exact hopp
    have he64 : (moveTo m + 8) < 64 := by omega
    have hcapE : get_piece_at s (moveTo m) = (-1, -1) := get_piece_at_empty hallT
    have hcapn : ¬ 0 ≤ (get_piece_at s (moveTo m)).1 := by
      rw [hcapE]; norm_num
    have hothersF : ∀ j2, j2 < 12 → j2 ≠ 0 →
        (getIdx s j2).testBit (moveFrom m) = false :=
      fun j2 hj2 hne => disjoint_other_clear hdisj (by omega) hj2 (Ne.symm hne) hpb'
    have hpcF : get_piece_at s (moveFrom m) = ((0 : Int), 0) := by
      rw [get_piece_at_of_bit (show (0 : Nat) < 12 from by omega) hpb' hothersF]
      norm_num
    have hpidxF : (if (get_piece_at s (moveFrom m)).2 = 0 then (get_piece_at s (moveFrom m)).1
        else (get_piece_at s (moveFrom m)).1 + 6).toNat = 0 := by
      rw [hpcF, if_pos (show (((0 : Int), (0 : Int)).2 = 0) from rfl)]
      rfl
    have heF : (if (get_piece_at s (moveFrom m)).2 = 0
        then unpack_ep_square (getIdx s META) + 8
        else unpack_ep_square (getIdx s META) - 8).toNat = (moveTo m + 8) := by
      rw [hpcF, if_pos (show (((0 : Int), (0 : Int)).2 = 0) from rfl)]
      omega
    have hoidxF : (if (get_piece_at s (moveFrom m)).2 = 0 then 6 else 0) = 6 := by
      rw [hpcF, if_pos (show (((0 : Int), (0 : Int)).2 = 0) from rfl)]
    have hA := apply_ep_eq s m 0 6 (moveTo m + 8) hfl hcapn hpidxF heF hoidxF
    have hb_p : getIdx (make_move_numba k s m).1 0 =
        set_bit (clear_bit (getIdx s 0) (moveFrom m)) (moveTo m) := by
      dsimp only [make_move_numba]
      rw [getIdx_setIdx_ne _ (show HASH ≠ 0 from by simp only [HASH]; omega), hA,
        getIdx_setIdx_ne _ (show META ≠ 0 from by simp only [META]; omega),
        getIdx_setIdx_ne _ (show OCCUPIED ≠ 0 from by simp only [OCCUPIED]; omega),
        getIdx_setIdx_ne _ (show (6 : Nat) ≠ 0 from by omega),
        getIdx_setIdx_same _ (by rw [hlen]; omega)]
    have hb_o : getIdx (make_move_numba k s m).1 6 =
        clear_bit (getIdx s 6) (moveTo m + 8) := by
      dsimp only [make_move_numba]
      rw [getIdx_setIdx_ne _ (show HASH ≠ 6 from by simp only [HASH]; omega), hA,
        getIdx_setIdx_ne _ (show META ≠ 6 from by simp only [META]; omega),
        getIdx_setIdx_ne _ (show OCCUPIED ≠ 6 from by simp only [OCCUPIED]; omega),
        getIdx_setIdx_same _ (by simp only [length_setIdx]; omega),
        getIdx_setIdx_ne _ (show (0 : Nat) ≠ 6 from by omega)]
    have hb_oth : ∀ i, i < 12 → i ≠ 0 → i ≠ 6 →
        getIdx (make_move_numba k s m).1 i = getIdx s i := by
      intro i hi hik hir
      dsimp only [make_move_numba]
      rw [getIdx_setIdx_ne _ (show HASH ≠ i from by simp only [HASH]; omega), hA,
        getIdx_setIdx_ne _ (show META ≠ i from by simp only [META]; omega),
        getIdx_setIdx_ne _ (show OCCUPIED ≠ i from by simp only [OCCUPIED]; omega),
        getIdx_setIdx_ne _ (show (6 : Nat) ≠ i from by omega),
        getIdx_setIdx_ne _ (show (0 : Nat) ≠ i from by omega)]
    have hS'meta : getIdx (make_move_numba k s m).1 META = mkMeta s m := by
      dsimp only [make_move_numba]
      rw [getIdx_setIdx_ne _ (show HASH ≠ META from by simp only [HASH, META]; omega), hA,
        getIdx_setIdx_same _ (by simp only [length_setIdx, META]; omega)]
    have hside' : unpack_side (getIdx (make_move_numba k s m).1 META) = 1 := by
      rw [hS'meta, mkMeta, unpack_side_pack _ _ _ _ (by omega), hcs]
    have HP : (if 1 - unpack_side (getIdx (make_move_numba k s m).1 META) = 0
        then ((0 : Int)) else ((0 : Int) + 6)).toNat = 0 := by
      rw [hside', if_pos (show (1 : Nat) - 1 = 0 from rfl)]
      rfl
    have HE : (if 1 - unpack_side (getIdx (make_move_numba k s m).1 META) = 0
        then ((moveTo m : Int) + 8) else ((moveTo m : Int) - 8)).toNat = (moveTo m + 8) := by
      rw [hside', if_pos (show (1 : Nat) - 1 = 0 from rfl)]
      omega
    have HO : (if 1 - unpack_side (getIdx (make_move_numba k s m).1 META) = 0
        then 6 else 0) = 6 := by
      rw [hside', if_pos (show (1 : Nat) - 1 = 0 from rfl)]
    have HCN : ¬ 0 ≤ (mkUndo s m).capType := hcapn
    rw [hU, unmake_ep_eq _ m _ 0 6 (moveTo m + 8) hfl HP HE HO HCN]
    apply restore_finish
    · exact hlen
    · simp only [length_setIdx, length_make]
      exact hlen
    · exact hocc
    · intro i hi
      by_cases hir : i = 6
      · subst hir
        rw [getIdx_setIdx_same _ (by simp only [length_setIdx, length_make]; omega),
          getIdx_setIdx_ne _ (show (0 : Nat) ≠ 6 from by omega),
          getIdx_setIdx_ne _ (show META ≠ 6 from by simp only [META]; omega),
          hb_o, set_clear_cancel (hbnd 6 (by omega)) he64 hoppb]
      · by_cases hik : i = 0
        · subst hik
          rw [getIdx_setIdx_ne _ (show (6 : Nat) ≠ 0 from by omega),
            getIdx_setIdx_same _ (by simp only [length_setIdx, length_make]; omega),
            getIdx_setIdx_ne _ (show META ≠ 0 from by simp only [META]; omega),
            hb_p, moveBit_roundtrip (hbnd 0 (by omega)) hf64 ht64 hpb'
              (hallT 0 (by omega))]
        · rw [getIdx_setIdx_ne _ (show (6 : Nat) ≠ i from by omega),
            getIdx_setIdx_ne _ (show (0 : Nat) ≠ i from by omega),
            getIdx_setIdx_ne _ (show META ≠ i from by simp only [META]; omega),
            hb_oth i hi hik hir]
    · rw [getIdx_setIdx_ne _ (show (6 : Nat) ≠ META from by simp only [META]; omega),
        getIdx_setIdx_ne _ (show (0 : Nat) ≠ META from by simp only [META]; omega),
        getIdx_setIdx_same _ (by rw [length_make, hlen]; simp only [META]; omega)]
      exact hum
    · rfl
  · -- black en passant
    have hpb' : (getIdx s 6).testBit (moveFrom m) = true := by
      rw [← get_bit_eq_testBit]; exact hpb
    rw [hcs, if_neg (show ¬ ((1 : Nat) = 0) from by norm_num)] at hcond
    obtain ⟨hrow, hopp⟩ := hcond
    have hepT : (unpack_ep_square (getIdx s META)).toNat = moveTo m := by omega
    rw [hepT] at hrow hopp
    have hallT : ∀ j2, j2 < 12 → (getIdx s j2).testBit (moveTo m) = false := by
      intro j2 hj2
      have h0 := hallEp j2 hj2
      rw [hepT, get_bit_eq_testBit] at h0
      exact h0
    have hoppb : (getIdx s 0).testBit (moveTo m - 8) = true := by
      rw [← get_bit_eq_testBit]; exact hopp
    have he64 : (moveTo m - 8) < 64 := by omega
    have hcapE : get_piece_at s (moveTo m) = (-1, -1) := get_piece_at_empty hallT
    have hcapn : ¬ 0 ≤ (get_piece_at s (moveTo m)).1 := by
      rw [hcapE]; norm_num
    have hothersF : ∀ j2, j2 < 12 → j2 ≠ 6 →
        (getIdx s j2).testBit (moveFrom m) = false :=
      fun j2 hj2 hne => disjoint_other_clear hdisj (by omega) hj2 (Ne.symm hne) hpb'
    have hpcF : get_piece_at s (moveFrom m) = ((0 : Int), 1) := by
      rw [get_piece_at_of_bit (show (6 : Nat) < 12 from by omega) hpb' hothersF]
      norm_num
    have hpidxF : (if (get_piece_at s (moveFrom m)).2 = 0 then (get_piece_at s (moveFrom m)).1
        else (get_piece_at s (moveFrom m)).1 + 6).toNat = 6 := by
      rw [hpcF, if_neg (show ¬ (((0 : Int), (1 : Int)).2 = 0) from by norm_num)]
      rfl
    have heF : (if (get_piece_at s (moveFrom m)).2 = 0
        then unpack_ep_square (getIdx s META) + 8
        else unpack_ep_square (getIdx s META) - 8).toNat = (moveTo m - 8) := by
      rw [hpcF, if_neg (show ¬ (((0 : Int), (1 : Int)).2 = 0) from by norm_num)]
      omega
    have hoidxF : (if (get_piece_at s (moveFrom m)).2 = 0 then 6 else 0) = 0 := by
      rw [hpcF, if_neg (show ¬ (((0 : Int), (1 : Int)).2 = 0) from by norm_num)]
    have hA := apply_ep_eq s m 6 0 (moveTo m - 8) hfl hcapn hpidxF heF hoidxF
    have hb_p : getIdx (make_move_numba k s m).1 6 =
        set_bit (clear_bit (getIdx s 6) (moveFrom m)) (moveTo m) := by
      dsimp only [make_move_numba]
      rw [getIdx_setIdx_ne _ (show HASH ≠ 6 from by simp only [HASH]; omega), hA,
        getIdx_setIdx_ne _ (show META ≠ 6 from by simp only [META]; omega),
        getIdx_setIdx_ne _ (show OCCUPIED ≠ 6 from by simp only [OCCUPIED]; omega),
        getIdx_setIdx_ne _ (show (0 : Nat) ≠ 6 from by omega),
        getIdx_setIdx_same _ (by rw [hlen]; omega)]
    have hb_o : getIdx (make_move_numba k s m).1 0 =
        clear_bit (getIdx s 0) (moveTo m - 8) := by
      dsimp only [make_move_numba]
      rw [getIdx_setIdx_ne _ (show HASH ≠ 0 from by simp only [HASH]; omega), hA,
        getIdx_setIdx_ne _ (show META ≠ 0 from by simp only [META]; omega),
        getIdx_setIdx_ne _ (show OCCUPIED ≠ 0 from by simp only [OCCUPIED]; omega),
        getIdx_setIdx_same _ (by simp only [length_setIdx]; omega),
        getIdx_setIdx_ne _ (show (6 : Nat) ≠ 0 from by omega)]
    have hb_oth : ∀ i, i < 12 → i ≠ 6 → i ≠ 0 →
        getIdx (make_move_numba k s m).1 i = getIdx s i := by
      intro i hi hik hir
      dsimp only [make_move_numba]
      rw [getIdx_setIdx_ne _ (show HASH ≠ i from by simp only [HASH]; omega), hA,
        getIdx_setIdx_ne _ (show META ≠ i from by simp only [META]; omega),
        getIdx_setIdx_ne _ (show OCCUPIED ≠ i from by simp only [OCCUPIED]; omega),
        getIdx_setIdx_ne _ (show (0 : Nat) ≠ i from by omega),
        getIdx_setIdx_ne _ (show (6 : Nat) ≠ i from by omega)]
    have hS'meta : getIdx (make_move_numba k s m).1 META = mkMeta s m := by
      dsimp only [make_move_numba]
      rw [getIdx_setIdx_ne _ (show HASH ≠ META from by simp only [HASH, META]; omega), hA,
        getIdx_setIdx_same _ (by simp only [length_setIdx, META]; omega)]
    have hside' : unpack_side (getIdx (make_move_numba k s m).1 META) = 0 := by
      rw [hS'meta, mkMeta, unpack_side_pack _ _ _ _ (by omega), hcs]
    have HP : (if 1 - unpack_side (getIdx (make_move_numba k s m).1 META) = 0
        then ((0 : Int)) else ((0 : Int) + 6)).toNat = 6 := by
      rw [hside', if_neg (show ¬ ((1 : Nat) - 0 = 0) from by norm_num)]
      rfl
    have HE : (if 1 - unpack_side (getIdx (make_move_numba k s m).1 META) = 0
        then ((moveTo m : Int) + 8) else ((moveTo m : Int) - 8)).toNat = (moveTo m - 8) := by
      rw [hside', if_neg (show ¬ ((1 : Nat) - 0 = 0) from by norm_num)]
      omega
    have HO : (if 1 - unpack_side (getIdx (make_move_numba k s m).1 META) = 0
        then 6 else 0) = 0 := by
      rw [hside', if_neg (show ¬ ((1 : Nat) - 0 = 0) from by norm_num)]
    have HCN : ¬ 0 ≤ (mkUndo s m).capType := hcapn
    rw [hU, unmake_ep_eq _ m _ 6 0 (moveTo m - 8) hfl HP HE HO HCN]
    apply restore_finish
    · exact hlen
    · simp only [length_setIdx, length_make]
      exact hlen
    · exact hocc
    · intro i hi
      by_cases hir : i = 0
      · subst hir
        rw [getIdx_setIdx_same _ (by simp only [length_setIdx, length_make]; omega),
          getIdx_setIdx_ne _ (show (6 : Nat) ≠ 0 from by omega),
          getIdx_setIdx_ne _ (show META ≠ 0 from by simp only [META]; omega),
          hb_o, set_clear_cancel (hbnd 0 (by omega)) he64 hoppb]
      · by_cases hik : i = 6
        · subst hik
          rw [getIdx_setIdx_ne _ (show (0 : Nat) ≠ 6 from by omega),
            getIdx_setIdx_same _ (by simp only [length_setIdx, length_make]; omega),
            getIdx_setIdx_ne _ (show META ≠ 6 from by simp only [META]; omega),
            hb_p, moveBit_roundtrip (hbnd 6 (by omega)) hf64 ht64 hpb'
              (hallT 6 (by omega))]
        · rw [getIdx_setIdx_ne _ (show (0 : Nat) ≠ i from by omega),
            getIdx_setIdx_ne _ (show (6 : Nat) ≠ i from by omega),
            getIdx_setIdx_ne _ (show META ≠ i from by simp only [META]; omega),
            hb_oth i hi hik hir]
    · rw [getIdx_setIdx_ne _ (show (0 : Nat) ≠ META from by simp only [META]; omega),
        getIdx_setIdx_ne _ (show (6 : Nat) ≠ META from by simp only [META]; omega),
        getIdx_setIdx_same _ (by rw [length_make, hlen]; simp only [META]; omega)]
      exact hum
    · rfl


/-- Dispatch of the per-flag round-trips over the generator facts. -/
theorem make_unmake_state (k : ZKeys) {s : State} {m : Nat} (hwf : WellFormed s)
    (hmf : MoveFacts s (unpack_side (getIdx s META)) m) :
    unmake_move_numba (make_move_numba k s m).1 m (make_move_numba k s m).2 = s := by
  rcases hmf with ⟨hfl, ⟨pt, hpt, hpb⟩, hclear⟩ |
    ⟨hfl1, hfl4, hpb, hclear⟩ |
    ⟨hfl, hright, hFrom, hTo, hO1, hO2⟩ |
    ⟨hfl, hright, hFrom, hTo, hO1, hO2, hO3⟩ |
    ⟨hfl, hpb, hept⟩
  · exact roundtrip_norm k hwf rfl hfl hpt hpb hclear
  · exact roundtrip_promo k hwf rfl hfl1 hfl4 hpb hclear
  · exact roundtrip_castleK k hwf rfl hfl hright hFrom hTo hO1 hO2
  · exact roundtrip_castleQ k hwf rfl hfl hright hFrom hTo hO1 hO2
  · exact roundtrip_ep k hwf rfl hfl hpb hept

/-- The metadata write of make always packs the flipped side, whatever the
move. -/
theorem make_side_flip (k : ZKeys) (s : State) (m : Nat) (hlen : s.length = 15) :
    unpack_side (getIdx (make_move_numba k s m).1 META) =
      1 - unpack_side (getIdx s META) := by
  have h1 : getIdx (make_move_numba k s m).1 META = mkMeta s m := by
    dsimp only [make_move_numba]
    rw [getIdx_setIdx_ne _ (show HASH ≠ META from by simp only [HASH, META]; omega)]
    simp only [applyMoveBoards, mkMeta, mkCastling, mkNewEp, mkHalfmove]
    rw [getIdx_setIdx_same _ (by
      simp only [length_setIdx, apply_ite List.length, ite_self, META]
      omega)]
  rw [h1, mkMeta, unpack_side_pack _ _ _ _ (by omega)]

/-- **C1** (spec §4.2 / §8 invariant): for every well-formed position and
every legal move of the side to move, `make_move` followed by
`unmake_move` with the returned undo record restores the `Board` exactly —
all twelve piece bitboards, the occupancy board, the metadata word
(castling, en passant, halfmove clock, side), the Zobrist hash slot and
the fullmove counter. -/
theorem make_unmake_roundtrip (k : ZKeys) (b : Board) (m : Nat)
    (hwf : WellFormed b.state)
    (hm : m ∈ generate_legal_moves_numba b.state (unpack_side (getIdx b.state META))) :
    Board.unmake_move (Board.make_move k b m).1 m (Board.make_move k b m).2 = b := by
  have hc1 : unpack_side (getIdx b.state META) ≤ 1 := unpack_side_le _
  have hmf := legal_moves_sound hwf hc1 hm
  have hstate := make_unmake_state k hwf hmf
  have hlen : b.state.length = 15 := hwf.1
  have hflip := make_side_flip k b.state m hlen
  obtain ⟨st, fm⟩ := b
  dsimp only [Board.make_move, Board.unmake_move]
  rw [Board.mk.injEq]
  refine ⟨hstate, ?_⟩
  rw [hflip]
  rcases Nat.le_one_iff_eq_zero_or_eq_one.mp (unpack_side_le (getIdx st META)) with h0 | h0 <;>
    rw [h0] <;> norm_num


set_option maxRecDepth 8000 in
/-- Witness for C1: the double pawn push e2–e4 on the initial position. -/
theorem make_unmake_roundtrip_witness :
    WellFormed (create_initial_state zobristZero) ∧
    encode_move 52 36 0 ∈ generate_legal_moves_numba (create_initial_state zobristZero)
      (unpack_side (getIdx (create_initial_state zobristZero) META)) ∧
    Board.unmake_move
      (Board.make_move zobristZero ⟨create_initial_state zobristZero, 1⟩
        (encode_move 52 36 0)).1
      (encode_move 52 36 0)
      (Board.make_move zobristZero ⟨create_initial_state zobristZero, 1⟩
        (encode_move 52 36 0)).2 =
      ⟨create_initial_state zobristZero, 1⟩ := by
  have hwf : WellFormed (create_initial_state zobristZero) := by
    refine ⟨by decide, ?_, ?_, ?_, ?_, ?_, ?_, ?_⟩
    · intro i hi
      interval_cases i <;> decide
    · intro i j hi hj hne
      interval_cases i <;> interval_cases j <;> first | (exact absurd rfl hne) | decide
    · show getIdx (create_initial_state zobristZero) OCCUPIED =
        occUnion (create_initial_state zobristZero)
      decide
    · exact ⟨⟨60, by norm_num, by decide⟩, ⟨4, by norm_num, by decide⟩⟩
    · exact ⟨fun h => ⟨by decide, by decide⟩, fun h => ⟨by decide, by decide⟩,
        fun h => ⟨by decide, by decide⟩, fun h => ⟨by decide, by decide⟩⟩
    · intro h
      exact absurd h (by decide)
    · intro sq h1 h2
      interval_cases sq <;> first | (exact ⟨by decide, by decide⟩) | omega
  have hm : encode_move 52 36 0 ∈ generate_legal_moves_numba (create_initial_state zobristZero)
      (unpack_side (getIdx (create_initial_state zobristZero) META)) := by decide
  exact ⟨hwf, hm, make_unmake_roundtrip zobristZero _ _ hwf hm⟩


/-- C3: for the Kiwipete position (FEN placement
`r3k2r/p1ppqpb1/bn2pnp1/3PN3/1p2P3/2N2Q1p/PPPBBPPP/R3K2R`, white to move,
castling KQkq, no en-passant square), `generate_legal_moves` returns
exactly 48 moves. -/
theorem kiwipete_has_48_legal_moves :
    (generate_legal_moves_numba kiwipete 0).length = 48 := by decide

/-- C10: for every position with exactly one legal move, `Search.search`
returns that move with score 0 immediately — for every requested depth and
whatever the iterative-deepening tail `deep` would compute, so no
deepening iteration influences the result. -/
theorem single_legal_move_short_circuit
    (deep : State → Nat → List Nat → Option Nat × Int) (s : State) (depth : Nat) (m : Nat)
    (h : generate_legal_moves_numba s (unpack_side (getIdx s META)) = [m]) :
    search deep s depth = (some m, 0) := by
  unfold search
  rw [h]
  simp

/-- Witness for C10 at the concrete one-reply position (only a2a3 = 2608
is legal), with a `deep` tail that would return garbage if consulted. -/
theorem single_legal_move_short_circuit_witness :
    generate_legal_moves_numba onlyMovePos (unpack_side (getIdx onlyMovePos META)) = [2608] ∧
      search (fun _ _ _ => (none, 12345)) onlyMovePos 9 = (some 2608, 0) :=
  ⟨by decide, single_legal_move_short_circuit _ _ _ _ (by decide)⟩

/-- C4 (counterexample): at the fool's-mate position white is checkmated
(in check, no legal moves), yet `Search.search` returns the sentinel with
score 0, not a mate score of magnitude at least `MATE_SCORE - 100`. -/
theorem search_checkmate_returns_zero :
    generate_legal_moves_numba foolsMate 0 = [] ∧
      moves_is_check foolsMate 0 = true ∧
      search (fun _ _ _ => (none, 12345)) foolsMate 5 = (none, 0) ∧
      ¬ (MATE_SCORE - 100 ≤ |(0 : Int)|) := by
  refine ⟨by decide, by decide, by decide, by decide⟩

/-- C4 (amended): for every position with no legal moves — checkmate and
stalemate alike — `Search.search` returns the sentinel null move together
with score 0, for every depth and every deepening tail. -/
theorem search_no_legal_moves
    (deep : State → Nat → List Nat → Option Nat × Int) (s : State) (depth : Nat)
    (h : generate_legal_moves_numba s (unpack_side (getIdx s META)) = []) :
    search deep s depth = (none, 0) := by
  unfold search
  rw [h]
  simp

/-- Witness for the amended C4 at the fool's-mate position. -/
theorem search_no_legal_moves_witness :
    generate_legal_moves_numba foolsMate (unpack_side (getIdx foolsMate META)) = [] ∧
      search (fun _ _ _ => (none, 777)) foolsMate 3 = (none, 0) :=
  ⟨by decide, search_no_legal_moves _ _ _ (by decide)⟩

/-- C8 (code evaluation at the failing input): in the position
`4k3/8/8/1Pp5/8/8/8/4K2R w K c6`, both the en-passant capture b5xc6
(29849, flag 7) and the kingside castle e1g1 (24508, flag 5) are legal;
`Search._is_capture` classifies the en-passant capture as a non-capture
and the castle as a capture, so quiescence's capture list keeps exactly
the castle. -/
theorem capture_classifier_flag_confusion :
    29849 ∈ generate_legal_moves_numba epCastlePos 0 ∧
      moveFlags 29849 = FLAG_EN_PASSANT ∧
      search_is_capture epCastlePos 29849 = false ∧
      24508 ∈ generate_legal_moves_numba epCastlePos 0 ∧
      moveFlags 24508 = FLAG_CASTLING_KINGSIDE ∧
      search_is_capture epCastlePos 24508 = true ∧
      get_captures epCastlePos (generate_legal_moves_numba epCastlePos 0) = [24508] := by
  decide

/-- C7 (code evaluation at the failing input): on the starting position
`Board.make_null_move` leaves the side-to-move bit unchanged (white both
before and after) and changes the castling-rights field from 15 to 2,
because it toggles metadata bit 0 (the white-kingside right) instead of
the side bit 20 and clears bits 2–9 instead of the en-passant field's
bits 4–10. -/
theorem make_null_move_corrupts_metadata (k : ZKeys) :
    unpack_side (getIdx (create_initial_state k) META) = 0 ∧
      unpack_castling (getIdx (create_initial_state k) META) = 15 ∧
      unpack_side (getIdx (make_null_move k (create_initial_state k)).1 META) = 0 ∧
      unpack_castling (getIdx (make_null_move k (create_initial_state k)).1 META) = 2 := by
  have hm0 : getIdx (create_initial_state k) META = pack_metadata CASTLE_ALL (-1) 0 0 := rfl
  have hm1 : getIdx (make_null_move k (create_initial_state k)).1 META =
      (pack_metadata CASTLE_ALL (-1) 0 0 ^^^ 1) &&& (MASK64 ^^^ (0xFF <<< 2)) := rfl
  rw [hm0, hm1]
  refine ⟨by decide, by decide, by decide, by decide⟩

/-- C2 (code evaluation at the failing input): after `make_null_move` on
the starting position the stored hash no longer equals the hash recomputed
from scratch, for every key table in which the XOR of the castling-15 key,
the side key and the en-passant d-file key differs from the castling-2 key
(the stored hash gains the side and EP-file keys while the corrupted
metadata makes the recomputation use castling index 2 and no side key).

First a helper: the piece-key fold only depends on the twelve piece
boards. -/
theorem zobristPiecesFold_congr (k : ZKeys) (s s' : State)
    (h : ∀ i, i < 12 → getIdx s i = getIdx s' i) :
    zobristPiecesFold k s = zobristPiecesFold k s' := by
  have hr : List.range 12 = [0, 1, 2, 3, 4, 5, 6, 7, 8, 9, 10, 11] := rfl
  unfold zobristPiecesFold
  rw [hr]
  simp only [List.foldl]
  rw [h 0 (by omega), h 1 (by omega), h 2 (by omega), h 3 (by omega), h 4 (by omega),
    h 5 (by omega), h 6 (by omega), h 7 (by omega), h 8 (by omega), h 9 (by omega),
    h 10 (by omega), h 11 (by omega)]

theorem zobrist_invariant_fails_after_null_move (k : ZKeys)
    (hk : k.castling 15 ^^^ k.side ^^^ k.ep 3 ≠ k.castling 2) :
    getIdx (make_null_move k (create_initial_state k)).1 HASH ≠
      compute_zobrist_hash k (make_null_move k (create_initial_state k)).1 := by
  have hmeta : getIdx (create_initial_state k) META = pack_metadata CASTLE_ALL (-1) 0 0 := rfl
  have hm1 : getIdx (make_null_move k (create_initial_state k)).1 META =
      (pack_metadata CASTLE_ALL (-1) 0 0 ^^^ 1) &&& (MASK64 ^^^ (0xFF <<< 2)) := rfl
  have hinit : compute_zobrist_hash k initialArray =
      zobristPiecesFold k initialArray ^^^ k.castling 15 := by
    have hc : unpack_castling (getIdx initialArray META) = 15 := by decide
    have he : unpack_ep_square (getIdx initialArray META) = -1 := by decide
    have hs : unpack_side (getIdx initialArray META) = 0 := by decide
    simp only [compute_zobrist_hash, hc, he, hs]
    norm_num
  have hL : getIdx (make_null_move k (create_initial_state k)).1 HASH =
      (if (getIdx (create_initial_state k) META >>> 2) &&& 0xFF < 8 then
        (getIdx (create_initial_state k) HASH ^^^ k.side) ^^^
          k.ep ((getIdx (create_initial_state k) META >>> 2) &&& 0xFF)
      else getIdx (create_initial_state k) HASH ^^^ k.side) := by rfl
  rw [hmeta] at hL
  have hf : (pack_metadata CASTLE_ALL (-1) 0 0 >>> 2) &&& 0xFF = 3 := by decide
  rw [hf, if_pos (by norm_num : (3 : Nat) < 8)] at hL
  have h0 : getIdx (create_initial_state k) HASH = compute_zobrist_hash k initialArray := rfl
  rw [h0, hinit] at hL
  have hfold : zobristPiecesFold k (make_null_move k (create_initial_state k)).1 =
      zobristPiecesFold k initialArray := by
    apply zobristPiecesFold_congr
    intro i hi
    interval_cases i <;> rfl
  have hRc : unpack_castling (getIdx (make_null_move k (create_initial_state k)).1 META) = 2 := by
    rw [hm1]; decide
  have hRe : unpack_ep_square (getIdx (make_null_move k (create_initial_state k)).1 META) = -1 := by
    rw [hm1]; decide
  have hRs : unpack_side (getIdx (make_null_move k (create_initial_state k)).1 META) = 0 := by
    rw [hm1]; decide
  have hR : compute_zobrist_hash k (make_null_move k (create_initial_state k)).1 =
      zobristPiecesFold k initialArray ^^^ k.castling 2 := by
    simp only [compute_zobrist_hash, hRc, hRe, hRs, hfold]
    norm_num
  intro h
  apply hk
  rw [hL, hR, Nat.xor_assoc, Nat.xor_assoc, ← Nat.xor_assoc (k.castling 15)] at h
  exact Nat.xor_right_inj.mp h


/-- Witness for C2's key-genericity hypothesis at a concrete key table. -/
theorem zobrist_invariant_fails_after_null_move_witness :
    kWitness.castling 15 ^^^ kWitness.side ^^^ kWitness.ep 3 ≠ kWitness.castling 2 ∧
      getIdx (make_null_move kWitness (create_initial_state kWitness)).1 HASH ≠
        compute_zobrist_hash kWitness (make_null_move kWitness (create_initial_state kWitness)).1 :=
  ⟨by decide, zobrist_invariant_fails_after_null_move kWitness (by decide)⟩

set_option maxRecDepth 4000 in
/-- C5 (counterexample): the evaluator run on a position where white is a
queen up with black to move returns +895 — the white-perspective total —
not the side-to-move-perspective value −895 the claim requires (the raw
white-minus-black material-plus-PSQT total of this position is 895). -/
theorem evaluate_not_side_to_move :
    evalCounterBoard.side = 1 ∧
      Eval.evaluate evalCounterBoard = 895 ∧
      Eval.evaluate_material evalCounterBoard + Eval.evaluate_position evalCounterBoard = 895 ∧
      (895 : Int) ≠ -895 := by
  decide

/-- C5 (amended): `Evaluator.evaluate` returns the white-perspective
score — the material term plus, when the material difference does not
exceed 1500 centipawns, the piece-square term — and never reads the side
to move, so the result is identical whichever side is to move and is never
negated for black. -/
theorem evaluate_side_independent (b : EvalBoard) (x : Nat) :
    Eval.evaluate { b with side := x } = Eval.evaluate b ∧
      Eval.evaluate b =
        (if 1500 < |Eval.evaluate_material b| then Eval.evaluate_material b
         else Eval.evaluate_material b + Eval.evaluate_position b) :=
  ⟨rfl, rfl⟩

/-- C6 (counterexample): a probe whose slot hash matches but whose stored
depth (1) is below the requested depth (2) returns `none` — not the stored
best move (42) that the claim says it returns for move ordering. -/
theorem probe_shallow_hit_returns_none :
    tt6.hash_keys (1285 &&& tt6.mask) = 1285 ∧
      tt6.depths (1285 &&& tt6.mask) = 1 ∧
      tt6.best_moves (1285 &&& tt6.mask) = 42 ∧
      ((1 : Int) < 2) ∧
      tt6.probe 1285 2 (-5) 5 = none ∧
      tt6.probe 1285 2 (-5) 5 ≠ some (none, 42) := by
  decide

/-- C6 (amended): probe's full behaviour.  If the slot's hash matches and
its stored depth is at least the requested depth, the stored score is
returned for cutoff exactly when the node type is exact, or lower-bound
with score ≥ β, or upper-bound with score ≤ α; in that same
sufficient-depth case, when the score is unusable, the stored best move
alone is returned (when nonzero).  If the hash matches but the stored
depth is below the requested depth — or the hash differs — probe returns
nothing. -/
theorem probe_characterization (tt : TTState) (z : Nat) (d α β : Int) :
    tt.probe z d α β =
      (if tt.hash_keys (z &&& tt.mask) = z ∧ d ≤ tt.depths (z &&& tt.mask) then
        if tt.node_types (z &&& tt.mask) = EXACT ∨
            (tt.node_types (z &&& tt.mask) = LOWER_BOUND ∧ β ≤ tt.scores (z &&& tt.mask)) ∨
            (tt.node_types (z &&& tt.mask) = UPPER_BOUND ∧ tt.scores (z &&& tt.mask) ≤ α) then
          some (some (tt.scores (z &&& tt.mask)), tt.best_moves (z &&& tt.mask))
        else if tt.best_moves (z &&& tt.mask) ≠ 0 then some (none, tt.best_moves (z &&& tt.mask))
        else none
      else none) := by
  unfold TTState.probe EXACT LOWER_BOUND UPPER_BOUND
  dsimp only
  simp only [ge_iff_le]
  split_ifs <;> first | rfl | tauto

/-- C9: `TranspositionTable.store` overwrites the indexed slot exactly
when the slot is empty (hash 0), the new hash equals the stored hash, the
new depth is at least the stored depth, or the stored age differs from the
current search's age; on overwrite the slot receives the new entry with
its age field set to the current search's age (which `new_search` keeps
below 256). -/
theorem store_replacement_policy (tt : TTState) (z : Nat) (sc : Int) (mv : Nat)
    (d : Int) (nt : Nat) (hage : tt.current_age < 256) :
    tt.store z sc mv d nt =
      (if tt.hash_keys (z &&& tt.mask) = 0 ∨ tt.hash_keys (z &&& tt.mask) = z ∨
          tt.depths (z &&& tt.mask) ≤ d ∨ tt.ages (z &&& tt.mask) ≠ tt.current_age then
        { tt with
          hash_keys := Function.update tt.hash_keys (z &&& tt.mask) z
          scores := Function.update tt.scores (z &&& tt.mask) (int16wrap sc)
          best_moves := Function.update tt.best_moves (z &&& tt.mask) mv
          depths := Function.update tt.depths (z &&& tt.mask) (int8wrap d)
          node_types := Function.update tt.node_types (z &&& tt.mask) (nt % 256)
          ages := Function.update tt.ages (z &&& tt.mask) tt.current_age }
      else tt) := by
  unfold TTState.store
  rw [Nat.mod_eq_of_lt hage]
  dsimp only
  simp only [ge_iff_le, Bool.or_eq_true, decide_eq_true_eq]
  split_ifs <;>
    first
      | rfl
      | tauto
      | (simp only [Bool.or_eq_true, decide_eq_true_eq] at *; tauto)

/-- Witness for C9 at a concrete table (the slot is overwritten: the
stored hash matches). -/
theorem store_replacement_policy_witness :
    tt6.current_age < 256 ∧
      tt6.store 1285 99 7 3 1 =
        (if tt6.hash_keys (1285 &&& tt6.mask) = 0 ∨ tt6.hash_keys (1285 &&& tt6.mask) = 1285 ∨
            tt6.depths (1285 &&& tt6.mask) ≤ 3 ∨ tt6.ages (1285 &&& tt6.mask) ≠ tt6.current_age then
          { tt6 with
            hash_keys := Function.update tt6.hash_keys (1285 &&& tt6.mask) 1285
            scores := Function.update tt6.scores (1285 &&& tt6.mask) (int16wrap 99)
            best_moves := Function.update tt6.best_moves (1285 &&& tt6.mask) 7
            depths := Function.update tt6.depths (1285 &&& tt6.mask) (int8wrap 3)
            node_types := Function.update tt6.node_types (1285 &&& tt6.mask) (1 % 256)
            ages := Function.update tt6.ages (1285 &&& tt6.mask) tt6.current_age }
        else tt6) :=
  ⟨by decide, store_replacement_policy tt6 1285 99 7 3 1 (by decide)⟩

end ChessAI
